import Mathlib

/-!
# UTBGO backend: session tokens and identity resolution

A shallow embedding of the Go sources `lib/app/main.go` (`AuthMiddleware`) and
`lib/app/handlers.go` (`generateJWT`, `getOrCreateUser`, `handleLogin`,
`handleVerifyToken`, the `userID` prologue of the protected handlers, the page
arithmetic of `handleGetVideosFeed`, the classification and thumbnail of
`handleUploadVideo`, `handleToggleLike`), together with the parts of their
collaborators whose behaviour the properties depend on:

* `github.com/golang-jwt/jwt/v4` (as of v4.5): `Parse` with its default claim
  validation (`MapClaims.Valid`) and the HMAC signing methods;
* `github.com/gin-gonic/gin`: the handler chain (`Next`, `Abort`, `Set`, `JSON`);
* `database/sql` over PostgreSQL: the four tables `getOrCreateUser` touches and
  the table `interacciones`.

Conventions: Go `int`/`int64` values are `Int`, wrapped to 64 bits where the code
can leave that range; a `float64` that came out of a JSON number or out of
`float64(int)` is the exact rational it denotes, and its conversion to an integer
is the one of an amd64 build; byte strings are `String`. The HMAC primitive and the base64/JSON wire codec are
parameters (`Env`), the control flow around them is modelled in full.
-/

namespace UTBGO

/-! ## Numbers -/

/-- Number of halvings needed to bring `n` below `2^53` (at most `fuel`; 64 are
enough for every `n` below `2^117`, the 64-bit integers among them). -/
def excessBits : Nat → Nat → Nat
  | 0, _ => 0
  | fuel + 1, n => if n < 2 ^ 53 then 0 else 1 + excessBits fuel (n / 2)

/-- Round a natural number to the nearest value with a 53-bit significand,
ties to even: the magnitude of Go's `float64(n)`. -/
def roundNat53 (n : Nat) : Nat :=
  let shift := excessBits 64 n
  let q := n / 2 ^ shift
  let r := n % 2 ^ shift
  let half := 2 ^ shift / 2
  let q' := if half < r ∨ (r = half ∧ q % 2 = 1 ∧ 0 < shift) then q + 1 else q
  q' * 2 ^ shift

/-- Go's conversion `float64(i)` of an integer, as the exact value of the result. -/
def float64OfInt (i : Int) : Int :=
  if i < 0 then -((roundNat53 i.natAbs : Nat) : Int) else ((roundNat53 i.natAbs : Nat) : Int)

/-- The result of an `int` or `int64` operation, wrapped to 64 bits. -/
def wrapInt64 (x : Int) : Int :=
  (x + 9223372036854775808) % 18446744073709551616 - 9223372036854775808

/-- Function `math.Modf`: the integer part of a float toward zero, itself a float,
and the fraction that is left; both are exact. -/
def Modf (q : ℚ) : Int × ℚ :=
  let whole : Int := if 0 ≤ q then ⌊q⌋ else ⌈q⌉
  (whole, q - (whole : ℚ))

/-- Go's conversions `int(f)` and `int64(f)` of a `float64`, as compiled for amd64:
the integer part toward zero when it is a 64-bit integer; for any other float the
language leaves the result to the implementation, and the conversion instruction
(`CVTTSD2SQ`) yields the least 64-bit integer. -/
def truncFloat (q : ℚ) : Int :=
  let whole := (Modf q).1
  if -9223372036854775808 ≤ whole ∧ whole < 9223372036854775808 then whole
  else -9223372036854775808

/-! ## JSON values and tokens -/

/-- A value as `encoding/json` decodes it into `interface{}`: numbers become
`float64`. Arrays and objects are never inspected by the code. -/
inductive JVal where
  | null
  | bool (b : Bool)
  | number (q : ℚ)
  | string (s : String)
  | array
  | object
  deriving DecidableEq

/-- A decoded JSON object (`map[string]interface{}`), as an association list. -/
abbrev JObject := List (String × JVal)

/-- A Go value placed in a claims map before it is serialised. -/
inductive GoValue where
  | float64 (q : ℚ)
  | int64 (i : Int)
  | string (s : String)
  deriving DecidableEq

/-- What a Go value reads back as after `json.Marshal` and `json.Unmarshal`
into `interface{}`: every number is a `float64`. -/
def GoValue.unmarshal : GoValue → JVal
  | .float64 q => .number q
  | .int64 i => .number ((float64OfInt i : Int) : ℚ)
  | .string s => .string s

/-- The decoded object of a Go map. -/
def unmarshalMap (m : List (String × GoValue)) : JObject :=
  m.map fun kv => (kv.1, kv.2.unmarshal)

/-- The three dot-separated segments of a compact token, decoded: header and
claims objects, the text that was signed (`parts[0] + "." + parts[1]`) and the
signature bytes. -/
structure Token where
  header : JObject
  claims : JObject
  signingInput : String
  signature : String
  deriving DecidableEq

/-- The signing methods the jwt package registers. -/
inductive SigningMethod where
  | hmac (alg : String)
  | other (alg : String)
  deriving DecidableEq

/-- Package function `jwt.GetSigningMethod`: the registered method of a name. -/
def GetSigningMethod (alg : String) : Option SigningMethod :=
  if alg = "HS256" ∨ alg = "HS384" ∨ alg = "HS512" then some (.hmac alg)
  else if alg = "RS256" ∨ alg = "RS384" ∨ alg = "RS512"
      ∨ alg = "PS256" ∨ alg = "PS384" ∨ alg = "PS512"
      ∨ alg = "ES256" ∨ alg = "ES384" ∨ alg = "ES512"
      ∨ alg = "EdDSA" ∨ alg = "none" then some (.other alg)
  else none

/-- The constant `unixToInternal` of package `time`: the seconds from the first
of January of the year 1, where a `time.Time` starts counting, to the Unix epoch. -/
def unixToInternal : Int := 62135596800

/-- What `time.Now().Unix()` can read: an `int64` for which `time.Unix(now, 0)` does
not overflow the seconds a `time.Time` counts (it would for a clock some 292
thousand million years ahead). -/
def ClockRange (now : Int) : Prop :=
  -9223372036854775808 ≤ now ∧ now < 9223372036854775808 - unixToInternal

instance (now : Int) : Decidable (ClockRange now) := by
  unfold ClockRange
  exact inferInstance

/-- The process environment and the primitives outside the repository. -/
structure Env where
  /-- Value of `os.Getenv("JWT_SECRET_KEY")`. -/
  JWT_SECRET_KEY : String
  /-- Current unix time in seconds (`time.Now().Unix()`, `jwt.TimeFunc().Unix()`). -/
  now : Int
  /-- The clock reads a time the `time` package can hold. -/
  now_range : ClockRange now
  /-- The MAC of a signing string under a key, per HMAC algorithm name. -/
  hmac : String → String → String → String
  /-- The jwt package's `Token.SigningString`: base64url of the JSON header, a dot,
  base64url of the JSON claims. -/
  signingString : List (String × GoValue) → List (String × GoValue) → String
  /-- Splitting a token string at its dots and decoding the segments; `none` for a
  string that is not three well-formed segments. -/
  decodeSegments : String → Option Token

/-! ## The jwt package: claim validation and `Parse` -/

/-- Function `time.Unix(sec, nsec)`, then `Truncate(time.Second)`: the seconds the
resulting `time.Time` counts from the year 1 (its nanoseconds are zero, as they are
without truncation when `nsec` is 0). `Unix` carries the whole seconds of `nsec`
into `sec`, rounding down, and adds `unixToInternal`; both additions are `int64`
additions and wrap. -/
def timeUnix (sec nsec : Int) : Int :=
  wrapInt64 (sec + nsec / 1000000000 + unixToInternal)

/-- Function `newNumericDateFromSeconds(f)` of the jwt package, as the seconds its
`time.Time` counts: `round, frac := math.Modf(f)`, then
`time.Unix(int64(round), int64(frac*1e9))` truncated to `time.Second`. The product
`frac*1e9` is taken exactly: the truncation keeps of it only whether its integer
part is negative, which rounding the product changes for no `float64`. -/
def numericDateSeconds (q : ℚ) : Int :=
  timeUnix (truncFloat ((Modf q).1 : ℚ)) (truncFloat ((Modf q).2 * 1000000000))

/-- Method `MapClaims.VerifyExpiresAt(now, false)`: an absent or zero `exp` passes,
a numeric one passes while `time.Unix(now, 0)` is before it, anything else fails. -/
def VerifyExpiresAt (claims : JObject) (now : Int) : Bool :=
  match claims.lookup "exp" with
  | none => true
  | some (.number q) => if q = 0 then true else decide (timeUnix now 0 < numericDateSeconds q)
  | some _ => false

/-- Method `MapClaims.VerifyIssuedAt(now, false)`: `time.Unix(now, 0)` is not before
a nonzero `iat`. -/
def VerifyIssuedAt (claims : JObject) (now : Int) : Bool :=
  match claims.lookup "iat" with
  | none => true
  | some (.number q) => if q = 0 then true else decide (numericDateSeconds q ≤ timeUnix now 0)
  | some _ => false

/-- Method `MapClaims.VerifyNotBefore(now, false)`: `time.Unix(now, 0)` is not before
a nonzero `nbf`. -/
def VerifyNotBefore (claims : JObject) (now : Int) : Bool :=
  match claims.lookup "nbf" with
  | none => true
  | some (.number q) => if q = 0 then true else decide (numericDateSeconds q ≤ timeUnix now 0)
  | some _ => false

/-- Method `MapClaims.Valid`: the three time checks. -/
def MapClaims.Valid (claims : JObject) (now : Int) : Bool :=
  VerifyExpiresAt claims now && VerifyIssuedAt claims now && VerifyNotBefore claims now

/-- Why `jwt.Parse` returned an error. -/
inductive ParseError where
  | malformed
  | algUnspecified
  | algUnavailable
  | unverifiable (msg : String)
  | claimsInvalid
  | signatureInvalid
  deriving DecidableEq, Repr

/-- The key function `AuthMiddleware` passes to `jwt.Parse` (main.go 63-68): only
an HMAC method gets the configured secret. -/
def keyFunc (env : Env) (method : SigningMethod) : Except String String :=
  match method with
  | .hmac _ => .ok env.JWT_SECRET_KEY
  | .other alg => .error ("unexpected signing method: " ++ alg)

/-- Method `SigningMethodHMAC.Verify`: recompute the MAC and compare. -/
def SigningMethod.Verify (env : Env) (method : SigningMethod)
    (signingInput signature key : String) : Bool :=
  match method with
  | .hmac alg => env.hmac alg key signingInput == signature
  | .other _ => false

/-- The call `jwt.Parse(tokenString, keyFunc)` of `AuthMiddleware`: the claims of
a token that is valid (`err == nil`, `token.Valid`), or the error. -/
def Parse (env : Env) (tokenString : String) : Except ParseError JObject :=
  match env.decodeSegments tokenString with
  | none => .error .malformed
  | some tok =>
    match tok.header.lookup "alg" with
    | some (.string alg) =>
      match GetSigningMethod alg with
      | none => .error .algUnavailable
      | some method =>
        match keyFunc env method with
        | .error msg => .error (.unverifiable msg)
        | .ok key =>
          if !MapClaims.Valid tok.claims env.now then .error .claimsInvalid
          else if !method.Verify env tok.signingInput tok.signature key then
            .error .signatureInvalid
          else .ok tok.claims
    | _ => .error .algUnspecified

/-! ## gin: the request context and the handler chain -/

/-- A JSON error response `c.JSON(code, gin.H{"error": error})`. -/
structure Response where
  code : Nat
  error : String
  deriving DecidableEq, Repr

/-- The chain position `c.Abort()` jumps to. -/
def abortIndex : Int := 63

/-- The part of `gin.Context` the middleware acts on, for a route registered as
`AuthMiddleware(), handler`. -/
structure Context where
  /-- Position in the handler chain; 0 while the middleware runs. -/
  index : Int
  /-- Responses written with `c.JSON`, oldest first. -/
  written : List Response
  /-- Value stored with `c.Set("userID", _)`, a `float64`. -/
  userID : Option ℚ
  /-- How many times the route's handler (chain position 1) has been entered. -/
  handlerRuns : Nat

/-- The context in which the engine calls the first handler of the chain. -/
def Context.fresh : Context :=
  { index := 0, written := [], userID := none, handlerRuns := 0 }

/-- Method `c.JSON(code, gin.H{"error": msg})`. -/
def Context.JSON (c : Context) (code : Nat) (msg : String) : Context :=
  { c with written := c.written ++ [⟨code, msg⟩] }

/-- Method `c.Abort()`. -/
def Context.Abort (c : Context) : Context :=
  { c with index := abortIndex }

/-- Method `c.Set("userID", v)`. -/
def Context.Set (c : Context) (v : ℚ) : Context :=
  { c with userID := some v }

/-- The route's own handler, at chain position 1. None of the handlers of the
repository calls `Next` or `Abort`; only the fact that it ran is recorded. -/
def protectedHandler (c : Context) : Context :=
  { c with handlerRuns := c.handlerRuns + 1 }

/-- Method `c.Next()` on the two-handler chain: `c.index++`, then
`for c.index < len(c.handlers) { c.handlers[c.index](c); c.index++ }`. The only
handler after the middleware is the one at position 1. -/
def Context.Next (c : Context) : Context :=
  let c1 := { c with index := c.index + 1 }
  if c1.index = 1 then
    let c2 := protectedHandler c1
    { c2 with index := c2.index + 1 }
  else c1

/-- The HTTP status of the response: the first status written. -/
def Context.status (c : Context) : Option Nat :=
  c.written.head?.map fun r => r.code

/-- Whether the chain was aborted. -/
def Context.IsAborted (c : Context) : Bool :=
  decide (abortIndex ≤ c.index)

/-! ## main.go: `AuthMiddleware` -/

/-- Go's `strings.HasPrefix`. -/
def HasPrefix (s pre : String) : Bool :=
  pre.toList.isPrefixOf s.toList

/-- Go's `strings.TrimPrefix`. -/
def TrimPrefix (s pre : String) : String :=
  if HasPrefix s pre then String.mk (s.toList.drop pre.length) else s

/-- The handler `AuthMiddleware()` returns (main.go 47-93). `authHeader` is
`c.GetHeader("Authorization")`, the empty string when the header is absent.
`jwt.Parse` always yields `MapClaims`, so the `else` of line 87 has no input. -/
def AuthMiddleware (env : Env) (authHeader : String) (c : Context) : Context :=
  if authHeader = "" ∨ !HasPrefix authHeader "Bearer " then
    (c.JSON 401 "Authorization header required").Abort
  else
    let tokenString := TrimPrefix authHeader "Bearer "
    if tokenString = "" then
      (c.JSON 401 "Token not provided").Abort
    else
      match Parse env tokenString with
      | .error _ => (c.JSON 401 "Invalid token").Abort
      | .ok claims =>
        match claims.lookup "user_id" with
        | some (.number userID) => (c.Set userID).Next
        | _ => c.JSON 401 "Invalid token claims"

/-- One request on a protected route: the engine enters the chain at the
middleware and, once it returns, carries on with the rest of the chain. -/
def serve (env : Env) (authHeader : String) : Context :=
  (AuthMiddleware env authHeader Context.fresh).Next

/-- The opening lines shared by the protected handlers (handlers.go 215-220):
the user id read back from the context, `int(userIDVal.(float64))`. -/
def contextUserID (c : Context) : Except Response Int :=
  match c.userID with
  | none => .error ⟨401, "User not authenticated"⟩
  | some v => .ok (truncFloat v)

/-! ## handlers.go: `generateJWT` -/

/-- A token before it is signed: `jwt.Token` with its method, header and claims. -/
structure UnsignedToken where
  method : String
  header : List (String × GoValue)
  claims : List (String × GoValue)

/-- Package function `jwt.NewWithClaims(method, claims)`. -/
def NewWithClaims (method : String) (claims : List (String × GoValue)) : UnsignedToken :=
  { method := method, header := [("typ", .string "JWT"), ("alg", .string method)],
    claims := claims }

/-- Method `Token.SignedString(key)`: the signing string, a dot, the signature. -/
def UnsignedToken.SignedString (env : Env) (tok : UnsignedToken) (key : String) : String :=
  let sstr := env.signingString tok.header tok.claims
  sstr ++ "." ++ env.hmac tok.method key sstr

/-- The constant `time.Hour`, in nanoseconds. -/
def Hour : Int := 3600000000000

/-- Method `Time.Unix` of an instant given in nanoseconds since the epoch. -/
def Unix (nanos : Int) : Int := nanos / 1000000000

/-- The token `generateJWT` builds before signing (handlers.go 105-108), when
`time.Now()` is `nowNanos` nanoseconds after the epoch. -/
def jwtToken (userID : Int) (nowNanos : Int) : UnsignedToken :=
  NewWithClaims "HS256"
    [("user_id", .float64 ((float64OfInt userID : Int) : ℚ)),
     ("exp", .int64 (Unix (nowNanos + Hour * 72)))]

/-- Function `generateJWT(userID)` (handlers.go 104-111). -/
def generateJWT (env : Env) (userID : Int) (nowNanos : Int) : String :=
  (jwtToken userID nowNanos).SignedString env env.JWT_SECRET_KEY

/-- What the segments of a signed token decode to. -/
def Env.wireImage (env : Env) (tok : UnsignedToken) (key : String) : Token :=
  { header := unmarshalMap tok.header
    claims := unmarshalMap tok.claims
    signingInput := env.signingString tok.header tok.claims
    signature := env.hmac tok.method key (env.signingString tok.header tok.claims) }

/-- The codec reads a signed token back: decoding inverts encoding on it. -/
def Env.ReadsBack (env : Env) (tok : UnsignedToken) (key : String) : Prop :=
  env.decodeSegments (tok.SignedString env key) = some (env.wireImage tok key)

/-! ## Properties of tokens -/

/-- The token's header names the HMAC algorithm `alg`. -/
def Token.NamesHMAC (tok : Token) (alg : String) : Prop :=
  tok.header.lookup "alg" = some (.string alg) ∧ (alg = "HS256" ∨ alg = "HS384" ∨ alg = "HS512")

/-- The token is signed with `key`: its header names an HMAC algorithm and its
signature is the MAC of its signing input under `key`. -/
def Token.SignedWith (env : Env) (tok : Token) (key : String) : Prop :=
  ∃ alg, tok.NamesHMAC alg ∧ env.hmac alg key tok.signingInput = tok.signature

/-! ## The database: the tables `getOrCreateUser` reads and writes -/

/-- A row of `usuarios`, with the columns the code names. -/
structure Usuario where
  id_usuario : Int
  id_tipo_usuario : Int
  id_estado_usuario : Int
  email : String
  password_hash : String
  fecha_registro : Int
  ultimo_login : Option Int
  deriving DecidableEq, Repr

/-- A row of `perfiles`. -/
structure Perfil where
  id_usuario : Int
  nombre : String
  apellido : String
  avatar_url : String
  deriving DecidableEq, Repr

/-- A row of `tipos_usuario`. -/
structure TipoUsuario where
  id_tipo_usuario : Int
  codigo : String
  nombre : String
  descripcion : String
  nivel_acceso : Int
  deriving DecidableEq, Repr

/-- A row of `estados_usuario`. -/
structure EstadoUsuario where
  id_estado_usuario : Int
  codigo : String
  nombre : String
  descripcion : String
  deriving DecidableEq, Repr

/-- The committed contents of the four tables. -/
structure Tables where
  usuarios : List Usuario
  perfiles : List Perfil
  tipos_usuario : List TipoUsuario
  estados_usuario : List EstadoUsuario
  deriving DecidableEq, Repr

/-- What the database does during one call, beyond what the tables determine:
for each statement the driver error it ends with (`none` when it succeeds; for a
`SELECT` an error other than `sql.ErrNoRows`), the keys the `INSERT ... RETURNING`
statements generate, and the value of `NOW()`. -/
structure Outcome where
  selectUsuario : Option String
  updateLogin : Option String
  beginTx : Option String
  selectTipo : Option String
  insertTipo : Option String
  selectEstado : Option String
  insertEstado : Option String
  insertUsuario : Option String
  insertPerfil : Option String
  commit : Option String
  id_tipo_usuario : Int
  id_estado_usuario : Int
  id_usuario : Int
  now : Int
  deriving DecidableEq, Repr

/-- Every statement succeeds. -/
def Outcome.AllSucceed (o : Outcome) : Prop :=
  o.selectUsuario = none ∧ o.updateLogin = none ∧ o.beginTx = none ∧ o.selectTipo = none ∧
  o.insertTipo = none ∧ o.selectEstado = none ∧ o.insertEstado = none ∧
  o.insertUsuario = none ∧ o.insertPerfil = none ∧ o.commit = none

/-- The rows `SELECT ... FROM usuarios WHERE email = $1` matches; `QueryRow` scans
the first. -/
def Tables.usuarioByEmail (db : Tables) (email : String) : Option Usuario :=
  db.usuarios.find? fun u => u.email == email

/-- First row of `tipos_usuario` with the given code. -/
def Tables.tipoByCodigo (db : Tables) (codigo : String) : Option TipoUsuario :=
  db.tipos_usuario.find? fun t => t.codigo == codigo

/-- First row of `estados_usuario` with the given code. -/
def Tables.estadoByCodigo (db : Tables) (codigo : String) : Option EstadoUsuario :=
  db.estados_usuario.find? fun s => s.codigo == codigo

/-- The effect of `UPDATE usuarios SET ultimo_login = NOW() WHERE id_usuario = $1`
on one row. -/
def Usuario.touch (userID : Int) (now : Int) (u : Usuario) : Usuario :=
  if u.id_usuario = userID then { u with ultimo_login := some now } else u

/-- Statement `UPDATE usuarios SET ultimo_login = NOW() WHERE id_usuario = $1`. -/
def Tables.touchLogin (db : Tables) (userID : Int) (now : Int) : Tables :=
  { db with usuarios := db.usuarios.map (Usuario.touch userID now) }

/-- The pair a Go function `(int, error)` returns. -/
structure Result where
  userID : Int
  err : Option String
  deriving DecidableEq, Repr

/-- handlers.go 55-66: the id of the `estudiante` type, created when the lookup
finds no row. -/
def ensureStudentType (o : Outcome) (tx : Tables) : Except String (Int × Tables) :=
  match o.selectTipo with
  | some e => .error ("error al buscar tipo usuario estudiante: " ++ e)
  | none =>
    match tx.tipoByCodigo "estudiante" with
    | some t => .ok (t.id_tipo_usuario, tx)
    | none =>
      match o.insertTipo with
      | some e => .error ("error al crear tipo usuario estudiante: " ++ e)
      | none =>
        .ok (o.id_tipo_usuario,
          { tx with tipos_usuario := tx.tipos_usuario ++
              [⟨o.id_tipo_usuario, "estudiante", "Estudiante", "Rol por defecto", 1⟩] })

/-- handlers.go 68-78: the id of the `activo` status, created when the lookup finds
no row. -/
def ensureActiveState (o : Outcome) (tx : Tables) : Except String (Int × Tables) :=
  match o.selectEstado with
  | some e => .error ("error al buscar estado usuario activo: " ++ e)
  | none =>
    match tx.estadoByCodigo "activo" with
    | some s => .ok (s.id_estado_usuario, tx)
    | none =>
      match o.insertEstado with
      | some e => .error ("error al crear estado usuario activo: " ++ e)
      | none =>
        .ok (o.id_estado_usuario,
          { tx with estados_usuario := tx.estados_usuario ++
              [⟨o.id_estado_usuario, "activo", "Activo", "Usuario activo"⟩] })

/-- handlers.go 54-93: the statements run inside the transaction, on its working
copy `tx` of the tables; the new user id and the copy to commit, or the error the
function returns. -/
def createInTx (o : Outcome) (tx : Tables) (email name picture : String) :
    Except String (Int × Tables) :=
  match ensureStudentType o tx with
  | .error e => .error e
  | .ok (studentTypeID, tx1) =>
    match ensureActiveState o tx1 with
    | .error e => .error e
    | .ok (activeStateID, tx2) =>
      match o.insertUsuario with
      | some e => .error ("error al crear usuario: " ++ e)
      | none =>
        let userID := o.id_usuario
        let usuario : Usuario :=
          ⟨userID, studentTypeID, activeStateID, email, "google-login", o.now, none⟩
        let tx3 : Tables := { tx2 with usuarios := tx2.usuarios ++ [usuario] }
        match o.insertPerfil with
        | some e => .error ("error al crear perfil: " ++ e)
        | none =>
          let perfil : Perfil := ⟨userID, name, "", picture⟩
          .ok (userID, { tx3 with perfiles := tx3.perfiles ++ [perfil] })

/-- Function `getOrCreateUser(ctx, email, name, picture)` (handlers.go 26-101) on
the committed tables `db`: what it returns and the tables it leaves committed. A
transaction that does not reach a successful `Commit` is rolled back. -/
def getOrCreateUser (db : Tables) (o : Outcome) (email name picture : String) :
    Result × Tables :=
  match o.selectUsuario with
  | some e => (⟨0, some ("error al consultar la base de datos: " ++ e)⟩, db)
  | none =>
    match db.usuarioByEmail email with
    | some u =>
      match o.updateLogin with
      | some _ => (⟨u.id_usuario, none⟩, db)
      | none => (⟨u.id_usuario, none⟩, db.touchLogin u.id_usuario o.now)
    | none =>
      match o.beginTx with
      | some e => (⟨0, some ("error al iniciar la transacción: " ++ e)⟩, db)
      | none =>
        match createInTx o db email name picture with
        | .error e => (⟨0, some e⟩, db)
        | .ok (userID, tx) =>
          match o.commit with
          | some e => (⟨0, some ("error al confirmar la transacción: " ++ e)⟩, db)
          | none => (⟨userID, none⟩, tx)

/-- Successive calls of `getOrCreateUser` for one email, each with its own outcome,
name and picture: the results in order and the tables left at the end. -/
def getOrCreateUserSeq (db : Tables) (email : String) :
    List (Outcome × String × String) → List Result × Tables
  | [] => ([], db)
  | (o, name, picture) :: rest =>
    let r := getOrCreateUser db o email name picture
    let rs := getOrCreateUserSeq r.2 email rest
    (r.1 :: rs.1, rs.2)

/-- A statement of the creation path that is executed fails. -/
def Outcome.CreationFails (o : Outcome) (db : Tables) : Prop :=
  o.beginTx ≠ none ∨ o.selectTipo ≠ none ∨
  (db.tipoByCodigo "estudiante" = none ∧ o.insertTipo ≠ none) ∨
  o.selectEstado ≠ none ∨
  (db.estadoByCodigo "activo" = none ∧ o.insertEstado ≠ none) ∨
  o.insertUsuario ≠ none ∨ o.insertPerfil ≠ none ∨ o.commit ≠ none

/-- An outcome in which every statement succeeds, generating the given keys. -/
def Outcome.ok (idTipo idEstado idUsuario now : Int) : Outcome :=
  { selectUsuario := none, updateLogin := none, beginTx := none, selectTipo := none,
    insertTipo := none, selectEstado := none, insertEstado := none, insertUsuario := none,
    insertPerfil := none, commit := none, id_tipo_usuario := idTipo,
    id_estado_usuario := idEstado, id_usuario := idUsuario, now := now }

/-- The empty database. -/
def Tables.empty : Tables :=
  { usuarios := [], perfiles := [], tipos_usuario := [], estados_usuario := [] }

/-- Number of rows of `tipos_usuario` with the given code. -/
def Tables.countTipo (db : Tables) (codigo : String) : Nat :=
  (db.tipos_usuario.filter fun t => t.codigo == codigo).length

/-- Number of rows of `estados_usuario` with the given code. -/
def Tables.countEstado (db : Tables) (codigo : String) : Nat :=
  (db.estados_usuario.filter fun s => s.codigo == codigo).length

/-! ## handlers.go: `handleLogin` and `handleVerifyToken` -/

/-- What a handler leaves of the HTTP exchange: a JSON object with one string
field, `c.JSON(code, gin.H{key: value})`, or a panic that unwinds the handler (the
recovery middleware of `gin.Default()` then answers a bare 500). -/
inductive Reply where
  | json (code : Nat) (key : String) (value : String)
  | panic (msg : String)
  deriving DecidableEq, Repr

/-- The collaborators of the authentication handlers outside the repository. -/
structure Web where
  /-- `encoding/json` decoding a non-empty body into the request struct of
  `handleLogin` (`email`, `password`); `none` when it returns an error. -/
  decodeLogin : String → Option (String × String)
  /-- `encoding/json` decoding a non-empty body into the request struct of
  `handleVerifyToken` (`token`); `none` when it returns an error. -/
  decodeToken : String → Option String
  /-- The call `idtoken.Validate(ctx, idToken, GOOGLE_CLIENT_ID)`: the claims of the
  payload, or the text of the error. -/
  validate : String → Except String JObject

/-- Method `c.ShouldBindJSON(&requestBody)`: decoding an empty body ends in
`io.EOF`, any other body is up to the decoder. -/
def ShouldBindJSON {α : Type} (decode : String → Option α) (body : String) : Option α :=
  if body = "" then none else decode body

/-- Function `handleLogin` (handlers.go 173-210). `generateJWT` signs with a byte
slice under HS256, which does not fail, so the 500 of line 201 has no input. -/
def handleLogin (web : Web) (env : Env) (nowNanos : Int) (body : String) : Reply :=
  match ShouldBindJSON web.decodeLogin body with
  | none => .json 400 "error" "Formato de petición inválido"
  | some _ =>
    let userID : Int := 1
    .json 200 "token" (generateJWT env userID nowNanos)

/-- The single-value type assertion `v.(string)` on a map lookup: `none` where it
panics. -/
def assertString : Option JVal → Option String
  | some (.string s) => some s
  | _ => none

/-- Function `handleVerifyToken` (handlers.go 116-170) on the committed tables `db`:
the reply and the tables left committed. -/
def handleVerifyToken (web : Web) (env : Env) (db : Tables) (o : Outcome) (nowNanos : Int)
    (body : String) : Reply × Tables :=
  match ShouldBindJSON web.decodeToken body with
  | none => (.json 400 "error" "Formato de petición inválido", db)
  | some idToken =>
    if idToken = "" then (.json 400 "error" "El token es requerido", db)
    else
      match web.validate idToken with
      | .error e => (.json 401 "error" ("Token de Google inválido: " ++ e), db)
      | .ok claims =>
        match assertString (claims.lookup "email") with
        | none => (.panic "interface conversion: interface {} is not string", db)
        | some googleEmail =>
          match assertString (claims.lookup "name") with
          | none => (.panic "interface conversion: interface {} is not string", db)
          | some googleName =>
            match assertString (claims.lookup "picture") with
            | none => (.panic "interface conversion: interface {} is not string", db)
            | some googlePicture =>
              let r := getOrCreateUser db o googleEmail googleName googlePicture
              match r.1.err with
              | some e => (.json 500 "error" ("Error al procesar el usuario: " ++ e), r.2)
              | none => (.json 200 "token" (generateJWT env r.1.userID nowNanos), r.2)

/-- The replies the interface of `handleVerifyToken` allows: 200 with a token, or
400, 401 or 500 with an error text. -/
def Reply.Allowed : Reply → Prop
  | .json code key _ => (code = 200 ∧ key = "token") ∨
      ((code = 400 ∨ code = 401 ∨ code = 500) ∧ key = "error")
  | .panic _ => False

/-! ## main.go: the middleware next to the database -/

/-- A handler as it runs in the process: next to the request context, every
function of package `main` has the package variable `DB` in scope and may read and
write the tables behind it. -/
abbrev HandlerFunc := Context → Tables → Context × Tables

/-- Method `c.Next()` on the chain `AuthMiddleware(), handler`, with the database
the handler at position 1 runs against: the handler is entered and does what
`handler` says to the context and the tables. -/
def Context.NextDB (handler : HandlerFunc) (c : Context) (db : Tables) : Context × Tables :=
  let c1 := { c with index := c.index + 1 }
  if c1.index = 1 then
    let r := handler (protectedHandler c1) db
    ({ r.1 with index := r.1.index + 1 }, r.2)
  else (c1, db)

/-- The handler `AuthMiddleware()` returns (main.go 47-93), statement by statement,
as a function of the process state: the tables behind `DB` go in and come out, and
`c.Next()` hands them to the route's handler. -/
def AuthMiddleware.withDB (env : Env) (handler : HandlerFunc) (authHeader : String)
    (c : Context) (db : Tables) : Context × Tables :=
  if authHeader = "" ∨ !HasPrefix authHeader "Bearer " then
    ((c.JSON 401 "Authorization header required").Abort, db)
  else
    let tokenString := TrimPrefix authHeader "Bearer "
    if tokenString = "" then
      ((c.JSON 401 "Token not provided").Abort, db)
    else
      match Parse env tokenString with
      | .error _ => ((c.JSON 401 "Invalid token").Abort, db)
      | .ok claims =>
        match claims.lookup "user_id" with
        | some (.number userID) => (c.Set userID).NextDB handler db
        | _ => (c.JSON 401 "Invalid token claims", db)

/-- A handler that touches neither the context nor the tables. -/
def idleHandler : HandlerFunc := fun c db => (c, db)

/-- The times of a token's claims pass `MapClaims.Valid`, its signature is the MAC
of the configured key and its `user_id` is the number `v`. -/
def Token.Authenticates (env : Env) (tok : Token) (v : ℚ) : Prop :=
  tok.SignedWith env env.JWT_SECRET_KEY ∧ MapClaims.Valid tok.claims env.now = true ∧
  tok.claims.lookup "user_id" = some (.number v)

/-- The four error texts of `AuthMiddleware`. -/
def authErrors : List String :=
  ["Authorization header required", "Token not provided", "Invalid token",
   "Invalid token claims"]

/-! ## handlers.go: feed pagination -/

/-- How `strconv.ParseUint(s, 10, 64)` ends. -/
inductive Scan where
  | syntaxError
  | rangeError
  | value (n : Nat)
  deriving DecidableEq, Repr

/-- The digit loop of `strconv.ParseUint(s, 10, 64)`: a byte that is no digit is a
syntax error, a value past `2^64 - 1` a range error, whichever comes first. -/
def scanDigits : List Char → Nat → Scan
  | [], n => .value n
  | c :: rest, n =>
    if '0' ≤ c ∧ c ≤ '9' then
      if 1844674407370955162 ≤ n then .rangeError
      else
        let n1 := n * 10 + (c.toNat - '0'.toNat)
        if 18446744073709551615 < n1 then .rangeError else scanDigits rest n1
    else .syntaxError

/-- The error of `strconv.Atoi`. -/
inductive NumError where
  | ErrSyntax
  | ErrRange
  deriving DecidableEq, Repr

/-- The digits after an optional sign, and whether the sign is minus. -/
def splitSign : List Char → Bool × List Char
  | '-' :: rest => (true, rest)
  | '+' :: rest => (false, rest)
  | cs => (false, cs)

/-- Function `strconv.Atoi` on a 64-bit platform: the value and the error. A
syntax error gives 0, a range error the nearest of `-2^63` and `2^63 - 1`. -/
def Atoi (s : String) : Int × Option NumError :=
  let (neg, digits) := splitSign s.toList
  if digits = [] then (0, some .ErrSyntax)
  else
    match scanDigits digits 0 with
    | .syntaxError => (0, some .ErrSyntax)
    | .rangeError =>
      if neg then (-9223372036854775808, some .ErrRange)
      else (9223372036854775807, some .ErrRange)
    | .value n =>
      if neg then
        if 9223372036854775808 < n then (-9223372036854775808, some .ErrRange)
        else (-(n : Int), none)
      else
        if 9223372036854775808 ≤ n then (9223372036854775807, some .ErrRange)
        else ((n : Int), none)

/-- Method `c.DefaultQuery(key, defaultValue)` for a parameter that is absent
(`none`) or present with a value. -/
def DefaultQuery (param : Option String) (defaultValue : String) : String :=
  match param with
  | some v => v
  | none => defaultValue

/-- The page `handleGetVideosFeed` settles on (handlers.go 537-541). -/
def feedPage (pageParam : Option String) : Int :=
  let pageStr := DefaultQuery pageParam "1"
  let page := (Atoi pageStr).1
  if page < 1 then 1 else page

/-- The `LIMIT` and `OFFSET` arguments `handleGetVideosFeed` passes to the query
(handlers.go 537-543, 556). -/
def feedWindow (pageParam : Option String) : Int × Int :=
  let page := feedPage pageParam
  let limit : Int := 10
  let offset := wrapInt64 (wrapInt64 (page - 1) * limit)
  (limit, offset)

/-! ## handlers.go: upload classification and thumbnail -/

/-- Function `filepath.Ext` for the separator `/`: the suffix from the last dot of
the last path element, scanning the reversed path. -/
def extScan : List Char → List Char → List Char
  | [], _ => []
  | c :: before, acc =>
    if c = '/' then []
    else if c = '.' then '.' :: acc
    else extScan before (c :: acc)

/-- Function `filepath.Ext`. -/
def Ext (path : String) : String :=
  String.mk (extScan path.toList.reverse [])

/-- Function `unicode.ToLower`: an ASCII rune is mapped in the function itself, a
capital `A` to `Z` (65 to 90) to the letter 32 places on and any other to itself;
beyond ASCII the Unicode case tables decide, which are the parameter `lower`. -/
def unicode.ToLower (lower : Char → Char) (r : Char) : Char :=
  if r.toNat ≤ 127 then
    if 65 ≤ r.toNat ∧ r.toNat ≤ 90 then Char.ofNat (r.toNat + 32) else r
  else lower r

/-- Function `strings.ToLower`: `unicode.ToLower` on every rune (the loop the
function has for all-ASCII strings does the same to each byte). -/
def ToLower (lower : Char → Char) (s : String) : String :=
  String.mk (s.toList.map (unicode.ToLower lower))

/-- A rune with an ASCII capital replaced by its small letter: two strings that
agree after it differ in the case of ASCII letters only. -/
def foldCase (r : Char) : Char :=
  if 65 ≤ r.toNat ∧ r.toNat ≤ 90 then Char.ofNat (r.toNat + 32) else r

/-- What `handleUploadVideo` derives from the file name (handlers.go 335-337). -/
structure Classification where
  contentTypeID : Int
  resourceType : String
  folder : String
  deriving DecidableEq, Repr

/-- The extensions `handleUploadVideo` takes for images. -/
def imageExtensions : List String := [".jpg", ".jpeg", ".png", ".gif", ".webp"]

/-- The classification of an upload (handlers.go 333-347); the content type ids
are the package variables loaded at start. -/
def classifyUpload (lower : Char → Char) (imageContentTypeID videoContentTypeID : Int)
    (filename : String) : Classification :=
  let ext := ToLower lower (Ext filename)
  if ext = ".jpg" ∨ ext = ".jpeg" ∨ ext = ".png" ∨ ext = ".gif" ∨ ext = ".webp" then
    { contentTypeID := imageContentTypeID, resourceType := "image", folder := "images" }
  else
    { contentTypeID := videoContentTypeID, resourceType := "video", folder := "videos" }

/-- Function `strings.LastIndex(s, sep)` for a one-character separator, counted in
characters; `none` for -1. -/
def LastIndex (sep : Char) : List Char → Option Nat
  | [] => none
  | c :: rest =>
    match LastIndex sep rest with
    | some i => some (i + 1)
    | none => if c = sep then some 0 else none

/-- The thumbnail URL `handleUploadVideo` stores (handlers.go 361-369). -/
def thumbnailURL (resourceType : String) (secureURL : String) : String :=
  if resourceType = "video" then
    match LastIndex '.' secureURL.toList with
    | some lastDot => String.mk (secureURL.toList.take lastDot) ++ ".jpg"
    | none => secureURL
  else secureURL

/-- The host of a URL: what stands between `://` and the next slash. -/
def urlHostScan : List Char → List Char
  | ':' :: '/' :: '/' :: rest => rest.takeWhile fun c => c != '/'
  | _ :: rest => urlHostScan rest
  | [] => []

/-- The host of a URL. -/
def urlHost (url : String) : String :=
  String.mk (urlHostScan url.toList)

/-! ## handlers.go: `handleToggleLike` -/

/-- A row of `interacciones`, with the columns the code names. -/
structure Interaccion where
  id_interaccion : Int
  id_usuario : Int
  id_contenido : Int
  id_tipo_interaccion : Int
  deriving DecidableEq, Repr

/-- What the database does during one call of `handleToggleLike`, beyond what the
table determines: for each statement the driver error it ends with (`none` when it
succeeds; for the first `SELECT` an error other than `sql.ErrNoRows`), and the key
the `INSERT` generates. -/
structure LikeOutcome where
  selectLike : Option String
  insertLike : Option String
  deleteLike : Option String
  countLikes : Option String
  id_interaccion : Int
  deriving DecidableEq, Repr

/-- Every statement succeeds. -/
def LikeOutcome.AllSucceed (o : LikeOutcome) : Prop :=
  o.selectLike = none ∧ o.insertLike = none ∧ o.deleteLike = none ∧ o.countLikes = none

/-- What `handleToggleLike` answers: an error object, or the object with `id`,
`likes` and `isLiked`. -/
inductive LikeReply where
  | error (code : Nat) (msg : String)
  | ok (id : String) (likes : Int) (isLiked : Bool)
  deriving DecidableEq, Repr

/-- The `WHERE` clause of the first query: the like of one user on one content. -/
def isLikeOf (likeInteractionTypeID userID videoID : Int) (r : Interaccion) : Bool :=
  r.id_usuario == userID && r.id_contenido == videoID &&
    r.id_tipo_interaccion == likeInteractionTypeID

/-- The `WHERE` clause of the count: a like on one content. -/
def isLikeOn (likeInteractionTypeID videoID : Int) (r : Interaccion) : Bool :=
  r.id_contenido == videoID && r.id_tipo_interaccion == likeInteractionTypeID

/-- Query `SELECT COUNT(*) FROM interacciones WHERE id_contenido = $1 AND
id_tipo_interaccion = $2`. -/
def countLikes (likeInteractionTypeID videoID : Int) (db : List Interaccion) : Int :=
  ((db.filter (isLikeOn likeInteractionTypeID videoID)).length : Int)

/-- handlers.go 476-487: the count query (0 when it fails) and the 200 reply. -/
def likeResponse (likeInteractionTypeID videoID : Int) (videoIDStr : String)
    (o : LikeOutcome) (isLiked : Bool) (db : List Interaccion) : LikeReply × List Interaccion :=
  let likesCount : Int :=
    match o.countLikes with
    | some _ => 0
    | none => countLikes likeInteractionTypeID videoID db
  (.ok videoIDStr likesCount isLiked, db)

/-- handlers.go 447-487: the database part of `handleToggleLike`, on the committed
table `db`. The statements run outside any transaction, each on its own. -/
def toggleLike (likeInteractionTypeID userID videoID : Int) (videoIDStr : String)
    (db : List Interaccion) (o : LikeOutcome) : LikeReply × List Interaccion :=
  match o.selectLike with
  | some _ => (.error 500 "Error de base de datos", db)
  | none =>
    match db.find? (isLikeOf likeInteractionTypeID userID videoID) with
    | none =>
      match o.insertLike with
      | some _ => (.error 500 "Error al procesar like", db)
      | none =>
        likeResponse likeInteractionTypeID videoID videoIDStr o true
          (db ++ [⟨o.id_interaccion, userID, videoID, likeInteractionTypeID⟩])
    | some row =>
      let interactionID := row.id_interaccion
      match o.deleteLike with
      | some _ => (.error 500 "Error al procesar like", db)
      | none =>
        likeResponse likeInteractionTypeID videoID videoIDStr o false
          (db.filter fun r => r.id_interaccion != interactionID)

/-- Function `handleToggleLike` (handlers.go 432-488): `userIDVal` is what
`c.Get("userID")` finds, `videoIDStr` the route parameter `id`,
`likeInteractionTypeID` the package variable loaded at start. -/
def handleToggleLike (likeInteractionTypeID : Int) (userIDVal : Option ℚ)
    (videoIDStr : String) (db : List Interaccion) (o : LikeOutcome) :
    LikeReply × List Interaccion :=
  match userIDVal with
  | none => (.error 401 "User not authenticated", db)
  | some v =>
    let userID := truncFloat v
    match Atoi videoIDStr with
    | (_, some _) => (.error 400 "ID de video inválido", db)
    | (videoID, none) => toggleLike likeInteractionTypeID userID videoID videoIDStr db o

/-- Two successive calls of `handleToggleLike` by one user on one content. -/
def handleToggleLikeTwice (likeInteractionTypeID : Int) (userIDVal : Option ℚ)
    (videoIDStr : String) (db : List Interaccion) (o₁ o₂ : LikeOutcome) :
    LikeReply × List Interaccion :=
  handleToggleLike likeInteractionTypeID userIDVal videoIDStr
    (handleToggleLike likeInteractionTypeID userIDVal videoIDStr db o₁).2 o₂

/-- An outcome in which every statement succeeds, generating the given key. -/
def LikeOutcome.ok (id : Int) : LikeOutcome :=
  { selectLike := none, insertLike := none, deleteLike := none, countLikes := none,
    id_interaccion := id }

/-! ## Sample environments and tokens -/

/-- A sample environment: the secret is `secret`, the clock reads `now` (the epoch,
should `now` be no clock reading), the MAC is the text `alg:key:input`, and `wire`
is the one token string the codec knows, with segments `tok`. -/
def sampleEnv (now : Int) (wire : String) (tok : Token) : Env :=
  { JWT_SECRET_KEY := "secret"
    now := if ClockRange now then now else 0
    now_range := by
      split
      · assumption
      · decide
    hmac := fun alg key input => alg ++ ":" ++ key ++ ":" ++ input
    signingString := fun _ _ => tok.signingInput
    decodeSegments := fun s => if s = wire then some tok else none }

/-- Segments of a token signed with the sample secret under HS256. -/
def sampleSegments (claims : JObject) : Token :=
  { header := [("typ", .string "JWT"), ("alg", .string "HS256")]
    claims := claims
    signingInput := "h.c"
    signature := "HS256:secret:h.c" }

/-- Sample: at time 1700000000 the token string `h.c.s` carries `claims`, signed
with the configured secret. -/
def sampleEnvWith (claims : JObject) : Env :=
  sampleEnv 1700000000 "h.c.s" (sampleSegments claims)

/-- Claims without `user_id`, expiring at 2000000000. -/
def claimsNoUserID : JObject := [("exp", .number ((2000000000 : Int) : ℚ))]

/-- Claims for user 7 with `exp` zero. -/
def claimsExpZero : JObject :=
  [("user_id", .number ((7 : Int) : ℚ)), ("exp", .number ((0 : Int) : ℚ))]

/-- Sample: the codec knows the one token `tok` yields when signed with the sample
secret, and reads it back. -/
def sampleJwtEnv (now : Int) (tok : UnsignedToken) : Env :=
  sampleEnv now ("h.c" ++ "." ++ (tok.method ++ ":" ++ "secret" ++ ":" ++ "h.c"))
    { header := unmarshalMap tok.header
      claims := unmarshalMap tok.claims
      signingInput := "h.c"
      signature := tok.method ++ ":" ++ "secret" ++ ":" ++ "h.c" }

/-- Sample: a token issued to `userID` at unix time 1700000000 and presented 60
seconds later. -/
def sampleIssueEnv (userID : Int) : Env :=
  sampleJwtEnv 1700000060 (jwtToken userID 1700000000000000000)

/-- Segments of a token signed under HS256 with the key `other`. -/
def foreignSegments : Token :=
  { header := [("typ", .string "JWT"), ("alg", .string "HS256")]
    claims := [("user_id", .number ((1 : Int) : ℚ)), ("exp", .number ((2000000000 : Int) : ℚ))]
    signingInput := "h.c"
    signature := "HS256:other:h.c" }

/-- Sample: a database holding one user, `ana@utb.edu.co`, with id 5. -/
def sampleTables : Tables :=
  { usuarios := [⟨5, 1, 1, "ana@utb.edu.co", "google-login", 100, none⟩]
    perfiles := [⟨5, "Ana", "", "ana.png"⟩]
    tipos_usuario := [⟨1, "estudiante", "Estudiante", "Rol por defecto", 1⟩]
    estados_usuario := [⟨1, "activo", "Activo", "Usuario activo"⟩] }

/-- Sample: two further calls for one email, the second with a failing login
update. -/
def sampleCalls : List (Outcome × String × String) :=
  [(Outcome.ok 2 2 9 200, "Ana", "a.png"),
   ({ Outcome.ok 2 2 9 300 with updateLogin := some "timeout" }, "Ana", "b.png")]

/-- Sample collaborators: a decoder that takes every non-empty login body, a
decoder that reads the body itself as the `token` field, and a Google validation
that ends as `payload` says. -/
def sampleWeb (payload : Except String JObject) : Web :=
  { decodeLogin := fun _ => some ("", "")
    decodeToken := fun body => some body
    validate := fun _ => payload }

/-- Sample: a validated Google payload with `email` and `name` and no `picture`. -/
def payloadNoPicture : JObject :=
  [("email", .string "ana@utb.edu.co"), ("name", .string "Ana")]

/-- Sample: a validated Google payload with the three claims the handler reads. -/
def payloadFull : JObject :=
  [("email", .string "ana@utb.edu.co"), ("name", .string "Ana"),
   ("picture", .string "ana.png")]

/-- Claims whose `user_id` is a string, expiring at 2000000000. -/
def claimsStringID : JObject :=
  [("user_id", .string "7"), ("exp", .number ((2000000000 : Int) : ℚ))]

/-- Claims for user 7, expiring at 2000000000 and not valid before 1900000000. -/
def claimsNotYetValid : JObject :=
  [("user_id", .number ((7 : Int) : ℚ)), ("exp", .number ((2000000000 : Int) : ℚ)),
   ("nbf", .number ((1900000000 : Int) : ℚ))]

/-- Sample: every statement would succeed, but `BeginTx` fails to reach the
database. -/
def sampleBeginFails : Outcome :=
  { Outcome.ok 1 1 1 100 with beginTx := some "dial tcp 10.0.0.5:5432: connection refused" }

/-- Sample: likes of type 3 on content 9, one by user 5 and one by user 6. -/
def sampleLikes : List Interaccion :=
  [⟨1, 5, 9, 3⟩, ⟨4, 6, 9, 3⟩]

/-- Sample: a login body, the JSON object with the fields `email` and `password`. -/
def sampleLoginBody : String :=
  "\x7b\x22email\x22:\x22ana@utb.edu.co\x22,\x22password\x22:\x22clave\x22\x7d"

/-- Sample collaborators of `handleLogin`: a decoder that reads `sampleLoginBody`
and returns an error for every other body. -/
def sampleLoginWeb : Web :=
  { decodeLogin := fun body =>
      if body = sampleLoginBody then some ("ana@utb.edu.co", "clave") else none
    decodeToken := fun _ => none
    validate := fun _ => .error "idtoken: invalid token" }

/-- Claims for user 7, expiring at 2000000000. -/
def claimsUser7 : JObject :=
  [("user_id", .number ((7 : Int) : ℚ)), ("exp", .number ((2000000000 : Int) : ℚ))]

/-- Claims for user 7 whose `exp` is `10^19`, past the 64-bit integers. -/
def claimsExpHuge : JObject :=
  [("user_id", .number ((7 : Int) : ℚ)),
   ("exp", .number ((10000000000000000000 : Int) : ℚ))]

/-- Claims for user 7 whose `exp` is `2^63 - 1024`, the last `float64` below `2^63`. -/
def claimsExpWraps : JObject :=
  [("user_id", .number ((7 : Int) : ℚ)),
   ("exp", .number ((9223372036854774784 : Int) : ℚ))]

/-- Sample: a handler that deletes every user row. -/
def sampleWipe : HandlerFunc := fun c db => (c, { db with usuarios := [] })

/-- Sample: a database whose user 7 is in the state `inactivo`. -/
def sampleInactive : Tables :=
  { usuarios := [⟨7, 1, 2, "leo@utb.edu.co", "google-login", 100, none⟩]
    perfiles := [⟨7, "Leo", "", "leo.png"⟩]
    tipos_usuario := [⟨1, "estudiante", "Estudiante", "Rol por defecto", 1⟩]
    estados_usuario := [⟨1, "activo", "Activo", "Usuario activo"⟩,
      ⟨2, "inactivo", "Inactivo", "Usuario inactivo"⟩] }


/-! ## Lemmas: strings and numbers -/

theorem hasPrefix_bearer (s : String) : HasPrefix ("Bearer " ++ s) "Bearer " = true := by
  simp [HasPrefix]

theorem trimPrefix_bearer (s : String) : TrimPrefix ("Bearer " ++ s) "Bearer " = s := by
  have hlen : "Bearer ".length = 7 := by decide
  simp [TrimPrefix, hasPrefix_bearer, hlen]

theorem bearer_ne_empty (s : String) : "Bearer " ++ s ≠ "" := by
  intro h
  have hlen := congrArg String.length h
  simp at hlen
  exact absurd hlen.1 (by decide)

theorem modf_intCast (i : Int) : Modf (i : ℚ) = (i, 0) := by
  simp [Modf]

/-- The conversion of a whole float: itself inside the 64-bit range, the least
64-bit integer outside. -/
theorem truncFloat_intCast_eq (i : Int) :
    truncFloat (i : ℚ)
      = if -9223372036854775808 ≤ i ∧ i < 9223372036854775808 then i
        else -9223372036854775808 := by
  simp only [truncFloat, modf_intCast]

theorem truncFloat_intCast (i : Int)
    (h : -9223372036854775808 ≤ i ∧ i < 9223372036854775808) : truncFloat (i : ℚ) = i := by
  rw [truncFloat_intCast_eq, if_pos h]

theorem truncFloat_zero : truncFloat 0 = 0 := by
  have h := truncFloat_intCast 0 (by decide)
  simpa using h

/-- The seconds `time.Unix(now, 0)` counts, for a clock reading. -/
theorem timeUnix_clock (now : Int) (h : ClockRange now) :
    timeUnix now 0 = now + unixToInternal := by
  unfold ClockRange unixToInternal at h
  unfold timeUnix wrapInt64 unixToInternal
  omega

/-- The seconds a whole numeric date counts, inside the range of clock readings. -/
theorem numericDateSeconds_intCast (i : Int) (h : ClockRange i) :
    numericDateSeconds (i : ℚ) = i + unixToInternal := by
  have hr : -9223372036854775808 ≤ i ∧ i < 9223372036854775808 := by
    unfold ClockRange unixToInternal at h
    omega
  have h0 : truncFloat ((0 : ℚ) * 1000000000) = 0 := by
    rw [zero_mul]
    exact truncFloat_zero
  simp only [numericDateSeconds, modf_intCast, truncFloat_intCast i hr, h0]
  exact timeUnix_clock i h

/-! ## Lemmas: the four ways a request leaves the chain -/

/-- A request without a bearer header. -/
theorem serve_no_bearer (env : Env) (authHeader : String)
    (h : authHeader = "" ∨ HasPrefix authHeader "Bearer " = false) :
    serve env authHeader =
      { index := abortIndex + 1, written := [⟨401, "Authorization header required"⟩],
        userID := none, handlerRuns := 0 } := by
  have hc : authHeader = "" ∨ (!HasPrefix authHeader "Bearer ") = true := by
    rcases h with h | h
    · exact Or.inl h
    · exact Or.inr (by simp [h])
  have hm : AuthMiddleware env authHeader Context.fresh
      = (Context.fresh.JSON 401 "Authorization header required").Abort := by
    simp only [AuthMiddleware, if_pos hc]
  rw [serve, hm]
  simp [Context.JSON, Context.Abort, Context.Next, Context.fresh, abortIndex]

/-- The middleware on a bearer header gets past the header checks. -/
theorem authMiddleware_bearer (env : Env) (tokenString : String) (c : Context)
    (hne : tokenString ≠ "") :
    AuthMiddleware env ("Bearer " ++ tokenString) c =
      match Parse env tokenString with
      | .error _ => (c.JSON 401 "Invalid token").Abort
      | .ok claims =>
        match claims.lookup "user_id" with
        | some (.number userID) => (c.Set userID).Next
        | _ => c.JSON 401 "Invalid token claims" := by
  simp only [AuthMiddleware, bearer_ne_empty, hasPrefix_bearer, trimPrefix_bearer, hne]
  simp

/-- A bearer token that `jwt.Parse` refuses. -/
theorem serve_parse_error (env : Env) (tokenString : String) (e : ParseError)
    (hne : tokenString ≠ "") (hp : Parse env tokenString = .error e) :
    serve env ("Bearer " ++ tokenString) =
      { index := abortIndex + 1, written := [⟨401, "Invalid token"⟩],
        userID := none, handlerRuns := 0 } := by
  rw [serve, authMiddleware_bearer env tokenString _ hne, hp]
  simp [Context.JSON, Context.Abort, Context.Next, Context.fresh, abortIndex]

/-- A valid bearer token with a numeric `user_id`. -/
theorem serve_authenticated (env : Env) (tokenString : String) (claims : JObject) (v : ℚ)
    (hne : tokenString ≠ "") (hp : Parse env tokenString = .ok claims)
    (hid : claims.lookup "user_id" = some (.number v)) :
    serve env ("Bearer " ++ tokenString) =
      { index := 3, written := [], userID := some v, handlerRuns := 1 } := by
  rw [serve, authMiddleware_bearer env tokenString _ hne, hp]
  simp [hid, Context.Set, Context.Next, Context.fresh, protectedHandler]

/-- A valid bearer token whose `user_id` is absent or not a number. -/
theorem serve_bad_claims (env : Env) (tokenString : String) (claims : JObject)
    (hne : tokenString ≠ "") (hp : Parse env tokenString = .ok claims)
    (hid : ∀ v, claims.lookup "user_id" ≠ some (.number v)) :
    serve env ("Bearer " ++ tokenString) =
      { index := 2, written := [⟨401, "Invalid token claims"⟩], userID := none,
        handlerRuns := 1 } := by
  have hm : AuthMiddleware env ("Bearer " ++ tokenString) Context.fresh
      = Context.fresh.JSON 401 "Invalid token claims" := by
    rw [authMiddleware_bearer env tokenString _ hne, hp]
    split
    · rename_i heq
      cases heq
    · rename_i claims' heq
      cases heq
      split
      · rename_i v hv
        exact absurd hv (hid v)
      · rfl
  rw [serve, hm]
  simp [Context.JSON, Context.Next, Context.fresh, protectedHandler]

/-! ## Lemmas: `jwt.Parse` -/

theorem modf_fst_le_ceil (q : ℚ) : (Modf q).1 ≤ ⌈q⌉ := by
  simp only [Modf]
  split
  · exact Int.floor_le_ceil q
  · exact le_refl _

theorem modf_snd_lt_one (q : ℚ) : (Modf q).2 < 1 := by
  simp only [Modf]
  split
  · have := Int.lt_floor_add_one q
    linarith
  · have := Int.le_ceil q
    linarith

theorem neg_one_lt_modf_snd (q : ℚ) : -1 < (Modf q).2 := by
  simp only [Modf]
  split
  · have := Int.floor_le q
    linarith
  · have := Int.ceil_lt_add_one q
    linarith

/-- The conversion of a float of magnitude below `10^9` keeps that bound. -/
theorem truncFloat_small (x : ℚ) (h1 : -1000000000 < x) (h2 : x < 1000000000) :
    -1000000000 ≤ truncFloat x ∧ truncFloat x < 1000000000 := by
  have hw : (-1000000000 : Int) ≤ (Modf x).1 ∧ (Modf x).1 < 1000000000 := by
    simp only [Modf]
    split
    · rename_i hpos
      have hf : (0 : Int) ≤ ⌊x⌋ := Int.floor_nonneg.mpr hpos
      have hf2 : ⌊x⌋ < 1000000000 := Int.floor_lt.mpr (by push_cast; exact h2)
      omega
    · rename_i hneg
      have hc : ⌈x⌉ ≤ 0 := Int.ceil_le.mpr (by push_cast; exact le_of_lt (not_le.mp hneg))
      have hc2 : -1000000000 < ⌈x⌉ := Int.lt_ceil.mpr (by push_cast; exact h1)
      omega
  simp only [truncFloat]
  split
  · exact hw
  · omega

/-- The nanoseconds `newNumericDateFromSeconds` passes to `time.Unix` are less than a
second either way. -/
theorem nsec_bounds (q : ℚ) :
    -1000000000 ≤ truncFloat ((Modf q).2 * 1000000000) ∧
    truncFloat ((Modf q).2 * 1000000000) < 1000000000 := by
  have h1 := neg_one_lt_modf_snd q
  have h2 := modf_snd_lt_one q
  exact truncFloat_small _ (by linarith) (by linarith)

/-- The instant a numeric date in the past denotes is not after the clock. -/
theorem numericDateSeconds_le (q : ℚ) (now : Int) (hnow : ClockRange now)
    (hpast : q < (now : ℚ)) : numericDateSeconds q ≤ now + unixToInternal := by
  have hw : (Modf q).1 ≤ now :=
    le_trans (modf_fst_le_ceil q) (Int.ceil_le.mpr (le_of_lt hpast))
  obtain ⟨hn1, hn2⟩ := nsec_bounds q
  unfold ClockRange unixToInternal at hnow
  simp only [numericDateSeconds, timeUnix, truncFloat_intCast_eq, wrapInt64, unixToInternal]
  split <;> omega

/-- A numeric, nonzero `exp` in the past fails the expiry check. -/
theorem verifyExpiresAt_past (claims : JObject) (now : Int) (q : ℚ) (hnow : ClockRange now)
    (hexp : claims.lookup "exp" = some (.number q)) (h0 : q ≠ 0) (hpast : q < (now : ℚ)) :
    VerifyExpiresAt claims now = false := by
  have hle := numericDateSeconds_le q now hnow hpast
  simp only [VerifyExpiresAt, hexp, if_neg h0, timeUnix_clock now hnow]
  simp only [decide_eq_false_iff_not, not_lt]
  exact hle

/-- A token whose expiry check fails is refused by `Parse`. -/
theorem parse_error_of_expired (env : Env) (tokenString : String) (tok : Token)
    (hdec : env.decodeSegments tokenString = some tok)
    (hexp : VerifyExpiresAt tok.claims env.now = false) :
    ∃ e, Parse env tokenString = .error e := by
  simp only [Parse, hdec]
  split
  · split
    · exact ⟨_, rfl⟩
    · split
      · exact ⟨_, rfl⟩
      · simp [MapClaims.Valid, hexp]
  · exact ⟨_, rfl⟩

/-- `GetSigningMethod` yields an HMAC method exactly for the three HMAC names. -/
theorem getSigningMethod_hmac (alg alg' : String)
    (h : GetSigningMethod alg = some (.hmac alg')) :
    alg' = alg ∧ (alg = "HS256" ∨ alg = "HS384" ∨ alg = "HS512") := by
  unfold GetSigningMethod at h
  split at h
  · rename_i hh
    simp at h
    exact ⟨h.symm, hh⟩
  · split at h <;> simp at h

/-- A token that `Parse` accepts is signed with the configured key. -/
theorem signedWith_of_parse_ok (env : Env) (tokenString : String) (tok : Token)
    (claims : JObject) (hdec : env.decodeSegments tokenString = some tok)
    (hp : Parse env tokenString = .ok claims) :
    tok.SignedWith env env.JWT_SECRET_KEY := by
  simp only [Parse, hdec] at hp
  split at hp
  · rename_i alg halg
    split at hp
    · simp at hp
    · rename_i method hm
      cases method with
      | other a => simp [keyFunc] at hp
      | hmac a =>
        obtain ⟨ha, hfam⟩ := getSigningMethod_hmac alg a hm
        subst ha
        simp only [keyFunc] at hp
        split at hp
        · simp at hp
        · split at hp
          · simp at hp
          · rename_i hver
            simp [SigningMethod.Verify] at hver
            exact ⟨a, ⟨halg, hfam⟩, hver⟩
  · simp at hp

/-- A token not signed with the configured key is refused by `Parse`. -/
theorem parse_error_of_not_signed (env : Env) (tokenString : String) (tok : Token)
    (hdec : env.decodeSegments tokenString = some tok)
    (hns : ¬ tok.SignedWith env env.JWT_SECRET_KEY) :
    ∃ e, Parse env tokenString = .error e := by
  cases hp : Parse env tokenString with
  | error e => exact ⟨e, rfl⟩
  | ok claims => exact absurd (signedWith_of_parse_ok env tokenString tok claims hdec hp) hns

/-- A bearer header with an empty token. -/
theorem serve_empty_token (env : Env) :
    serve env "Bearer " =
      { index := abortIndex + 1, written := [⟨401, "Token not provided"⟩],
        userID := none, handlerRuns := 0 } := by
  have hm : AuthMiddleware env "Bearer " Context.fresh
      = (Context.fresh.JSON 401 "Token not provided").Abort := by
    have h1 : ¬ ("Bearer " = "" ∨ (!HasPrefix "Bearer " "Bearer ") = true) := by decide
    have h2 : TrimPrefix "Bearer " "Bearer " = "" := by decide
    simp only [AuthMiddleware, if_neg h1, h2, if_true]
  rw [serve, hm]
  simp [Context.JSON, Context.Abort, Context.Next, Context.fresh, abortIndex]

/-! ## Lemmas: the sample tokens -/

theorem sample_mac : "HS256" ++ ":" ++ "secret" ++ ":" ++ "h.c" = "HS256:secret:h.c" := by
  decide

theorem sample_signed (claims : JObject) :
    (sampleSegments claims).SignedWith (sampleEnvWith claims) "secret" :=
  ⟨"HS256", ⟨rfl, Or.inl rfl⟩, sample_mac⟩

/-- Claims with an integral `exp` that is zero or in the future, and neither `iat`
nor `nbf`, pass `MapClaims.Valid`. -/
theorem valid_of_exp_int (claims : JObject) (now e : Int) (hnow : ClockRange now)
    (he : ClockRange e)
    (hexp : claims.lookup "exp" = some (.number (e : ℚ)))
    (hiat : claims.lookup "iat" = none) (hnbf : claims.lookup "nbf" = none)
    (h : e = 0 ∨ now < e) : MapClaims.Valid claims now = true := by
  simp only [MapClaims.Valid, VerifyExpiresAt, VerifyIssuedAt, VerifyNotBefore, hexp, hiat, hnbf,
    numericDateSeconds_intCast e he, timeUnix_clock now hnow]
  rcases h with h | h
  · simp [h]
  · simp [h]

theorem sample_parse (claims : JObject) (hv : MapClaims.Valid claims 1700000000 = true) :
    Parse (sampleEnvWith claims) "h.c.s" = .ok claims := by
  have hdec : (sampleEnvWith claims).decodeSegments "h.c.s" = some (sampleSegments claims) := by
    simp [sampleEnvWith, sampleEnv]
  have halg : (sampleSegments claims).header.lookup "alg" = some (.string "HS256") := rfl
  have hm : GetSigningMethod "HS256" = some (.hmac "HS256") := by decide
  have hnow : (sampleEnvWith claims).now = 1700000000 := rfl
  have hver : SigningMethod.Verify (sampleEnvWith claims) (.hmac "HS256")
      (sampleSegments claims).signingInput (sampleSegments claims).signature
      (sampleEnvWith claims).JWT_SECRET_KEY = true := by
    show ("HS256" ++ ":" ++ "secret" ++ ":" ++ "h.c" == "HS256:secret:h.c") = true
    rw [sample_mac]
    exact beq_self_eq_true _
  have hcl : (sampleSegments claims).claims = claims := rfl
  simp only [Parse, hdec, halg, hm, keyFunc, hnow, hcl, hv, hver]
  simp

theorem valid_noUserID : MapClaims.Valid claimsNoUserID 1700000000 = true :=
  valid_of_exp_int _ _ 2000000000 (by decide) (by decide) rfl rfl rfl (Or.inr (by decide))

theorem valid_expZero : MapClaims.Valid claimsExpZero 1700000000 = true :=
  valid_of_exp_int _ _ 0 (by decide) (by decide) rfl rfl rfl (Or.inl rfl)

/-! ## Lemmas: `float64` of an integer -/

theorem roundNat53_of_le (n : Nat) (h : n ≤ 2 ^ 53) : roundNat53 n = n := by
  rcases Nat.lt_or_ge n (2 ^ 53) with hlt | hge
  · have hs : excessBits 64 n = 0 := by
      show (if n < 2 ^ 53 then 0 else 1 + excessBits 63 (n / 2)) = 0
      rw [if_pos hlt]
    simp [roundNat53, hs, Nat.mod_one]
  · have hn : n = 2 ^ 53 := le_antisymm h hge
    subst hn
    decide

/-- Integers of magnitude at most `2^53` convert to `float64` exactly. -/
theorem float64OfInt_exact (i : Int) (h : i.natAbs ≤ 2 ^ 53) : float64OfInt i = i := by
  unfold float64OfInt
  rw [roundNat53_of_le _ h]
  split <;> omega

/-- The fuel of `excessBits` suffices: what is left after the halvings fits in 53
bits. -/
theorem excessBits_enough (fuel n : Nat) (h : n < 2 ^ (53 + fuel)) :
    n / 2 ^ excessBits fuel n < 2 ^ 53 := by
  induction fuel generalizing n with
  | zero => simpa [excessBits] using h
  | succ k ih =>
    by_cases hlt : n < 2 ^ 53
    · have hs : excessBits (k + 1) n = 0 := by
        show (if n < 2 ^ 53 then 0 else 1 + excessBits k (n / 2)) = 0
        rw [if_pos hlt]
      simpa [hs] using hlt
    · have hs : excessBits (k + 1) n = 1 + excessBits k (n / 2) := by
        show (if n < 2 ^ 53 then 0 else 1 + excessBits k (n / 2)) = _
        rw [if_neg hlt]
      have hhalf : n / 2 < 2 ^ (53 + k) := by
        have h2 : (2 : Nat) ^ (53 + (k + 1)) = 2 * 2 ^ (53 + k) := by
          rw [← Nat.add_assoc, Nat.pow_succ, Nat.mul_comm]
        rw [h2] at h
        omega
      have := ih (n / 2) hhalf
      rw [hs, Nat.pow_add, Nat.pow_one, ← Nat.div_div_eq_div_mul]
      exact this

/-! ## Lemmas: a token issued by `generateJWT` -/

theorem signedString_ne_empty (env : Env) (tok : UnsignedToken) (key : String) :
    tok.SignedString env key ≠ "" := by
  intro h
  have hlen := congrArg String.length h
  simp [UnsignedToken.SignedString] at hlen
  exact absurd hlen.1.2 (by decide)

theorem hour72 (nowNanos : Int) : Unix (nowNanos + Hour * 72) = Unix nowNanos + 259200 := by
  simp only [Unix, Hour]
  omega

/-- `Parse` accepts a token of `generateJWT` that the codec reads back, while the
expiry it carries is zero or ahead of the clock. -/
theorem parse_generated (env : Env) (userID nowNanos : Int)
    (hwire : env.ReadsBack (jwtToken userID nowNanos) env.JWT_SECRET_KEY)
    (hr : ClockRange (float64OfInt (Unix (nowNanos + Hour * 72))))
    (hexp : float64OfInt (Unix (nowNanos + Hour * 72)) = 0 ∨
      env.now < float64OfInt (Unix (nowNanos + Hour * 72))) :
    Parse env (generateJWT env userID nowNanos) =
      .ok (unmarshalMap (jwtToken userID nowNanos).claims) := by
  have hv : MapClaims.Valid (unmarshalMap (jwtToken userID nowNanos).claims) env.now = true :=
    valid_of_exp_int _ _ (float64OfInt (Unix (nowNanos + Hour * 72))) env.now_range hr
      rfl rfl rfl hexp
  have hdec : env.decodeSegments (generateJWT env userID nowNanos)
      = some (env.wireImage (jwtToken userID nowNanos) env.JWT_SECRET_KEY) := hwire
  have halg : (env.wireImage (jwtToken userID nowNanos) env.JWT_SECRET_KEY).header.lookup "alg"
      = some (.string "HS256") := rfl
  have hm : GetSigningMethod "HS256" = some (.hmac "HS256") := by decide
  have hcl : (env.wireImage (jwtToken userID nowNanos) env.JWT_SECRET_KEY).claims
      = unmarshalMap (jwtToken userID nowNanos).claims := rfl
  have hver : SigningMethod.Verify env (.hmac "HS256")
      (env.wireImage (jwtToken userID nowNanos) env.JWT_SECRET_KEY).signingInput
      (env.wireImage (jwtToken userID nowNanos) env.JWT_SECRET_KEY).signature
      env.JWT_SECRET_KEY = true := by
    show (env.hmac "HS256" env.JWT_SECRET_KEY _ == env.hmac "HS256" env.JWT_SECRET_KEY _) = true
    exact beq_self_eq_true _
  simp only [Parse, hdec, halg, hm, keyFunc, hcl, hv, hver]
  simp

/-- The request carrying a freshly issued token is authenticated with the
`float64` of the user id. -/
theorem serve_generated (env : Env) (userID nowNanos : Int)
    (hwire : env.ReadsBack (jwtToken userID nowNanos) env.JWT_SECRET_KEY)
    (hr : ClockRange (float64OfInt (Unix (nowNanos + Hour * 72))))
    (hexp : float64OfInt (Unix (nowNanos + Hour * 72)) = 0 ∨
      env.now < float64OfInt (Unix (nowNanos + Hour * 72))) :
    serve env ("Bearer " ++ generateJWT env userID nowNanos) =
      { index := 3, written := [], userID := some ((float64OfInt userID : Int) : ℚ),
        handlerRuns := 1 } :=
  serve_authenticated env _ _ _ (signedString_ne_empty env _ _)
    (parse_generated env userID nowNanos hwire hr hexp) rfl

theorem sampleIssueEnv_readsBack (userID : Int) :
    (sampleIssueEnv userID).ReadsBack (jwtToken userID 1700000000000000000) "secret" := by
  simp [Env.ReadsBack, sampleIssueEnv, sampleJwtEnv, sampleEnv, UnsignedToken.SignedString,
    Env.wireImage]

theorem sampleIssueEnv_exp (userID : Int) :
    float64OfInt (Unix (1700000000000000000 + Hour * 72)) = 0 ∨
      (sampleIssueEnv userID).now < float64OfInt (Unix (1700000000000000000 + Hour * 72)) :=
  Or.inr (by
    show (1700000060 : Int) < float64OfInt (Unix (1700000000000000000 + Hour * 72))
    decide)

theorem sampleIssueEnv_range :
    ClockRange (float64OfInt (Unix (1700000000000000000 + Hour * 72))) := by
  decide

/-! ## Identity resolution: lemmas -/

theorem usuarioByEmail_none_of_forall (db : Tables) (email : String)
    (h : ∀ u ∈ db.usuarios, u.email ≠ email) : db.usuarioByEmail email = none := by
  simp only [Tables.usuarioByEmail, List.find?_eq_none]
  intro u hu
  simpa using h u hu

theorem ensureStudentType_ok (o : Outcome) (tx : Tables)
    (h1 : o.selectTipo = none) (h2 : o.insertTipo = none) :
    ∃ t : TipoUsuario, ∃ tx1 : Tables,
      ensureStudentType o tx = .ok (t.id_tipo_usuario, tx1) ∧
      t ∈ tx1.tipos_usuario ∧ t.codigo = "estudiante" ∧
      tx1.usuarios = tx.usuarios ∧ tx1.perfiles = tx.perfiles ∧
      tx1.estados_usuario = tx.estados_usuario := by
  simp only [ensureStudentType, h1, h2]
  cases hf : tx.tipoByCodigo "estudiante" with
  | some t =>
    refine ⟨t, tx, rfl, List.mem_of_find?_eq_some hf, ?_, rfl, rfl, rfl⟩
    have := List.find?_some hf
    simpa using this
  | none =>
    exact ⟨⟨o.id_tipo_usuario, "estudiante", "Estudiante", "Rol por defecto", 1⟩, _, rfl,
      by simp, rfl, rfl, rfl, rfl⟩

theorem ensureActiveState_ok (o : Outcome) (tx : Tables)
    (h1 : o.selectEstado = none) (h2 : o.insertEstado = none) :
    ∃ s : EstadoUsuario, ∃ tx1 : Tables,
      ensureActiveState o tx = .ok (s.id_estado_usuario, tx1) ∧
      s ∈ tx1.estados_usuario ∧ s.codigo = "activo" ∧
      tx1.usuarios = tx.usuarios ∧ tx1.perfiles = tx.perfiles ∧
      tx1.tipos_usuario = tx.tipos_usuario := by
  simp only [ensureActiveState, h1, h2]
  cases hf : tx.estadoByCodigo "activo" with
  | some s =>
    refine ⟨s, tx, rfl, List.mem_of_find?_eq_some hf, ?_, rfl, rfl, rfl⟩
    have := List.find?_some hf
    simpa using this
  | none =>
    exact ⟨⟨o.id_estado_usuario, "activo", "Activo", "Usuario activo"⟩, _, rfl,
      by simp, rfl, rfl, rfl, rfl⟩

/-- The call on an email that has a row: the row's id, a nil error, and at most the
login time of rows touched. -/
theorem getOrCreateUser_found (db : Tables) (o : Outcome) (email name picture : String)
    (u : Usuario) (hsel : o.selectUsuario = none) (hfound : db.usuarioByEmail email = some u) :
    getOrCreateUser db o email name picture =
      (⟨u.id_usuario, none⟩,
        match o.updateLogin with
        | some _ => db
        | none => db.touchLogin u.id_usuario o.now) := by
  simp only [getOrCreateUser, hsel, hfound]
  cases o.updateLogin <;> rfl

theorem touch_email (i now : Int) (u : Usuario) : (u.touch i now).email = u.email := by
  unfold Usuario.touch
  split <;> rfl

theorem touch_id (i now : Int) (u : Usuario) : (u.touch i now).id_usuario = u.id_usuario := by
  unfold Usuario.touch
  split <;> rfl

theorem find_touch (l : List Usuario) (email : String) (i now : Int) :
    ((l.map (Usuario.touch i now)).find? fun u => u.email == email).map (fun u => u.id_usuario)
      = (l.find? fun u => u.email == email).map (fun u => u.id_usuario) := by
  induction l with
  | nil => rfl
  | cons a l ih =>
    simp only [List.map_cons, List.find?_cons, touch_email]
    cases a.email == email with
    | true => simp only [Option.map_some', touch_id]
    | false => exact ih

theorem filter_touch (l : List Usuario) (email : String) (i now : Int) :
    ((l.map (Usuario.touch i now)).filter fun u => u.email == email).length
      = (l.filter fun u => u.email == email).length := by
  induction l with
  | nil => rfl
  | cons a l ih =>
    simp only [List.map_cons, List.filter_cons, touch_email]
    cases a.email == email with
    | true => simp only [if_true, List.length_cons, ih]
    | false => simpa using ih

/-- A call on an email that has a row keeps the row counts, the id found for the
email and the number of rows with that email. -/
theorem getOrCreateUser_found_keeps (db : Tables) (o : Outcome) (email name picture : String)
    (u : Usuario) (hsel : o.selectUsuario = none) (hfound : db.usuarioByEmail email = some u) :
    (getOrCreateUser db o email name picture).2.usuarios.length = db.usuarios.length ∧
    (getOrCreateUser db o email name picture).2.perfiles = db.perfiles ∧
    ((getOrCreateUser db o email name picture).2.usuarioByEmail email).map
        (fun r => r.id_usuario) = some u.id_usuario ∧
    ((getOrCreateUser db o email name picture).2.usuarios.filter
        fun r => r.email == email).length
      = (db.usuarios.filter fun r => r.email == email).length := by
  rw [getOrCreateUser_found db o email name picture u hsel hfound]
  cases o.updateLogin with
  | some e => simp [hfound]
  | none =>
    refine ⟨by simp [Tables.touchLogin], rfl, ?_, ?_⟩
    · have h := find_touch db.usuarios email u.id_usuario o.now
      simp only [Tables.usuarioByEmail] at hfound
      rw [hfound] at h
      simpa [Tables.usuarioByEmail, Tables.touchLogin] using h
    · exact filter_touch db.usuarios email u.id_usuario o.now

/-- Successive calls on an email that has a row: every result is that row's id with
a nil error, and the row counts stay. -/
theorem getOrCreateUserSeq_found (calls : List (Outcome × String × String)) (db : Tables)
    (email : String) (i : Int)
    (hsel : ∀ c ∈ calls, c.1.selectUsuario = none)
    (hfound : (db.usuarioByEmail email).map (fun r => r.id_usuario) = some i) :
    (∀ r ∈ (getOrCreateUserSeq db email calls).1, r = ⟨i, none⟩) ∧
    (getOrCreateUserSeq db email calls).2.usuarios.length = db.usuarios.length ∧
    (getOrCreateUserSeq db email calls).2.perfiles = db.perfiles ∧
    ((getOrCreateUserSeq db email calls).2.usuarios.filter fun r => r.email == email).length
      = (db.usuarios.filter fun r => r.email == email).length := by
  induction calls generalizing db with
  | nil => simp [getOrCreateUserSeq]
  | cons c rest ih =>
    obtain ⟨o, name, picture⟩ := c
    have ho : o.selectUsuario = none := hsel (o, name, picture) (List.mem_cons_self _ _)
    cases hu : db.usuarioByEmail email with
    | none => simp [hu] at hfound
    | some u =>
      have hi : u.id_usuario = i := by simpa [hu] using hfound
      obtain ⟨k1, k2, k3, k4⟩ := getOrCreateUser_found_keeps db o email name picture u ho hu
      have hres := getOrCreateUser_found db o email name picture u ho hu
      obtain ⟨r1, r2, r3, r4⟩ := ih (getOrCreateUser db o email name picture).2
        (fun c hc => hsel c (List.mem_cons_of_mem _ hc)) (by rw [k3, hi])
      simp only [getOrCreateUserSeq]
      refine ⟨?_, by rw [r2, k1], by rw [r3, k2], by rw [r4, k4]⟩
      intro r hr
      rcases List.mem_cons.mp hr with h | h
      · rw [h, hres, hi]
      · exact r1 r h

theorem ensureStudentType_cases (o : Outcome) (tx : Tables) :
    (∃ e, ensureStudentType o tx = .error e) ∨
    (∃ id tx1, ensureStudentType o tx = .ok (id, tx1) ∧ o.selectTipo = none ∧
      (tx.tipoByCodigo "estudiante" = none → o.insertTipo = none) ∧
      tx1.estados_usuario = tx.estados_usuario) := by
  unfold ensureStudentType
  cases h1 : o.selectTipo with
  | some e => exact Or.inl ⟨_, rfl⟩
  | none =>
    cases h2 : tx.tipoByCodigo "estudiante" with
    | some t => exact Or.inr ⟨_, _, rfl, rfl, (by intro h; cases h), rfl⟩
    | none =>
      cases h3 : o.insertTipo with
      | some e => exact Or.inl ⟨_, rfl⟩
      | none => exact Or.inr ⟨_, _, rfl, rfl, fun _ => rfl, rfl⟩

theorem ensureActiveState_cases (o : Outcome) (tx : Tables) :
    (∃ e, ensureActiveState o tx = .error e) ∨
    (∃ id tx1, ensureActiveState o tx = .ok (id, tx1) ∧ o.selectEstado = none ∧
      (tx.estadoByCodigo "activo" = none → o.insertEstado = none)) := by
  unfold ensureActiveState
  cases h1 : o.selectEstado with
  | some e => exact Or.inl ⟨_, rfl⟩
  | none =>
    cases h2 : tx.estadoByCodigo "activo" with
    | some t => exact Or.inr ⟨_, _, rfl, rfl, (by intro h; cases h)⟩
    | none =>
      cases h3 : o.insertEstado with
      | some e => exact Or.inl ⟨_, rfl⟩
      | none => exact Or.inr ⟨_, _, rfl, rfl, fun _ => rfl⟩

/-- The transaction body ends in an error, or every statement it ran succeeded. -/
theorem createInTx_cases (o : Outcome) (db : Tables) (email name picture : String) :
    (∃ e, createInTx o db email name picture = .error e) ∨
    ((∃ r, createInTx o db email name picture = .ok r) ∧ o.selectTipo = none ∧
      (db.tipoByCodigo "estudiante" = none → o.insertTipo = none) ∧ o.selectEstado = none ∧
      (db.estadoByCodigo "activo" = none → o.insertEstado = none) ∧
      o.insertUsuario = none ∧ o.insertPerfil = none) := by
  rcases ensureStudentType_cases o db with ⟨e, he⟩ | ⟨id, tx1, he, hs, hi, hest⟩
  · exact Or.inl ⟨e, by simp only [createInTx, he]⟩
  · rcases ensureActiveState_cases o tx1 with ⟨e, he2⟩ | ⟨id2, tx2, he2, hs2, hi2⟩
    · exact Or.inl ⟨e, by simp only [createInTx, he, he2]⟩
    · have hi2' : db.estadoByCodigo "activo" = none → o.insertEstado = none := by
        intro h
        apply hi2
        simpa [Tables.estadoByCodigo, hest] using h
      cases h7 : o.insertUsuario with
      | some e => exact Or.inl ⟨_, (by simp only [createInTx, he, he2, h7]; rfl)⟩
      | none =>
        cases h8 : o.insertPerfil with
        | some e => exact Or.inl ⟨_, (by simp only [createInTx, he, he2, h7, h8]; rfl)⟩
        | none =>
          exact Or.inr ⟨⟨_, (by simp only [createInTx, he, he2, h7, h8]; rfl)⟩, hs, hi, hs2, hi2',
            rfl, rfl⟩

/-- Creation on a new email with every statement succeeding: the result and the
rows committed. -/
theorem getOrCreateUser_creates_rows (db : Tables) (o : Outcome) (email name picture : String)
    (hnew : ∀ u ∈ db.usuarios, u.email ≠ email) (hok : o.AllSucceed) :
    ∃ (t : TipoUsuario) (s : EstadoUsuario) (db' : Tables),
      getOrCreateUser db o email name picture = (⟨o.id_usuario, none⟩, db') ∧
      db'.usuarios = db.usuarios ++
        [⟨o.id_usuario, t.id_tipo_usuario, s.id_estado_usuario, email, "google-login", o.now,
          none⟩] ∧
      db'.perfiles = db.perfiles ++ [⟨o.id_usuario, name, "", picture⟩] ∧
      t ∈ db'.tipos_usuario ∧ t.codigo = "estudiante" ∧
      s ∈ db'.estados_usuario ∧ s.codigo = "activo" := by
  obtain ⟨h1, _, h3, h4, h5, h6, h7, h8, h9, h10⟩ := hok
  obtain ⟨t, tx1, ht, htm, htc, htu, htp, _⟩ := ensureStudentType_ok o db h4 h5
  obtain ⟨s, tx2, hs, hsm, hsc, hsu, hsp, hst⟩ := ensureActiveState_ok o tx1 h6 h7
  have hres : getOrCreateUser db o email name picture =
      (⟨o.id_usuario, none⟩,
        { tx2 with
          usuarios := tx2.usuarios ++
            [⟨o.id_usuario, t.id_tipo_usuario, s.id_estado_usuario, email, "google-login", o.now,
              none⟩]
          perfiles := tx2.perfiles ++ [⟨o.id_usuario, name, "", picture⟩] }) := by
    simp only [getOrCreateUser, h1, usuarioByEmail_none_of_forall db email hnew, h3, createInTx,
      ht, hs, h8, h9, h10]
  refine ⟨t, s, _, hres, ?_, ?_, ?_, htc, ?_, hsc⟩
  · simp [hsu, htu]
  · simp [hsp, htp]
  · simp [hst, htm]
  · simp [hsm]

/-! ## Session tokens: the properties -/

/-- C1, as the code has it: for a user id of magnitude at most `2^53` and an expiry
below `2^53` seconds, a token issued by `generateJWT`, read back by the codec and
presented as `Bearer <token>` under the same secret before its expiry, is accepted
(nothing is written, the handler runs once), and the id the handler reads from the
context is the one the token was issued for. -/
theorem generateJWT_authMiddleware_roundtrip (env : Env) (userID nowNanos : Int)
    (hwire : env.ReadsBack (jwtToken userID nowNanos) env.JWT_SECRET_KEY)
    (hid : userID.natAbs ≤ 2 ^ 53)
    (hrange : (Unix (nowNanos + Hour * 72)).natAbs ≤ 2 ^ 53)
    (hnow : env.now < Unix (nowNanos + Hour * 72)) :
    (serve env ("Bearer " ++ generateJWT env userID nowNanos)).written = [] ∧
    (serve env ("Bearer " ++ generateJWT env userID nowNanos)).handlerRuns = 1 ∧
    (serve env ("Bearer " ++ generateJWT env userID nowNanos)).userID = some (userID : ℚ) ∧
    contextUserID (serve env ("Bearer " ++ generateJWT env userID nowNanos)) = .ok userID := by
  have hexp : float64OfInt (Unix (nowNanos + Hour * 72)) = 0 ∨
      env.now < float64OfInt (Unix (nowNanos + Hour * 72)) := by
    rw [float64OfInt_exact _ hrange]
    exact Or.inr hnow
  have hr : ClockRange (float64OfInt (Unix (nowNanos + Hour * 72))) := by
    rw [float64OfInt_exact _ hrange]
    unfold ClockRange unixToInternal
    omega
  have hu : -9223372036854775808 ≤ userID ∧ userID < 9223372036854775808 := by
    omega
  rw [serve_generated env userID nowNanos hwire hr hexp, float64OfInt_exact _ hid]
  simp [contextUserID, truncFloat_intCast userID hu]

/-- C1, witness: user 42, issued at unix time 1700000000, presented 60 s later. -/
theorem generateJWT_authMiddleware_roundtrip_witness :
    (serve (sampleIssueEnv 42)
      ("Bearer " ++ generateJWT (sampleIssueEnv 42) 42 1700000000000000000)).written = [] ∧
    (serve (sampleIssueEnv 42)
      ("Bearer " ++ generateJWT (sampleIssueEnv 42) 42 1700000000000000000)).handlerRuns = 1 ∧
    (serve (sampleIssueEnv 42)
      ("Bearer " ++ generateJWT (sampleIssueEnv 42) 42 1700000000000000000)).userID
        = some ((42 : Int) : ℚ) ∧
    contextUserID (serve (sampleIssueEnv 42)
      ("Bearer " ++ generateJWT (sampleIssueEnv 42) 42 1700000000000000000)) = .ok 42 :=
  generateJWT_authMiddleware_roundtrip (sampleIssueEnv 42) 42 1700000000000000000
    (sampleIssueEnv_readsBack 42) (by decide) (by decide)
    (by show (1700000060 : Int) < Unix (1700000000000000000 + Hour * 72); decide)

/-- C1, counterexample: the token issued for user `2^53 + 1` is accepted before its
expiry, and the handler reads user `2^53` from the context. -/
theorem generateJWT_roundtrip_large_id :
    (sampleIssueEnv 9007199254740993).ReadsBack
        (jwtToken 9007199254740993 1700000000000000000) "secret" ∧
    (sampleIssueEnv 9007199254740993).now < Unix (1700000000000000000 + Hour * 72) ∧
    contextUserID (serve (sampleIssueEnv 9007199254740993)
      ("Bearer " ++ generateJWT (sampleIssueEnv 9007199254740993) 9007199254740993
        1700000000000000000)) = .ok 9007199254740992 := by
  refine ⟨sampleIssueEnv_readsBack _, ?_, ?_⟩
  · show (1700000060 : Int) < Unix (1700000000000000000 + Hour * 72)
    decide
  · rw [serve_generated (sampleIssueEnv 9007199254740993) 9007199254740993 1700000000000000000
      (sampleIssueEnv_readsBack _) sampleIssueEnv_range (sampleIssueEnv_exp _)]
    have hf : float64OfInt 9007199254740993 = 9007199254740992 := by decide
    simp only [contextUserID, hf, truncFloat_intCast 9007199254740992 (by decide)]

/-- C2, as the code has it: a token whose `exp` is a nonzero number earlier than
the current time is answered 401, the chain is aborted, `userID` is not set and the
handler does not run, whatever its signature. -/
theorem authMiddleware_rejects_expired (env : Env) (tokenString : String) (tok : Token) (q : ℚ)
    (hdec : env.decodeSegments tokenString = some tok)
    (hexp : tok.claims.lookup "exp" = some (.number q))
    (hnz : q ≠ 0) (hpast : q < (env.now : ℚ)) :
    (serve env ("Bearer " ++ tokenString)).status = some 401 ∧
    (serve env ("Bearer " ++ tokenString)).IsAborted = true ∧
    (serve env ("Bearer " ++ tokenString)).userID = none ∧
    (serve env ("Bearer " ++ tokenString)).handlerRuns = 0 := by
  by_cases hne : tokenString = ""
  · subst hne
    have h : "Bearer " ++ "" = "Bearer " := by decide
    rw [h, serve_empty_token]
    simp [Context.status, Context.IsAborted, abortIndex]
  · obtain ⟨e, he⟩ := parse_error_of_expired env tokenString tok hdec
      (verifyExpiresAt_past tok.claims env.now q env.now_range hexp hnz hpast)
    rw [serve_parse_error env tokenString e hne he]
    simp [Context.status, Context.IsAborted, abortIndex]

/-- Claims for user 7 that expired at unix time 1000. -/
theorem claimsExpired_lookup :
    (sampleSegments [("user_id", .number ((7 : Int) : ℚ)),
      ("exp", .number ((1000 : Int) : ℚ))]).claims.lookup "exp"
      = some (.number ((1000 : Int) : ℚ)) := rfl

/-- C2, witness: a correctly signed token that expired at unix time 1000. -/
theorem authMiddleware_rejects_expired_witness :
    (serve (sampleEnvWith [("user_id", .number ((7 : Int) : ℚ)),
      ("exp", .number ((1000 : Int) : ℚ))]) ("Bearer " ++ "h.c.s")).status = some 401 ∧
    (serve (sampleEnvWith [("user_id", .number ((7 : Int) : ℚ)),
      ("exp", .number ((1000 : Int) : ℚ))]) ("Bearer " ++ "h.c.s")).IsAborted = true ∧
    (serve (sampleEnvWith [("user_id", .number ((7 : Int) : ℚ)),
      ("exp", .number ((1000 : Int) : ℚ))]) ("Bearer " ++ "h.c.s")).userID = none ∧
    (serve (sampleEnvWith [("user_id", .number ((7 : Int) : ℚ)),
      ("exp", .number ((1000 : Int) : ℚ))]) ("Bearer " ++ "h.c.s")).handlerRuns = 0 :=
  authMiddleware_rejects_expired _ "h.c.s" _ ((1000 : Int) : ℚ)
    (by simp [sampleEnvWith, sampleEnv]) claimsExpired_lookup (by norm_num)
    (by show (((1000 : Int) : ℚ)) < ((1700000000 : Int) : ℚ); norm_num)

/-- C2, counterexample: at time 1700000000 a token signed with the configured
secret whose `exp` is 0, a time long past, is accepted: `userID` is set to 7 and the
handler runs. -/
theorem authMiddleware_accepts_exp_zero :
    (sampleSegments claimsExpZero).SignedWith (sampleEnvWith claimsExpZero) "secret" ∧
    (sampleSegments claimsExpZero).claims.lookup "exp" = some (.number ((0 : Int) : ℚ)) ∧
    (((0 : Int) : ℚ)) < (((sampleEnvWith claimsExpZero).now : Int) : ℚ) ∧
    serve (sampleEnvWith claimsExpZero) ("Bearer " ++ "h.c.s") =
      { index := 3, written := [], userID := some ((7 : Int) : ℚ), handlerRuns := 1 } := by
  refine ⟨sample_signed _, rfl, ?_, ?_⟩
  · show (((0 : Int) : ℚ)) < ((1700000000 : Int) : ℚ)
    norm_num
  · exact serve_authenticated _ "h.c.s" claimsExpZero _ (by decide)
      (sample_parse _ valid_expZero) rfl

/-- C3: a token signed with a key other than the configured secret (the two keys'
MACs of its signing input differ), or whose header names no HMAC algorithm, is
answered 401 with error "Invalid token"; the chain is aborted, `userID` is never set
and the handler does not run, whatever claims it carries. -/
theorem authMiddleware_rejects_foreign_token (env : Env) (tokenString : String) (tok : Token)
    (hne : tokenString ≠ "")
    (hdec : env.decodeSegments tokenString = some tok)
    (hbad :
      (∃ alg key, tok.NamesHMAC alg ∧ key ≠ env.JWT_SECRET_KEY ∧
        env.hmac alg key tok.signingInput = tok.signature ∧
        env.hmac alg env.JWT_SECRET_KEY tok.signingInput ≠ env.hmac alg key tok.signingInput) ∨
      (∀ alg, ¬ tok.NamesHMAC alg)) :
    (serve env ("Bearer " ++ tokenString)).written = [⟨401, "Invalid token"⟩] ∧
    (serve env ("Bearer " ++ tokenString)).IsAborted = true ∧
    (serve env ("Bearer " ++ tokenString)).userID = none ∧
    (serve env ("Bearer " ++ tokenString)).handlerRuns = 0 := by
  have hns : ¬ tok.SignedWith env env.JWT_SECRET_KEY := by
    rintro ⟨alg, hnames, hsig⟩
    rcases hbad with ⟨alg', key, hnames', _, hsig', hsep⟩ | hnone
    · have halg : alg' = alg := by
        have h := hnames'.1.symm.trans hnames.1
        simpa using h
      subst halg
      exact hsep (hsig.trans hsig'.symm)
    · exact hnone alg hnames
  obtain ⟨e, he⟩ := parse_error_of_not_signed env tokenString tok hdec hns
  rw [serve_parse_error env tokenString e hne he]
  simp [Context.IsAborted, abortIndex]

/-- C3, witness: a token for user 1 signed with the key `other`. -/
theorem authMiddleware_rejects_foreign_token_witness :
    (serve (sampleEnv 1700000000 "h.c.x" foreignSegments) ("Bearer " ++ "h.c.x")).written
      = [⟨401, "Invalid token"⟩] ∧
    (serve (sampleEnv 1700000000 "h.c.x" foreignSegments) ("Bearer " ++ "h.c.x")).IsAborted
      = true ∧
    (serve (sampleEnv 1700000000 "h.c.x" foreignSegments) ("Bearer " ++ "h.c.x")).userID
      = none ∧
    (serve (sampleEnv 1700000000 "h.c.x" foreignSegments) ("Bearer " ++ "h.c.x")).handlerRuns
      = 0 :=
  authMiddleware_rejects_foreign_token (sampleEnv 1700000000 "h.c.x" foreignSegments) "h.c.x"
    foreignSegments (by decide) (by simp [sampleEnv])
    (Or.inl ⟨"HS256", "other", ⟨rfl, Or.inl rfl⟩, by decide, by decide, by decide⟩)

/-- C4: a request whose Authorization header is absent or empty, or does not begin
with `Bearer `, is answered 401 with error "Authorization header required"; the
chain is aborted, `userID` stays unset and the handler does not run. -/
theorem authMiddleware_requires_bearer (env : Env) (authHeader : String)
    (h : authHeader = "" ∨ HasPrefix authHeader "Bearer " = false) :
    (serve env authHeader).written = [⟨401, "Authorization header required"⟩] ∧
    (serve env authHeader).status = some 401 ∧
    (serve env authHeader).IsAborted = true ∧
    (serve env authHeader).userID = none ∧
    (serve env authHeader).handlerRuns = 0 := by
  rw [serve_no_bearer env authHeader h]
  simp [Context.status, Context.IsAborted, abortIndex]

/-- C4, witness: a header with the prefix in lower case. -/
theorem authMiddleware_requires_bearer_witness :
    (serve (sampleEnvWith claimsExpZero) "bearer h.c.s").written
      = [⟨401, "Authorization header required"⟩] ∧
    (serve (sampleEnvWith claimsExpZero) "bearer h.c.s").status = some 401 ∧
    (serve (sampleEnvWith claimsExpZero) "bearer h.c.s").IsAborted = true ∧
    (serve (sampleEnvWith claimsExpZero) "bearer h.c.s").userID = none ∧
    (serve (sampleEnvWith claimsExpZero) "bearer h.c.s").handlerRuns = 0 :=
  authMiddleware_requires_bearer (sampleEnvWith claimsExpZero) "bearer h.c.s"
    (Or.inr (by decide))

/-- C5, the code on a valid token without `user_id`: signed with the configured
secret and unexpired, it is answered 401 "Invalid token claims", but the chain is
not aborted and the protected handler runs. -/
theorem authMiddleware_missing_user_id_runs_handler :
    (sampleSegments claimsNoUserID).SignedWith (sampleEnvWith claimsNoUserID) "secret" ∧
    claimsNoUserID.lookup "user_id" = none ∧
    serve (sampleEnvWith claimsNoUserID) ("Bearer " ++ "h.c.s") =
      { index := 2, written := [⟨401, "Invalid token claims"⟩], userID := none,
        handlerRuns := 1 } ∧
    (serve (sampleEnvWith claimsNoUserID) ("Bearer " ++ "h.c.s")).IsAborted = false := by
  have hs : serve (sampleEnvWith claimsNoUserID) ("Bearer " ++ "h.c.s") =
      { index := 2, written := [⟨401, "Invalid token claims"⟩], userID := none,
        handlerRuns := 1 } :=
    serve_bad_claims _ "h.c.s" claimsNoUserID (by decide) (sample_parse _ valid_noUserID)
      (by intro v h; cases h)
  refine ⟨sample_signed _, rfl, hs, ?_⟩
  rw [hs]
  decide

/-- C10, as the code has it: for a user id of magnitude at most `2^53`, issued when
the clock reads `nowNanos`, `generateJWT` yields the HS256 token whose claims are
`user_id = userID` and `exp = Unix(now) + 259200`, signed with the configured
secret. -/
theorem generateJWT_claims (env : Env) (userID nowNanos : Int)
    (hid : userID.natAbs ≤ 2 ^ 53) :
    generateJWT env userID nowNanos =
      env.signingString [("typ", .string "JWT"), ("alg", .string "HS256")]
          [("user_id", .float64 (userID : ℚ)), ("exp", .int64 (Unix nowNanos + 259200))]
        ++ "." ++
        env.hmac "HS256" env.JWT_SECRET_KEY
          (env.signingString [("typ", .string "JWT"), ("alg", .string "HS256")]
            [("user_id", .float64 (userID : ℚ)), ("exp", .int64 (Unix nowNanos + 259200))]) := by
  simp only [generateJWT, jwtToken, NewWithClaims, UnsignedToken.SignedString,
    float64OfInt_exact _ hid, hour72]

/-- C10, witness: user 42 at unix time 1700000000. -/
theorem generateJWT_claims_witness :
    generateJWT (sampleIssueEnv 42) 42 1700000000000000000 =
      (sampleIssueEnv 42).signingString [("typ", .string "JWT"), ("alg", .string "HS256")]
          [("user_id", .float64 ((42 : Int) : ℚ)),
            ("exp", .int64 (Unix 1700000000000000000 + 259200))]
        ++ "." ++
        (sampleIssueEnv 42).hmac "HS256" (sampleIssueEnv 42).JWT_SECRET_KEY
          ((sampleIssueEnv 42).signingString [("typ", .string "JWT"), ("alg", .string "HS256")]
            [("user_id", .float64 ((42 : Int) : ℚ)),
              ("exp", .int64 (Unix 1700000000000000000 + 259200))]) :=
  generateJWT_claims (sampleIssueEnv 42) 42 1700000000000000000 (by decide)

/-- C10, counterexample: the token built for user `2^53 + 1` at the epoch carries
the claim `user_id = 2^53`. -/
theorem generateJWT_claims_large_id :
    (jwtToken 9007199254740993 0).method = "HS256" ∧
    (jwtToken 9007199254740993 0).claims =
      [("user_id", .float64 ((9007199254740992 : Int) : ℚ)), ("exp", .int64 259200)] ∧
    GoValue.float64 ((9007199254740992 : Int) : ℚ)
      ≠ GoValue.float64 ((9007199254740993 : Int) : ℚ) := by
  have hf : float64OfInt 9007199254740993 = 9007199254740992 := by decide
  have hu : Unix (0 + Hour * 72) = 259200 := by decide
  refine ⟨rfl, ?_, ?_⟩
  · simp only [jwtToken, NewWithClaims, hf, hu]
  · intro h
    injection h with h
    have h' : (9007199254740992 : Int) = 9007199254740993 := by exact_mod_cast h
    exact absurd h' (by decide)

/-! ## Identity resolution: the properties -/

/-- C6: for an email with no row in `usuarios`, when every statement succeeds,
`getOrCreateUser` returns the id of the inserted user with a nil error, and commits
exactly one new `usuarios` row (that email, linked to an `estudiante` type and an
`activo` status) and exactly one new `perfiles` row for it (the given name and
picture, empty `apellido`). -/
theorem getOrCreateUser_creates (db : Tables) (o : Outcome) (email name picture : String)
    (hnew : ∀ u ∈ db.usuarios, u.email ≠ email) (hok : o.AllSucceed) :
    ∃ (t : TipoUsuario) (s : EstadoUsuario) (db' : Tables),
      getOrCreateUser db o email name picture = (⟨o.id_usuario, none⟩, db') ∧
      db'.usuarios = db.usuarios ++
        [⟨o.id_usuario, t.id_tipo_usuario, s.id_estado_usuario, email, "google-login", o.now,
          none⟩] ∧
      db'.perfiles = db.perfiles ++ [⟨o.id_usuario, name, "", picture⟩] ∧
      t ∈ db'.tipos_usuario ∧ t.codigo = "estudiante" ∧
      s ∈ db'.estados_usuario ∧ s.codigo = "activo" :=
  getOrCreateUser_creates_rows db o email name picture hnew hok

/-- C6, witness: a first user in an empty database. -/
theorem getOrCreateUser_creates_witness :
    ∃ (t : TipoUsuario) (s : EstadoUsuario) (db' : Tables),
      getOrCreateUser Tables.empty (Outcome.ok 1 1 1 100) "ana@utb.edu.co" "Ana" "ana.png"
        = (⟨(Outcome.ok 1 1 1 100).id_usuario, none⟩, db') ∧
      db'.usuarios = Tables.empty.usuarios ++
        [⟨(Outcome.ok 1 1 1 100).id_usuario, t.id_tipo_usuario, s.id_estado_usuario,
          "ana@utb.edu.co", "google-login", (Outcome.ok 1 1 1 100).now, none⟩] ∧
      db'.perfiles = Tables.empty.perfiles ++
        [⟨(Outcome.ok 1 1 1 100).id_usuario, "Ana", "", "ana.png"⟩] ∧
      t ∈ db'.tipos_usuario ∧ t.codigo = "estudiante" ∧
      s ∈ db'.estados_usuario ∧ s.codigo = "activo" :=
  getOrCreateUser_creates Tables.empty (Outcome.ok 1 1 1 100) "ana@utb.edu.co" "Ana" "ana.png"
    (by intro u hu; cases hu) ⟨rfl, rfl, rfl, rfl, rfl, rfl, rfl, rfl, rfl, rfl⟩

/-- C7: for an email that has a row in `usuarios`, every call in a sequence of calls
(whose lookups the database answers) returns the id of that row with a nil error,
and the numbers of `usuarios` and `perfiles` rows stay as they were; and for an email
with no row, a first call in which every statement succeeds followed by further
calls returns the same id every time and leaves exactly one row with that email. -/
theorem getOrCreateUser_idempotent (db : Tables) (email : String)
    (calls : List (Outcome × String × String))
    (hsel : ∀ c ∈ calls, c.1.selectUsuario = none) :
    (∀ u, db.usuarioByEmail email = some u →
      (∀ r ∈ (getOrCreateUserSeq db email calls).1, r = ⟨u.id_usuario, none⟩) ∧
      (getOrCreateUserSeq db email calls).2.usuarios.length = db.usuarios.length ∧
      (getOrCreateUserSeq db email calls).2.perfiles.length = db.perfiles.length) ∧
    (∀ o name picture, (∀ u ∈ db.usuarios, u.email ≠ email) → o.AllSucceed →
      (∀ r ∈ (getOrCreateUserSeq db email ((o, name, picture) :: calls)).1,
        r = ⟨o.id_usuario, none⟩) ∧
      ((getOrCreateUserSeq db email ((o, name, picture) :: calls)).2.usuarios.filter
        fun r => r.email == email).length = 1) := by
  constructor
  · intro u hu
    obtain ⟨r1, r2, r3, _⟩ := getOrCreateUserSeq_found calls db email u.id_usuario hsel
      (by rw [hu]; rfl)
    exact ⟨r1, r2, by rw [r3]⟩
  · intro o name picture hnew hok
    obtain ⟨t, s, db', hres, hus, _, _, _, _, _⟩ :=
      getOrCreateUser_creates_rows db o email name picture hnew hok
    have hnone : (db.usuarios.filter fun r => r.email == email) = [] := by
      rw [List.filter_eq_nil_iff]
      intro u hu
      simpa using hnew u hu
    have hfind : (db'.usuarioByEmail email).map (fun r => r.id_usuario) = some o.id_usuario := by
      have hn := usuarioByEmail_none_of_forall db email hnew
      simp only [Tables.usuarioByEmail] at hn
      simp [Tables.usuarioByEmail, hus, List.find?_append, hn]
    obtain ⟨r1, _, _, r4⟩ := getOrCreateUserSeq_found calls db' email o.id_usuario hsel hfind
    simp only [getOrCreateUserSeq, hres]
    refine ⟨?_, ?_⟩
    · intro r hr
      rcases List.mem_cons.mp hr with h | h
      · exact h
      · exact r1 r h
    · rw [r4, hus, List.filter_append, hnone]
      simp

/-- C7, witness: two calls for the user of the sample database, the second with a
failing login update. -/
theorem getOrCreateUser_idempotent_witness :
    (∀ u, sampleTables.usuarioByEmail "ana@utb.edu.co" = some u →
      (∀ r ∈ (getOrCreateUserSeq sampleTables "ana@utb.edu.co" sampleCalls).1,
        r = ⟨u.id_usuario, none⟩) ∧
      (getOrCreateUserSeq sampleTables "ana@utb.edu.co" sampleCalls).2.usuarios.length
        = sampleTables.usuarios.length ∧
      (getOrCreateUserSeq sampleTables "ana@utb.edu.co" sampleCalls).2.perfiles.length
        = sampleTables.perfiles.length) ∧
    (∀ o name picture, (∀ u ∈ sampleTables.usuarios, u.email ≠ "ana@utb.edu.co") →
      o.AllSucceed →
      (∀ r ∈ (getOrCreateUserSeq sampleTables "ana@utb.edu.co"
          ((o, name, picture) :: sampleCalls)).1, r = ⟨o.id_usuario, none⟩) ∧
      ((getOrCreateUserSeq sampleTables "ana@utb.edu.co"
          ((o, name, picture) :: sampleCalls)).2.usuarios.filter
        fun r => r.email == "ana@utb.edu.co").length = 1) :=
  getOrCreateUser_idempotent sampleTables "ana@utb.edu.co" sampleCalls (by decide)

/-- C8: when the email has no row and a statement of the creation path fails
(begin, type lookup or insert, status lookup or insert, user insert, profile insert
or commit), `getOrCreateUser` returns id 0 with an error and the committed tables are
exactly what they were: no row written by the call remains. -/
theorem getOrCreateUser_atomic (db : Tables) (o : Outcome) (email name picture : String)
    (hsel : o.selectUsuario = none) (hnew : db.usuarioByEmail email = none)
    (hfail : o.CreationFails db) :
    ∃ msg, getOrCreateUser db o email name picture = (⟨0, some msg⟩, db) := by
  simp only [getOrCreateUser, hsel, hnew]
  cases hb : o.beginTx with
  | some e => exact ⟨_, rfl⟩
  | none =>
    rcases createInTx_cases o db email name picture with ⟨e, he⟩ | ⟨⟨r, hr⟩, k1, k2, k3, k4, k5, k6⟩
    · rw [he]
      exact ⟨_, rfl⟩
    · rw [hr]
      cases hc : o.commit with
      | some e => exact ⟨_, rfl⟩
      | none =>
        exfalso
        rcases hfail with h | h | ⟨h, h'⟩ | h | ⟨h, h'⟩ | h | h | h
        · exact h hb
        · exact h k1
        · exact h' (k2 h)
        · exact h k3
        · exact h' (k4 h)
        · exact h k5
        · exact h k6
        · exact h hc

/-- C8, witness: the profile insert fails for a first user in an empty database. -/
theorem getOrCreateUser_atomic_witness :
    ∃ msg, getOrCreateUser Tables.empty
      { Outcome.ok 1 1 1 100 with insertPerfil := some "connection reset" }
      "ana@utb.edu.co" "Ana" "ana.png" = (⟨0, some msg⟩, Tables.empty) :=
  getOrCreateUser_atomic Tables.empty
    { Outcome.ok 1 1 1 100 with insertPerfil := some "connection reset" }
    "ana@utb.edu.co" "Ana" "ana.png" rfl rfl
    (Or.inr (Or.inr (Or.inr (Or.inr (Or.inr (Or.inr (Or.inl (by decide))))))))

/-- C9: for an email the initial lookup finds, `getOrCreateUser` returns the id of
the found row with a nil error whatever the `UPDATE` of `ultimo_login` does: with
the update failing (any driver error) the result is the same as with it succeeding,
and the tables are then left as they were. -/
theorem getOrCreateUser_login_update_best_effort (db : Tables) (o : Outcome)
    (email name picture : String) (u : Usuario) (upd : Option String)
    (hsel : o.selectUsuario = none) (hfound : db.usuarioByEmail email = some u) :
    (getOrCreateUser db { o with updateLogin := upd } email name picture).1
      = ⟨u.id_usuario, none⟩ ∧
    (upd ≠ none →
      (getOrCreateUser db { o with updateLogin := upd } email name picture).2 = db) := by
  have h := getOrCreateUser_found db { o with updateLogin := upd } email name picture u hsel
    hfound
  rw [h]
  refine ⟨rfl, ?_⟩
  intro h
  cases upd with
  | none => exact absurd rfl h
  | some e => rfl

/-- C9, witness: the login update of the sample user times out. -/
theorem getOrCreateUser_login_update_best_effort_witness :
    (getOrCreateUser sampleTables
      { Outcome.ok 2 2 9 200 with updateLogin := some "timeout" }
      "ana@utb.edu.co" "Ana" "a.png").1 = ⟨5, none⟩ ∧
    ((some "timeout" : Option String) ≠ none →
      (getOrCreateUser sampleTables
        { Outcome.ok 2 2 9 200 with updateLogin := some "timeout" }
        "ana@utb.edu.co" "Ana" "a.png").2 = sampleTables) :=
  getOrCreateUser_login_update_best_effort sampleTables (Outcome.ok 2 2 9 200)
    "ana@utb.edu.co" "Ana" "a.png" ⟨5, 1, 1, "ana@utb.edu.co", "google-login", 100, none⟩
    (some "timeout") rfl (by decide)

/-! ## The authentication handlers and the middleware, continued: lemmas -/

theorem bearer_split (h : String) (hp : HasPrefix h "Bearer " = true) :
    h = "Bearer " ++ TrimPrefix h "Bearer " := by
  have hpre : "Bearer ".toList <+: h.toList := by
    simpa [HasPrefix] using hp
  obtain ⟨t, ht⟩ := hpre
  have hlen : "Bearer ".length = 7 := by decide
  have hl : "Bearer ".toList.length = 7 := by decide
  have hdrop : h.toList.drop 7 = t := by
    rw [← ht, ← hl, List.drop_left]
  apply String.ext
  simp only [TrimPrefix, hp, if_true, hlen, hdrop, String.data_append]
  exact ht.symm

/-- `Parse` accepts exactly the tokens that decode, are signed with the configured
key and pass the time checks; it yields their claims. -/
theorem parse_ok_iff (env : Env) (tokenString : String) (claims : JObject) :
    Parse env tokenString = .ok claims ↔
      ∃ tok, env.decodeSegments tokenString = some tok ∧ tok.claims = claims ∧
        tok.SignedWith env env.JWT_SECRET_KEY ∧ MapClaims.Valid tok.claims env.now = true := by
  constructor
  · intro hp
    cases hdec : env.decodeSegments tokenString with
    | none => simp [Parse, hdec] at hp
    | some tok =>
      have hs := signedWith_of_parse_ok env tokenString tok claims hdec hp
      refine ⟨tok, rfl, ?_, hs, ?_⟩
      · obtain ⟨alg, ⟨halg, hfam⟩, hsig⟩ := hs
        have hm : GetSigningMethod alg = some (.hmac alg) := by
          rcases hfam with h | h | h <;> subst h <;> decide
        simp only [Parse, hdec, halg, hm, keyFunc] at hp
        split at hp
        · simp at hp
        · split at hp
          · simp at hp
          · simpa using hp
      · obtain ⟨alg, ⟨halg, hfam⟩, hsig⟩ := hs
        have hm : GetSigningMethod alg = some (.hmac alg) := by
          rcases hfam with h | h | h <;> subst h <;> decide
        simp only [Parse, hdec, halg, hm, keyFunc] at hp
        split at hp
        · simp at hp
        · rename_i hv
          simpa using hv
  · rintro ⟨tok, hdec, hcl, ⟨alg, ⟨halg, hfam⟩, hsig⟩, hv⟩
    have hm : GetSigningMethod alg = some (.hmac alg) := by
      rcases hfam with h | h | h <;> subst h <;> decide
    have hver : SigningMethod.Verify env (.hmac alg) tok.signingInput tok.signature
        env.JWT_SECRET_KEY = true := by
      simp [SigningMethod.Verify, hsig]
    simp only [Parse, hdec, halg, hm, keyFunc, hv, hver]
    simp [hcl]

/-- Every request leaves the chain in one of five ways. -/
theorem serve_cases (env : Env) (authHeader : String) :
    (serve env authHeader =
        { index := abortIndex + 1, written := [⟨401, "Authorization header required"⟩],
          userID := none, handlerRuns := 0 } ∧
      (authHeader = "" ∨ HasPrefix authHeader "Bearer " = false)) ∨
    (serve env authHeader =
        { index := abortIndex + 1, written := [⟨401, "Token not provided"⟩],
          userID := none, handlerRuns := 0 } ∧
      authHeader = "Bearer ") ∨
    (∃ tokenString e, authHeader = "Bearer " ++ tokenString ∧ tokenString ≠ "" ∧
      Parse env tokenString = .error e ∧
      serve env authHeader =
        { index := abortIndex + 1, written := [⟨401, "Invalid token"⟩],
          userID := none, handlerRuns := 0 }) ∨
    (∃ tokenString claims, authHeader = "Bearer " ++ tokenString ∧ tokenString ≠ "" ∧
      Parse env tokenString = .ok claims ∧
      (∀ v, claims.lookup "user_id" ≠ some (.number v)) ∧
      serve env authHeader =
        { index := 2, written := [⟨401, "Invalid token claims"⟩],
          userID := none, handlerRuns := 1 }) ∨
    (∃ tokenString claims v, authHeader = "Bearer " ++ tokenString ∧ tokenString ≠ "" ∧
      Parse env tokenString = .ok claims ∧ claims.lookup "user_id" = some (.number v) ∧
      serve env authHeader =
        { index := 3, written := [], userID := some v, handlerRuns := 1 }) := by
  by_cases h0 : authHeader = "" ∨ HasPrefix authHeader "Bearer " = false
  · exact Or.inl ⟨serve_no_bearer env authHeader h0, h0⟩
  · have hp : HasPrefix authHeader "Bearer " = true := by
      cases hh : HasPrefix authHeader "Bearer " with
      | true => rfl
      | false => exact absurd (Or.inr hh) h0
    have hsplit := bearer_split authHeader hp
    generalize TrimPrefix authHeader "Bearer " = tokenString at hsplit
    by_cases hne : tokenString = ""
    · subst hne
      have hb : authHeader = "Bearer " := by rw [hsplit]; decide
      exact Or.inr (Or.inl ⟨by rw [hb]; exact serve_empty_token env, hb⟩)
    · cases hparse : Parse env tokenString with
      | error e =>
        exact Or.inr (Or.inr (Or.inl ⟨tokenString, e, hsplit, hne, hparse,
          by rw [hsplit]; exact serve_parse_error env tokenString e hne hparse⟩))
      | ok claims =>
        by_cases hid : ∃ v, claims.lookup "user_id" = some (.number v)
        · obtain ⟨v, hv⟩ := hid
          exact Or.inr (Or.inr (Or.inr (Or.inr ⟨tokenString, claims, v, hsplit, hne, hparse, hv,
            by rw [hsplit]; exact serve_authenticated env tokenString claims v hne hparse hv⟩)))
        · have hid' : ∀ v, claims.lookup "user_id" ≠ some (.number v) :=
            fun v hv => hid ⟨v, hv⟩
          exact Or.inr (Or.inr (Or.inr (Or.inl ⟨tokenString, claims, hsplit, hne, hparse, hid',
            by rw [hsplit]; exact serve_bad_claims env tokenString claims hne hparse hid'⟩)))

/-! ## The authentication handlers and the middleware, continued: the properties -/

/-- C11, as the code has it: for a request body that binds to the login struct,
`handleLogin` answers 200 with the token `generateJWT` issues for user 1, and when
the codec reads that token back its decoded `user_id` claim is 1; every body that
does not bind, which is the empty body and every body the JSON decoder returns an
error for, is answered 400 with the error "Formato de petición inválido". -/
theorem handleLogin_bound_body (web : Web) (env : Env) (nowNanos : Int) (body : String) :
    ((ShouldBindJSON web.decodeLogin body).isSome = true →
      handleLogin web env nowNanos body = .json 200 "token" (generateJWT env 1 nowNanos) ∧
      (env.ReadsBack (jwtToken 1 nowNanos) env.JWT_SECRET_KEY →
        ∃ tok, env.decodeSegments (generateJWT env 1 nowNanos) = some tok ∧
          tok.claims.lookup "user_id" = some (.number ((1 : Int) : ℚ)))) ∧
    ((ShouldBindJSON web.decodeLogin body).isSome = false →
      handleLogin web env nowNanos body = .json 400 "error" "Formato de petición inválido") ∧
    ((ShouldBindJSON web.decodeLogin body).isSome = false ↔
      (body = "" ∨ web.decodeLogin body = none)) := by
  refine ⟨?_, ?_, ?_⟩
  · intro hbind
    constructor
    · cases hb : ShouldBindJSON web.decodeLogin body with
      | none => simp [hb] at hbind
      | some r => simp only [handleLogin, hb]
    · intro hwire
      refine ⟨_, hwire, ?_⟩
      have hf : float64OfInt 1 = 1 := by decide
      show (unmarshalMap (jwtToken 1 nowNanos).claims).lookup "user_id" = _
      simp only [jwtToken, NewWithClaims, hf]
      rfl
  · intro hbind
    cases hb : ShouldBindJSON web.decodeLogin body with
    | none => simp only [handleLogin, hb]
    | some r => simp [hb] at hbind
  · unfold ShouldBindJSON
    by_cases h0 : body = ""
    · simp [h0]
    · simp [h0]

/-- C11, witness: with the sample decoder, the JSON login body is answered 200 with
a token that decodes to `user_id` 1, and the body `login`, which is no JSON, is
answered 400. -/
theorem handleLogin_bound_body_witness :
    (handleLogin sampleLoginWeb (sampleIssueEnv 1) 1700000000000000000 sampleLoginBody
        = .json 200 "token" (generateJWT (sampleIssueEnv 1) 1 1700000000000000000) ∧
      ∃ tok, (sampleIssueEnv 1).decodeSegments
          (generateJWT (sampleIssueEnv 1) 1 1700000000000000000) = some tok ∧
        tok.claims.lookup "user_id" = some (.number ((1 : Int) : ℚ))) ∧
    handleLogin sampleLoginWeb (sampleIssueEnv 1) 1700000000000000000 "login"
      = .json 400 "error" "Formato de petición inválido" :=
  ⟨⟨((handleLogin_bound_body sampleLoginWeb (sampleIssueEnv 1) 1700000000000000000
        sampleLoginBody).1 (by decide)).1,
      ((handleLogin_bound_body sampleLoginWeb (sampleIssueEnv 1) 1700000000000000000
        sampleLoginBody).1 (by decide)).2 (sampleIssueEnv_readsBack 1)⟩,
    (handleLogin_bound_body sampleLoginWeb (sampleIssueEnv 1) 1700000000000000000
      "login").2.1 (by decide)⟩

/-- C11, counterexample: the empty body is answered 400, also by a handler whose
JSON decoder would take every body. -/
theorem handleLogin_empty_body :
    handleLogin (sampleWeb (.ok payloadFull)) (sampleIssueEnv 1) 1700000000000000000 ""
      = .json 400 "error" "Formato de petición inválido" ∧
    handleLogin sampleLoginWeb (sampleIssueEnv 1) 1700000000000000000 "login"
      = .json 400 "error" "Formato de petición inválido" := by
  refine ⟨by decide, by decide⟩

/-- C12, as the code has it: whatever the header, the middleware either writes
nothing and sets `userID`, or writes exactly one response, with status 401 and one
of the four error texts "Authorization header required", "Token not provided",
"Invalid token" and "Invalid token claims", and leaves `userID` unset. -/
theorem authMiddleware_error_messages (env : Env) (authHeader : String) :
    ((serve env authHeader).written = [] ∧ (serve env authHeader).userID ≠ none) ∨
    (∃ msg, msg ∈ authErrors ∧ (serve env authHeader).written = [⟨401, msg⟩] ∧
      (serve env authHeader).status = some 401 ∧ (serve env authHeader).userID = none) := by
  rcases serve_cases env authHeader with ⟨h, _⟩ | ⟨h, _⟩ | ⟨_, _, _, _, _, h⟩ |
    ⟨_, _, _, _, _, _, h⟩ | ⟨_, _, _, _, _, _, _, h⟩
  · exact Or.inr ⟨"Authorization header required", by simp [authErrors], by rw [h],
      by rw [h]; rfl, by rw [h]⟩
  · exact Or.inr ⟨"Token not provided", by simp [authErrors], by rw [h], by rw [h]; rfl,
      by rw [h]⟩
  · exact Or.inr ⟨"Invalid token", by simp [authErrors], by rw [h], by rw [h]; rfl,
      by rw [h]⟩
  · exact Or.inr ⟨"Invalid token claims", by simp [authErrors], by rw [h], by rw [h]; rfl,
      by rw [h]⟩
  · exact Or.inl ⟨by rw [h], by rw [h]; simp⟩

theorem valid_stringID : MapClaims.Valid claimsStringID 1700000000 = true :=
  valid_of_exp_int _ _ 2000000000 (by decide) (by decide) rfl rfl rfl (Or.inr (by decide))

/-- C12, counterexample: a token signed with the configured secret whose `user_id`
is a string is answered 401 with the error "Invalid token claims". -/
theorem authMiddleware_invalid_token_claims_message :
    (serve (sampleEnvWith claimsStringID) ("Bearer " ++ "h.c.s")).written
      = [⟨401, "Invalid token claims"⟩] ∧
    "Invalid token claims" ≠ "Invalid token" ∧
    "Invalid token claims" ≠ "Authorization header required" := by
  refine ⟨?_, by decide, by decide⟩
  rw [serve_bad_claims _ "h.c.s" claimsStringID (by decide) (sample_parse _ valid_stringID)
    (by intro v h; cases h)]

/-- The middleware with the database in scope, on a bearer header. -/
theorem authMiddleware_withDB_bearer (env : Env) (handler : HandlerFunc) (tokenString : String)
    (c : Context) (db : Tables) (hne : tokenString ≠ "") :
    AuthMiddleware.withDB env handler ("Bearer " ++ tokenString) c db =
      match Parse env tokenString with
      | .error _ => ((c.JSON 401 "Invalid token").Abort, db)
      | .ok claims =>
        match claims.lookup "user_id" with
        | some (.number userID) => (c.Set userID).NextDB handler db
        | _ => (c.JSON 401 "Invalid token claims", db) := by
  simp only [AuthMiddleware.withDB, bearer_ne_empty, hasPrefix_bearer, trimPrefix_bearer, hne]
  simp

/-- With a handler that does nothing, `NextDB` is `Next` next to the tables. -/
theorem nextDB_idle (c : Context) (db : Tables) :
    c.NextDB idleHandler db = (c.Next, db) := by
  simp only [Context.NextDB, Context.Next, idleHandler]
  split <;> rfl

/-- The two translations of the middleware agree: with the database in scope and a
handler that does nothing, the context is the one `AuthMiddleware` leaves. -/
theorem authMiddleware_withDB_idle (env : Env) (authHeader : String) (c : Context)
    (db : Tables) :
    AuthMiddleware.withDB env idleHandler authHeader c db
      = (AuthMiddleware env authHeader c, db) := by
  simp only [AuthMiddleware.withDB, AuthMiddleware]
  split
  · rfl
  · split
    · rfl
    · split
      · rfl
      · split
        · exact nextDB_idle _ _
        · rfl

/-- What the middleware does, for every handler behind it and every database: it
refuses with one fixed context and hands the tables back, or it stores one fixed
user id and passes the tables to the handler. -/
theorem authMiddleware_withDB_cases (env : Env) (authHeader : String) (c : Context) :
    (∃ c' msg, msg ∈ authErrors ∧ c'.written = c.written ++ [⟨401, msg⟩] ∧
      c'.userID = c.userID ∧ c'.handlerRuns = c.handlerRuns ∧
      ∀ (handler : HandlerFunc) (db : Tables),
        AuthMiddleware.withDB env handler authHeader c db = (c', db)) ∨
    (∃ tokenString tok v, authHeader = "Bearer " ++ tokenString ∧ tokenString ≠ "" ∧
      env.decodeSegments tokenString = some tok ∧ tok.Authenticates env v ∧
      ∀ (handler : HandlerFunc) (db : Tables),
        AuthMiddleware.withDB env handler authHeader c db = (c.Set v).NextDB handler db) := by
  by_cases h0 : authHeader = "" ∨ (!HasPrefix authHeader "Bearer ") = true
  · refine Or.inl ⟨(c.JSON 401 "Authorization header required").Abort,
      "Authorization header required", by simp [authErrors], rfl, rfl, rfl, ?_⟩
    intro handler db
    simp only [AuthMiddleware.withDB, if_pos h0]
  · have hp : HasPrefix authHeader "Bearer " = true := by
      cases hh : HasPrefix authHeader "Bearer " with
      | true => rfl
      | false => exact absurd (Or.inr (by simp [hh])) h0
    have hsplit := bearer_split authHeader hp
    by_cases hne : TrimPrefix authHeader "Bearer " = ""
    · refine Or.inl ⟨(c.JSON 401 "Token not provided").Abort, "Token not provided",
        by simp [authErrors], rfl, rfl, rfl, ?_⟩
      intro handler db
      simp only [AuthMiddleware.withDB, if_neg h0, hne, if_true]
    · generalize TrimPrefix authHeader "Bearer " = tokenString at hsplit hne
      subst hsplit
      cases hparse : Parse env tokenString with
      | error e =>
        refine Or.inl ⟨(c.JSON 401 "Invalid token").Abort, "Invalid token",
          by simp [authErrors], rfl, rfl, rfl, ?_⟩
        intro handler db
        rw [authMiddleware_withDB_bearer env handler tokenString c db hne, hparse]
      | ok claims =>
        by_cases hid : ∃ v, claims.lookup "user_id" = some (.number v)
        · obtain ⟨v, hv⟩ := hid
          obtain ⟨tok, hdec, hcl, hs, hval⟩ := (parse_ok_iff env tokenString claims).mp hparse
          refine Or.inr ⟨tokenString, tok, v, rfl, hne, hdec, ⟨hs, hval, by rw [hcl]; exact hv⟩,
            ?_⟩
          intro handler db
          rw [authMiddleware_withDB_bearer env handler tokenString c db hne, hparse]
          simp only [hv]
        · refine Or.inl ⟨c.JSON 401 "Invalid token claims", "Invalid token claims",
            by simp [authErrors], rfl, rfl, rfl, ?_⟩
          intro handler db
          rw [authMiddleware_withDB_bearer env handler tokenString c db hne, hparse]
          simp only
          split
          · rename_i v hv
            exact absurd ⟨v, hv⟩ hid
          · rfl

/-- C16: with the header, the signing key and the clock fixed, the middleware does
the same over every database state and whatever the handler behind it does with
the database. Either it refuses: it writes a 401 with one of its error texts,
leaves `userID` as it was, does not enter the handler on its own and hands the
tables back as it got them. Or the token is signed with the configured key, passes
the time checks and carries a numeric `user_id`: then it stores that id and passes
the tables, untouched, to the handler. A token that authenticates a user id is
accepted for it whatever rows the database holds. In particular, over any two
database states the context it leaves is the same and the tables are unchanged,
and that context is the one `AuthMiddleware` computes without a database. -/
theorem authMiddleware_stateless (env : Env) (authHeader : String) (c : Context) :
    ((∃ c' msg, msg ∈ authErrors ∧ c'.written = c.written ++ [⟨401, msg⟩] ∧
        c'.userID = c.userID ∧ c'.handlerRuns = c.handlerRuns ∧
        ∀ (handler : HandlerFunc) (db : Tables),
          AuthMiddleware.withDB env handler authHeader c db = (c', db)) ∨
      (∃ tokenString tok v, authHeader = "Bearer " ++ tokenString ∧ tokenString ≠ "" ∧
        env.decodeSegments tokenString = some tok ∧ tok.Authenticates env v ∧
        ∀ (handler : HandlerFunc) (db : Tables),
          AuthMiddleware.withDB env handler authHeader c db
            = (c.Set v).NextDB handler db)) ∧
    (∀ tokenString tok v, tokenString ≠ "" → env.decodeSegments tokenString = some tok →
      tok.Authenticates env v →
      ∀ (handler : HandlerFunc) (db : Tables),
        AuthMiddleware.withDB env handler ("Bearer " ++ tokenString) c db
          = (c.Set v).NextDB handler db) ∧
    (∀ db₁ db₂ : Tables,
      (AuthMiddleware.withDB env idleHandler authHeader c db₁).1
        = (AuthMiddleware.withDB env idleHandler authHeader c db₂).1 ∧
      (AuthMiddleware.withDB env idleHandler authHeader c db₁).1.userID
        = (AuthMiddleware.withDB env idleHandler authHeader c db₂).1.userID ∧
      (AuthMiddleware.withDB env idleHandler authHeader c db₁).2 = db₁ ∧
      (AuthMiddleware.withDB env idleHandler authHeader c db₂).2 = db₂) ∧
    (∀ db : Tables,
      AuthMiddleware.withDB env idleHandler authHeader c db
        = (AuthMiddleware env authHeader c, db)) := by
  refine ⟨authMiddleware_withDB_cases env authHeader c, ?_, ?_,
    authMiddleware_withDB_idle env authHeader c⟩
  · rintro t tok v hne hdec ⟨hs, hv, hid⟩ handler db
    have hp : Parse env t = .ok tok.claims :=
      (parse_ok_iff env t tok.claims).mpr ⟨tok, hdec, rfl, hs, hv⟩
    rw [authMiddleware_withDB_bearer env handler t c db hne, hp]
    simp only [hid]
  · intro db₁ db₂
    rcases authMiddleware_withDB_cases env authHeader c with
      ⟨c', _, _, _, _, _, h⟩ | ⟨_, _, v, _, _, _, _, h⟩
    · rw [h idleHandler db₁, h idleHandler db₂]
      exact ⟨rfl, rfl, rfl, rfl⟩
    · rw [h idleHandler db₁, h idleHandler db₂, nextDB_idle, nextDB_idle]
      exact ⟨rfl, rfl, rfl, rfl⟩

theorem valid_user7 : MapClaims.Valid claimsUser7 1700000000 = true :=
  valid_of_exp_int _ _ 2000000000 (by decide) (by decide) rfl rfl rfl (Or.inr (by decide))

/-- The token of user 7 is accepted the same on a database without users, on one
whose only user is another and on one where user 7 is inactive; behind the
middleware a handler may delete every user row, the middleware itself changes
nothing. -/
theorem authMiddleware_accepts_unknown_user :
    Tables.empty.usuarios = [] ∧
    AuthMiddleware.withDB (sampleEnvWith claimsUser7) idleHandler ("Bearer " ++ "h.c.s")
        Context.fresh sampleInactive
      = ({ index := 2, written := [], userID := some ((7 : Int) : ℚ), handlerRuns := 1 },
          sampleInactive) ∧
    AuthMiddleware.withDB (sampleEnvWith claimsUser7) idleHandler ("Bearer " ++ "h.c.s")
        Context.fresh Tables.empty
      = ({ index := 2, written := [], userID := some ((7 : Int) : ℚ), handlerRuns := 1 },
          Tables.empty) ∧
    AuthMiddleware.withDB (sampleEnvWith claimsUser7) idleHandler ("Bearer " ++ "h.c.s")
        Context.fresh sampleTables
      = ({ index := 2, written := [], userID := some ((7 : Int) : ℚ), handlerRuns := 1 },
          sampleTables) ∧
    AuthMiddleware.withDB (sampleEnvWith claimsUser7) sampleWipe ("Bearer " ++ "h.c.s")
        Context.fresh sampleTables
      = ({ index := 2, written := [], userID := some ((7 : Int) : ℚ), handlerRuns := 1 },
          { sampleTables with usuarios := [] }) := by
  have hp := sample_parse claimsUser7 valid_user7
  have hid : claimsUser7.lookup "user_id" = some (.number ((7 : Int) : ℚ)) := rfl
  refine ⟨rfl, ?_, ?_, ?_, ?_⟩
  · rw [authMiddleware_withDB_bearer _ _ "h.c.s" _ _ (by decide), hp]
    simp only [hid]
    rfl
  · rw [authMiddleware_withDB_bearer _ _ "h.c.s" _ _ (by decide), hp]
    simp only [hid]
    rfl
  · rw [authMiddleware_withDB_bearer _ _ "h.c.s" _ _ (by decide), hp]
    simp only [hid]
    rfl
  · rw [authMiddleware_withDB_bearer _ _ "h.c.s" _ _ (by decide), hp]
    simp only [hid]
    rfl

/-- For contrast, a handler that does consult the database: with the request, the
key and the clock fixed, `handleVerifyToken` answers 200 on a database that holds
the user and 500 on one that does not and cannot be written. -/
theorem handleVerifyToken_reads_database :
    (handleVerifyToken (sampleWeb (.ok payloadFull)) (sampleIssueEnv 1) sampleTables
        sampleBeginFails 1700000000000000000 "google-id-token").1
      = .json 200 "token" (generateJWT (sampleIssueEnv 1) 5 1700000000000000000) ∧
    (handleVerifyToken (sampleWeb (.ok payloadFull)) (sampleIssueEnv 1) Tables.empty
        sampleBeginFails 1700000000000000000 "google-id-token").1
      = .json 500 "error"
          ("Error al procesar el usuario: " ++
            "error al iniciar la transacción: dial tcp 10.0.0.5:5432: connection refused") := by
  constructor <;> decide

/-- C17, as the code has it: the middleware sets `userID` to `v` exactly when the
header is `Bearer ` followed by a non-empty token that decodes, is signed with the
configured secret under an HMAC algorithm, passes the time checks of the claims
(`exp`, `iat` and `nbf`) and carries the number `v` as `user_id`; then nothing is
written and the next handler runs once. On every other path `userID` stays unset. -/
theorem authMiddleware_sets_userID_iff (env : Env) (authHeader : String) (v : ℚ) :
    ((serve env authHeader).userID = some v ↔
      ∃ tokenString tok, authHeader = "Bearer " ++ tokenString ∧ tokenString ≠ "" ∧
        env.decodeSegments tokenString = some tok ∧ tok.Authenticates env v) ∧
    ((serve env authHeader).userID = some v →
      (serve env authHeader).written = [] ∧ (serve env authHeader).handlerRuns = 1) := by
  constructor
  · constructor
    · intro hu
      rcases serve_cases env authHeader with ⟨h, _⟩ | ⟨h, _⟩ | ⟨_, _, _, _, _, h⟩ |
        ⟨_, _, _, _, _, _, h⟩ | ⟨t, claims, w, hsplit, hne, hp, hid, h⟩
      · rw [h] at hu; cases hu
      · rw [h] at hu; cases hu
      · rw [h] at hu; cases hu
      · rw [h] at hu; cases hu
      · rw [h] at hu
        have hw : w = v := by simpa using hu
        subst hw
        obtain ⟨tok, hdec, hcl, hs, hv⟩ := (parse_ok_iff env t claims).mp hp
        exact ⟨t, tok, hsplit, hne, hdec, hs, hv, by rw [hcl]; exact hid⟩
    · rintro ⟨t, tok, hsplit, hne, hdec, hs, hv, hid⟩
      have hp : Parse env t = .ok tok.claims :=
        (parse_ok_iff env t tok.claims).mpr ⟨tok, hdec, rfl, hs, hv⟩
      rw [hsplit, serve_authenticated env t tok.claims v hne hp hid]
  · intro hu
    rcases serve_cases env authHeader with ⟨h, _⟩ | ⟨h, _⟩ | ⟨_, _, _, _, _, h⟩ |
      ⟨_, _, _, _, _, _, h⟩ | ⟨_, _, _, _, _, _, _, h⟩
    · rw [h] at hu; cases hu
    · rw [h] at hu; cases hu
    · rw [h] at hu; cases hu
    · rw [h] at hu; cases hu
    · rw [h]
      exact ⟨rfl, rfl⟩

/-- C17, counterexample: at time 1700000000 a token signed with the configured
secret, expiring at 2000000000 and carrying the numeric `user_id` 7, but not valid
before 1900000000, is refused: `userID` is not set. -/
theorem authMiddleware_not_before :
    (sampleSegments claimsNotYetValid).SignedWith (sampleEnvWith claimsNotYetValid) "secret" ∧
    VerifyExpiresAt claimsNotYetValid (sampleEnvWith claimsNotYetValid).now = true ∧
    claimsNotYetValid.lookup "user_id" = some (.number ((7 : Int) : ℚ)) ∧
    (serve (sampleEnvWith claimsNotYetValid) ("Bearer " ++ "h.c.s")).userID = none := by
  have hnbf : VerifyNotBefore claimsNotYetValid 1700000000 = false := by
    have hl : claimsNotYetValid.lookup "nbf" = some (.number ((1900000000 : Int) : ℚ)) := rfl
    have hnz : ((1900000000 : Int) : ℚ) ≠ 0 := by norm_num
    simp only [VerifyNotBefore, hl, numericDateSeconds_intCast 1900000000 (by decide),
      timeUnix_clock 1700000000 (by decide), if_neg hnz]
    decide
  have hexp : VerifyExpiresAt claimsNotYetValid 1700000000 = true := by
    have hl : claimsNotYetValid.lookup "exp" = some (.number ((2000000000 : Int) : ℚ)) := rfl
    have hnz : ((2000000000 : Int) : ℚ) ≠ 0 := by norm_num
    simp only [VerifyExpiresAt, hl, numericDateSeconds_intCast 2000000000 (by decide),
      timeUnix_clock 1700000000 (by decide), if_neg hnz]
    decide
  refine ⟨sample_signed _, hexp, rfl, ?_⟩
  have hdec : (sampleEnvWith claimsNotYetValid).decodeSegments "h.c.s"
      = some (sampleSegments claimsNotYetValid) := by
    simp [sampleEnvWith, sampleEnv]
  have hperr : ∃ e, Parse (sampleEnvWith claimsNotYetValid) "h.c.s" = .error e := by
    cases hp : Parse (sampleEnvWith claimsNotYetValid) "h.c.s" with
    | error e => exact ⟨e, rfl⟩
    | ok claims =>
      obtain ⟨tok, hd, _, _, hv⟩ := (parse_ok_iff _ _ _).mp hp
      rw [hdec] at hd
      cases hd
      have hv' : MapClaims.Valid claimsNotYetValid 1700000000 = true := hv
      simp [MapClaims.Valid, hnbf] at hv'
  obtain ⟨e, he⟩ := hperr
  rw [serve_parse_error _ "h.c.s" e (by decide) he]

/-- The seconds of a whole numeric date, whatever its size. -/
theorem numericDateSeconds_whole (i : Int) :
    numericDateSeconds (i : ℚ)
      = timeUnix (if -9223372036854775808 ≤ i ∧ i < 9223372036854775808 then i
          else -9223372036854775808) 0 := by
  have h0 : truncFloat ((0 : ℚ) * 1000000000) = 0 := by
    rw [zero_mul]
    exact truncFloat_zero
  simp only [numericDateSeconds, modf_intCast, truncFloat_intCast_eq, h0]

/-- The time checks work on 64-bit seconds. At time 1700000000 a token signed with
the configured secret is refused when its `exp` is `10^19`, which `int64` turns into
the least 64-bit integer, and when its `exp` is `2^63 - 1024`, whose seconds counted
from the year 1 wrap around: either is a time long past. -/
theorem authMiddleware_rejects_exp_beyond_int64 :
    numericDateSeconds ((10000000000000000000 : Int) : ℚ) = -9223372036854775808 + 62135596800 ∧
    VerifyExpiresAt claimsExpHuge 1700000000 = false ∧
    (serve (sampleEnvWith claimsExpHuge) ("Bearer " ++ "h.c.s")).written
      = [⟨401, "Invalid token"⟩] ∧
    (serve (sampleEnvWith claimsExpHuge) ("Bearer " ++ "h.c.s")).userID = none ∧
    numericDateSeconds ((9223372036854774784 : Int) : ℚ) = -9223372036854775808 + 62135595776 ∧
    VerifyExpiresAt claimsExpWraps 1700000000 = false ∧
    (serve (sampleEnvWith claimsExpWraps) ("Bearer " ++ "h.c.s")).written
      = [⟨401, "Invalid token"⟩] ∧
    (serve (sampleEnvWith claimsExpWraps) ("Bearer " ++ "h.c.s")).userID = none := by
  have hn1 : numericDateSeconds ((10000000000000000000 : Int) : ℚ)
      = -9223372036854775808 + 62135596800 := by
    rw [numericDateSeconds_whole]
    decide
  have hn2 : numericDateSeconds ((9223372036854774784 : Int) : ℚ)
      = -9223372036854775808 + 62135595776 := by
    rw [numericDateSeconds_whole]
    decide
  have he1 : VerifyExpiresAt claimsExpHuge 1700000000 = false := by
    have hl : claimsExpHuge.lookup "exp"
        = some (.number ((10000000000000000000 : Int) : ℚ)) := rfl
    have hnz : ((10000000000000000000 : Int) : ℚ) ≠ 0 := by norm_num
    simp only [VerifyExpiresAt, hl, if_neg hnz, hn1]
    decide
  have he2 : VerifyExpiresAt claimsExpWraps 1700000000 = false := by
    have hl : claimsExpWraps.lookup "exp"
        = some (.number ((9223372036854774784 : Int) : ℚ)) := rfl
    have hnz : ((9223372036854774784 : Int) : ℚ) ≠ 0 := by norm_num
    simp only [VerifyExpiresAt, hl, if_neg hnz, hn2]
    decide
  obtain ⟨e1, hp1⟩ := parse_error_of_expired (sampleEnvWith claimsExpHuge) "h.c.s"
    (sampleSegments claimsExpHuge) (by simp [sampleEnvWith, sampleEnv]) he1
  obtain ⟨e2, hp2⟩ := parse_error_of_expired (sampleEnvWith claimsExpWraps) "h.c.s"
    (sampleSegments claimsExpWraps) (by simp [sampleEnvWith, sampleEnv]) he2
  refine ⟨hn1, he1, ?_, ?_, hn2, he2, ?_, ?_⟩
  · rw [serve_parse_error _ "h.c.s" e1 (by decide) hp1]
  · rw [serve_parse_error _ "h.c.s" e1 (by decide) hp1]
  · rw [serve_parse_error _ "h.c.s" e2 (by decide) hp2]
  · rw [serve_parse_error _ "h.c.s" e2 (by decide) hp2]


/-! ## The reference tables: lemmas -/

theorem find_none_iff_count_zero {α : Type} (p : α → Bool) (l : List α) :
    l.find? p = none ↔ (l.filter p).length = 0 := by
  rw [List.find?_eq_none, List.length_eq_zero, List.filter_eq_nil_iff]

theorem ensureStudentType_tables (o : Outcome) (tx tx1 : Tables) (id : Int)
    (h : ensureStudentType o tx = .ok (id, tx1)) :
    tx1.estados_usuario = tx.estados_usuario ∧
    ((tx.tipoByCodigo "estudiante" ≠ none ∧ tx1.tipos_usuario = tx.tipos_usuario) ∨
     (tx.tipoByCodigo "estudiante" = none ∧ tx1.tipos_usuario = tx.tipos_usuario ++
        [⟨o.id_tipo_usuario, "estudiante", "Estudiante", "Rol por defecto", 1⟩])) := by
  unfold ensureStudentType at h
  cases h1 : o.selectTipo with
  | some e => simp [h1] at h
  | none =>
    cases h2 : tx.tipoByCodigo "estudiante" with
    | some t =>
      simp only [h1, h2] at h
      injection h with h
      injection h with _ htx
      subst htx
      exact ⟨rfl, Or.inl ⟨by simp, rfl⟩⟩
    | none =>
      cases h3 : o.insertTipo with
      | some e => simp [h1, h2, h3] at h
      | none =>
        simp only [h1, h2, h3] at h
        injection h with h
        injection h with _ htx
        subst htx
        exact ⟨rfl, Or.inr ⟨rfl, rfl⟩⟩

theorem ensureActiveState_tables (o : Outcome) (tx tx1 : Tables) (id : Int)
    (h : ensureActiveState o tx = .ok (id, tx1)) :
    tx1.tipos_usuario = tx.tipos_usuario ∧
    ((tx.estadoByCodigo "activo" ≠ none ∧ tx1.estados_usuario = tx.estados_usuario) ∨
     (tx.estadoByCodigo "activo" = none ∧ tx1.estados_usuario = tx.estados_usuario ++
        [⟨o.id_estado_usuario, "activo", "Activo", "Usuario activo"⟩])) := by
  unfold ensureActiveState at h
  cases h1 : o.selectEstado with
  | some e => simp [h1] at h
  | none =>
    cases h2 : tx.estadoByCodigo "activo" with
    | some t =>
      simp only [h1, h2] at h
      injection h with h
      injection h with _ htx
      subst htx
      exact ⟨rfl, Or.inl ⟨by simp, rfl⟩⟩
    | none =>
      cases h3 : o.insertEstado with
      | some e => simp [h1, h2, h3] at h
      | none =>
        simp only [h1, h2, h3] at h
        injection h with h
        injection h with _ htx
        subst htx
        exact ⟨rfl, Or.inr ⟨rfl, rfl⟩⟩

/-- What a transaction body that ends well has done to the reference tables: each
is as it was when its lookup found a row, and one row longer when it found none. -/
theorem createInTx_tables (o : Outcome) (db tx : Tables) (email name picture : String)
    (id : Int) (h : createInTx o db email name picture = .ok (id, tx)) :
    ((db.tipoByCodigo "estudiante" ≠ none ∧ tx.tipos_usuario = db.tipos_usuario) ∨
     (db.tipoByCodigo "estudiante" = none ∧ tx.tipos_usuario = db.tipos_usuario ++
        [⟨o.id_tipo_usuario, "estudiante", "Estudiante", "Rol por defecto", 1⟩])) ∧
    ((db.estadoByCodigo "activo" ≠ none ∧ tx.estados_usuario = db.estados_usuario) ∨
     (db.estadoByCodigo "activo" = none ∧ tx.estados_usuario = db.estados_usuario ++
        [⟨o.id_estado_usuario, "activo", "Activo", "Usuario activo"⟩])) := by
  unfold createInTx at h
  cases he : ensureStudentType o db with
  | error e => simp [he] at h
  | ok r1 =>
    obtain ⟨i1, tx1⟩ := r1
    obtain ⟨hest1, ht1⟩ := ensureStudentType_tables o db tx1 i1 he
    cases he2 : ensureActiveState o tx1 with
    | error e => simp [he, he2] at h
    | ok r2 =>
      obtain ⟨i2, tx2⟩ := r2
      obtain ⟨htip2, hs2⟩ := ensureActiveState_tables o tx1 tx2 i2 he2
      have hlook : tx1.estadoByCodigo "activo" = db.estadoByCodigo "activo" := by
        simp [Tables.estadoByCodigo, hest1]
      rw [hlook, hest1] at hs2
      cases h7 : o.insertUsuario with
      | some e => simp [he, he2, h7] at h
      | none =>
        cases h8 : o.insertPerfil with
        | some e => simp [he, he2, h7, h8] at h
        | none =>
          simp only [he, he2, h7, h8] at h
          injection h with h
          injection h with _ htx
          subst htx
          refine ⟨?_, hs2⟩
          show (_ ∧ tx2.tipos_usuario = _) ∨ (_ ∧ tx2.tipos_usuario = _)
          rw [htip2]
          exact ht1

/-- What a call does to the reference tables, and that a creation that ends well
went through the transaction. -/
theorem getOrCreateUser_tables (db : Tables) (o : Outcome) (email name picture : String) :
    ((getOrCreateUser db o email name picture).2.tipos_usuario = db.tipos_usuario ∨
     (db.tipoByCodigo "estudiante" = none ∧
      (getOrCreateUser db o email name picture).2.tipos_usuario = db.tipos_usuario ++
        [⟨o.id_tipo_usuario, "estudiante", "Estudiante", "Rol por defecto", 1⟩])) ∧
    ((getOrCreateUser db o email name picture).2.estados_usuario = db.estados_usuario ∨
     (db.estadoByCodigo "activo" = none ∧
      (getOrCreateUser db o email name picture).2.estados_usuario = db.estados_usuario ++
        [⟨o.id_estado_usuario, "activo", "Activo", "Usuario activo"⟩])) ∧
    (db.usuarioByEmail email = none →
      (getOrCreateUser db o email name picture).1.err = none →
      (db.tipoByCodigo "estudiante" = none →
        (getOrCreateUser db o email name picture).2.tipos_usuario ≠ db.tipos_usuario) ∧
      (db.estadoByCodigo "activo" = none →
        (getOrCreateUser db o email name picture).2.estados_usuario
          ≠ db.estados_usuario)) := by
  unfold getOrCreateUser
  cases h1 : o.selectUsuario with
  | some e => exact ⟨Or.inl rfl, Or.inl rfl, by intro _ h; cases h⟩
  | none =>
    cases hu : db.usuarioByEmail email with
    | some u =>
      cases o.updateLogin with
      | some e => exact ⟨Or.inl rfl, Or.inl rfl, by intro h; cases h⟩
      | none => exact ⟨Or.inl rfl, Or.inl rfl, by intro h; cases h⟩
    | none =>
      cases hb : o.beginTx with
      | some e => exact ⟨Or.inl rfl, Or.inl rfl, by intro _ h; cases h⟩
      | none =>
        cases hc : createInTx o db email name picture with
        | error e => exact ⟨Or.inl rfl, Or.inl rfl, by intro _ h; cases h⟩
        | ok r =>
          obtain ⟨id, tx⟩ := r
          obtain ⟨ht, hs⟩ := createInTx_tables o db tx email name picture id hc
          cases hcm : o.commit with
          | some e => exact ⟨Or.inl rfl, Or.inl rfl, by intro _ h; cases h⟩
          | none =>
            refine ⟨?_, ?_, ?_⟩
            · rcases ht with ⟨_, h⟩ | ⟨h0, h⟩
              · exact Or.inl h
              · exact Or.inr ⟨h0, h⟩
            · rcases hs with ⟨_, h⟩ | ⟨h0, h⟩
              · exact Or.inl h
              · exact Or.inr ⟨h0, h⟩
            · intro _ _
              constructor
              · intro hn
                rcases ht with ⟨hne, _⟩ | ⟨_, h⟩
                · exact absurd hn hne
                · show tx.tipos_usuario ≠ _
                  rw [h]
                  simp
              · intro hn
                rcases hs with ⟨hne, _⟩ | ⟨_, h⟩
                · exact absurd hn hne
                · show tx.estados_usuario ≠ _
                  rw [h]
                  simp

/-! ## The reference tables and `handleVerifyToken`: the properties -/

/-- C15: when `tipos_usuario` holds at most one row with code `estudiante` and
`estados_usuario` at most one with code `activo` before a call of `getOrCreateUser`,
the same holds after it; a reference table changes only when the lookup for its code
found no row; and after a creation that ended well each code has exactly one row. -/
theorem getOrCreateUser_reference_rows (db : Tables) (o : Outcome)
    (email name picture : String)
    (ht : db.countTipo "estudiante" ≤ 1) (hs : db.countEstado "activo" ≤ 1) :
    (getOrCreateUser db o email name picture).2.countTipo "estudiante" ≤ 1 ∧
    (getOrCreateUser db o email name picture).2.countEstado "activo" ≤ 1 ∧
    ((getOrCreateUser db o email name picture).2.tipos_usuario ≠ db.tipos_usuario →
      db.tipoByCodigo "estudiante" = none) ∧
    ((getOrCreateUser db o email name picture).2.estados_usuario ≠ db.estados_usuario →
      db.estadoByCodigo "activo" = none) ∧
    (db.usuarioByEmail email = none →
      (getOrCreateUser db o email name picture).1.err = none →
      (getOrCreateUser db o email name picture).2.countTipo "estudiante" = 1 ∧
      (getOrCreateUser db o email name picture).2.countEstado "activo" = 1) := by
  obtain ⟨kt, ks, kc⟩ := getOrCreateUser_tables db o email name picture
  have ct_none : db.tipoByCodigo "estudiante" = none → db.countTipo "estudiante" = 0 := by
    intro h
    exact (find_none_iff_count_zero _ _).mp h
  have cs_none : db.estadoByCodigo "activo" = none → db.countEstado "activo" = 0 := by
    intro h
    exact (find_none_iff_count_zero _ _).mp h
  have ct_some : db.tipoByCodigo "estudiante" ≠ none → db.countTipo "estudiante" = 1 := by
    intro h
    have h0 : db.countTipo "estudiante" ≠ 0 :=
      fun hz => h ((find_none_iff_count_zero _ _).mpr hz)
    omega
  have cs_some : db.estadoByCodigo "activo" ≠ none → db.countEstado "activo" = 1 := by
    intro h
    have h0 : db.countEstado "activo" ≠ 0 :=
      fun hz => h ((find_none_iff_count_zero _ _).mpr hz)
    omega
  have ct_new : ∀ l : List TipoUsuario,
      l = db.tipos_usuario ++ [⟨o.id_tipo_usuario, "estudiante", "Estudiante",
        "Rol por defecto", 1⟩] →
      (l.filter fun t => t.codigo == "estudiante").length = db.countTipo "estudiante" + 1 := by
    intro l hl
    subst hl
    simp [Tables.countTipo, List.filter_append]
  have cs_new : ∀ l : List EstadoUsuario,
      l = db.estados_usuario ++ [⟨o.id_estado_usuario, "activo", "Activo",
        "Usuario activo"⟩] →
      (l.filter fun s => s.codigo == "activo").length = db.countEstado "activo" + 1 := by
    intro l hl
    subst hl
    simp [Tables.countEstado, List.filter_append]
  have ct_same : (getOrCreateUser db o email name picture).2.tipos_usuario = db.tipos_usuario →
      (getOrCreateUser db o email name picture).2.countTipo "estudiante"
        = db.countTipo "estudiante" := by
    intro h
    simp only [Tables.countTipo, h]
  have cs_same :
      (getOrCreateUser db o email name picture).2.estados_usuario = db.estados_usuario →
      (getOrCreateUser db o email name picture).2.countEstado "activo"
        = db.countEstado "activo" := by
    intro h
    simp only [Tables.countEstado, h]
  refine ⟨?_, ?_, ?_, ?_, ?_⟩
  · rcases kt with h | ⟨h0, h⟩
    · rw [ct_same h]; exact ht
    · have := ct_new _ h
      have hz := ct_none h0
      show ((getOrCreateUser db o email name picture).2.tipos_usuario.filter _).length ≤ 1
      omega
  · rcases ks with h | ⟨h0, h⟩
    · rw [cs_same h]; exact hs
    · have := cs_new _ h
      have hz := cs_none h0
      show ((getOrCreateUser db o email name picture).2.estados_usuario.filter _).length ≤ 1
      omega
  · intro hne
    rcases kt with h | ⟨h0, _⟩
    · exact absurd h hne
    · exact h0
  · intro hne
    rcases ks with h | ⟨h0, _⟩
    · exact absurd h hne
    · exact h0
  · intro hnew herr
    obtain ⟨c1, c2⟩ := kc hnew herr
    constructor
    · rcases kt with h | ⟨h0, h⟩
      · rw [ct_same h]
        by_cases hn : db.tipoByCodigo "estudiante" = none
        · exact absurd h (c1 hn)
        · exact ct_some hn
      · have := ct_new _ h
        have hz := ct_none h0
        show ((getOrCreateUser db o email name picture).2.tipos_usuario.filter _).length = 1
        omega
    · rcases ks with h | ⟨h0, h⟩
      · rw [cs_same h]
        by_cases hn : db.estadoByCodigo "activo" = none
        · exact absurd h (c2 hn)
        · exact cs_some hn
      · have := cs_new _ h
        have hz := cs_none h0
        show ((getOrCreateUser db o email name picture).2.estados_usuario.filter _).length = 1
        omega

/-- C15, witness: a first user in an empty database. -/
theorem getOrCreateUser_reference_rows_witness :
    (getOrCreateUser Tables.empty (Outcome.ok 1 1 1 100) "ana@utb.edu.co" "Ana"
      "ana.png").2.countTipo "estudiante" ≤ 1 ∧
    (getOrCreateUser Tables.empty (Outcome.ok 1 1 1 100) "ana@utb.edu.co" "Ana"
      "ana.png").2.countEstado "activo" ≤ 1 ∧
    ((getOrCreateUser Tables.empty (Outcome.ok 1 1 1 100) "ana@utb.edu.co" "Ana"
      "ana.png").2.tipos_usuario ≠ Tables.empty.tipos_usuario →
      Tables.empty.tipoByCodigo "estudiante" = none) ∧
    ((getOrCreateUser Tables.empty (Outcome.ok 1 1 1 100) "ana@utb.edu.co" "Ana"
      "ana.png").2.estados_usuario ≠ Tables.empty.estados_usuario →
      Tables.empty.estadoByCodigo "activo" = none) ∧
    (Tables.empty.usuarioByEmail "ana@utb.edu.co" = none →
      (getOrCreateUser Tables.empty (Outcome.ok 1 1 1 100) "ana@utb.edu.co" "Ana"
        "ana.png").1.err = none →
      (getOrCreateUser Tables.empty (Outcome.ok 1 1 1 100) "ana@utb.edu.co" "Ana"
        "ana.png").2.countTipo "estudiante" = 1 ∧
      (getOrCreateUser Tables.empty (Outcome.ok 1 1 1 100) "ana@utb.edu.co" "Ana"
        "ana.png").2.countEstado "activo" = 1) :=
  getOrCreateUser_reference_rows Tables.empty (Outcome.ok 1 1 1 100) "ana@utb.edu.co" "Ana"
    "ana.png" (by decide) (by decide)

/-- Every run of `handleVerifyToken` ends with a reply of its interface, or it
panics on a validated payload in which `email`, `name` or `picture` is not a string;
a body that does not bind and an empty `token` field are answered 400. -/
theorem handleVerifyToken_cases (web : Web) (env : Env) (db : Tables) (o : Outcome)
    (nowNanos : Int) (body : String) :
    ((handleVerifyToken web env db o nowNanos body).1.Allowed ∨
      ∃ idToken claims, web.validate idToken = .ok claims ∧
        (assertString (claims.lookup "email") = none ∨
         assertString (claims.lookup "name") = none ∨
         assertString (claims.lookup "picture") = none) ∧
        ∃ msg, (handleVerifyToken web env db o nowNanos body).1 = .panic msg) ∧
    (ShouldBindJSON web.decodeToken body = none ∨
        ShouldBindJSON web.decodeToken body = some "" →
      ∃ msg, handleVerifyToken web env db o nowNanos body = (.json 400 "error" msg, db)) := by
  constructor
  · cases hb : ShouldBindJSON web.decodeToken body with
    | none =>
      have hr : handleVerifyToken web env db o nowNanos body
          = (.json 400 "error" "Formato de petición inválido", db) := by
        simp only [handleVerifyToken, hb]
      rw [hr]
      exact Or.inl (Or.inr ⟨Or.inl rfl, rfl⟩)
    | some idToken =>
      by_cases he : idToken = ""
      · have hr : handleVerifyToken web env db o nowNanos body
            = (.json 400 "error" "El token es requerido", db) := by
          simp only [handleVerifyToken, hb, he, if_true]
        rw [hr]
        exact Or.inl (Or.inr ⟨Or.inl rfl, rfl⟩)
      · cases hv : web.validate idToken with
        | error e =>
          have hr : handleVerifyToken web env db o nowNanos body
              = (.json 401 "error" ("Token de Google inválido: " ++ e), db) := by
            simp only [handleVerifyToken, hb, if_neg he, hv]
          rw [hr]
          exact Or.inl (Or.inr ⟨Or.inr (Or.inl rfl), rfl⟩)
        | ok claims =>
          cases h1 : assertString (claims.lookup "email") with
          | none =>
            exact Or.inr ⟨idToken, claims, hv, Or.inl h1,
              "interface conversion: interface {} is not string",
              by simp only [handleVerifyToken, hb, if_neg he, hv, h1]⟩
          | some googleEmail =>
            cases h2 : assertString (claims.lookup "name") with
            | none =>
              exact Or.inr ⟨idToken, claims, hv, Or.inr (Or.inl h2),
                "interface conversion: interface {} is not string",
                by simp only [handleVerifyToken, hb, if_neg he, hv, h1, h2]⟩
            | some googleName =>
              cases h3 : assertString (claims.lookup "picture") with
              | none =>
                exact Or.inr ⟨idToken, claims, hv, Or.inr (Or.inr h3),
                  "interface conversion: interface {} is not string",
                  by simp only [handleVerifyToken, hb, if_neg he, hv, h1, h2, h3]⟩
              | some googlePicture =>
                cases h4 : (getOrCreateUser db o googleEmail googleName googlePicture).1.err with
                | some e =>
                  have hr : (handleVerifyToken web env db o nowNanos body).1
                      = .json 500 "error" ("Error al procesar el usuario: " ++ e) := by
                    simp only [handleVerifyToken, hb, if_neg he, hv, h1, h2, h3, h4]
                  rw [hr]
                  exact Or.inl (Or.inr ⟨Or.inr (Or.inr rfl), rfl⟩)
                | none =>
                  have hr : (handleVerifyToken web env db o nowNanos body).1
                      = .json 200 "token" (generateJWT env
                          (getOrCreateUser db o googleEmail googleName googlePicture).1.userID
                          nowNanos) := by
                    simp only [handleVerifyToken, hb, if_neg he, hv, h1, h2, h3, h4]
                  rw [hr]
                  exact Or.inl (Or.inl ⟨rfl, rfl⟩)
  · intro h
    rcases h with h | h
    · exact ⟨"Formato de petición inválido", by simp only [handleVerifyToken, h]⟩
    · exact ⟨"El token es requerido", by simp only [handleVerifyToken, h, if_true]⟩

/-- C13, the code on a validated Google payload without a `picture` claim: the
type assertion of handlers.go 150 panics; the handler writes none of the replies
of its interface and the tables stay as they were. -/
theorem handleVerifyToken_missing_picture_panics :
    (sampleWeb (.ok payloadNoPicture)).validate "google-id-token"
      = .ok payloadNoPicture ∧
    handleVerifyToken (sampleWeb (.ok payloadNoPicture)) (sampleIssueEnv 1) sampleTables
        (Outcome.ok 2 2 9 200) 1700000000000000000 "google-id-token"
      = (.panic "interface conversion: interface {} is not string", sampleTables) ∧
    ¬ (handleVerifyToken (sampleWeb (.ok payloadNoPicture)) (sampleIssueEnv 1) sampleTables
        (Outcome.ok 2 2 9 200) 1700000000000000000 "google-id-token").1.Allowed := by
  have h : handleVerifyToken (sampleWeb (.ok payloadNoPicture)) (sampleIssueEnv 1) sampleTables
        (Outcome.ok 2 2 9 200) 1700000000000000000 "google-id-token"
      = (.panic "interface conversion: interface {} is not string", sampleTables) := by
    decide
  refine ⟨rfl, h, ?_⟩
  rw [h]
  exact fun hf => hf

/-- C14, the code on a database failure: with a validated Google payload for a new
email and a `BeginTx` that fails, `getOrCreateUser` returns its wrapped error and the
500 reply carries that internal error text after the prefix
"Error al procesar el usuario: ". -/
theorem handleVerifyToken_leaks_database_error :
    (getOrCreateUser Tables.empty sampleBeginFails "ana@utb.edu.co" "Ana" "ana.png").1.err
      = some "error al iniciar la transacción: dial tcp 10.0.0.5:5432: connection refused" ∧
    handleVerifyToken (sampleWeb (.ok payloadFull)) (sampleIssueEnv 1) Tables.empty
        sampleBeginFails 1700000000000000000 "google-id-token"
      = (.json 500 "error"
          ("Error al procesar el usuario: " ++
            "error al iniciar la transacción: dial tcp 10.0.0.5:5432: connection refused"),
         Tables.empty) := by
  constructor <;> decide

/-! ## Feed pagination: lemmas and the property -/

theorem wrapInt64_of_range (x : Int) (h1 : -9223372036854775808 ≤ x)
    (h2 : x ≤ 9223372036854775807) : wrapInt64 x = x := by
  unfold wrapInt64
  omega

/-- The page is at least 1. -/
theorem feedPage_pos (pageParam : Option String) : 1 ≤ feedPage pageParam := by
  unfold feedPage
  simp only
  split <;> omega

/-- Up to page 922337203685477581 the offset is `10 * (page - 1)`. -/
theorem feedWindow_in_range (pageParam : Option String)
    (h : feedPage pageParam ≤ 922337203685477581) :
    feedWindow pageParam = (10, 10 * (feedPage pageParam - 1)) := by
  have hp := feedPage_pos pageParam
  unfold feedWindow
  simp only
  rw [wrapInt64_of_range (feedPage pageParam - 1) (by omega) (by omega),
    wrapInt64_of_range ((feedPage pageParam - 1) * 10) (by omega) (by omega)]
  congr 1
  omega

/-- C18, the code on page 922337203685477582: the page parses as it stands, the
product `(page - 1) * 10` passes `2^63 - 1` and wraps, and the offset handed to the
query is negative. -/
theorem feedWindow_offset_overflow :
    Atoi "922337203685477582" = (922337203685477582, none) ∧
    feedPage (some "922337203685477582") = 922337203685477582 ∧
    feedWindow (some "922337203685477582") = (10, -9223372036854775806) ∧
    (10 : Int) * (922337203685477582 - 1) = 9223372036854775810 := by
  refine ⟨by decide, by decide, by decide, by decide⟩

/-! ## Upload classification and thumbnail: lemmas and the properties -/

theorem lastIndex_none (sep : Char) (l : List Char) (h : sep ∉ l) : LastIndex sep l = none := by
  induction l with
  | nil => rfl
  | cons c rest ih =>
    have hc : c ≠ sep := fun hh => h (by simp [hh])
    have hr : sep ∉ rest := fun hh => h (by simp [hh])
    simp [LastIndex, ih hr, hc]

theorem lastIndex_append (sep : Char) (s e : List Char) (h : sep ∉ e) :
    LastIndex sep (s ++ sep :: e) = some s.length := by
  induction s with
  | nil => simp [LastIndex, lastIndex_none sep e h]
  | cons c rest ih => simp [LastIndex, ih]

theorem extScan_append (l rest acc : List Char) (h1 : '.' ∉ l) (h2 : '/' ∉ l) :
    extScan (l ++ '.' :: rest) acc = '.' :: (l.reverse ++ acc) := by
  induction l generalizing acc with
  | nil => simp [extScan]
  | cons c l ih =>
    have hc1 : c ≠ '.' := fun hh => h1 (by simp [hh])
    have hc2 : c ≠ '/' := fun hh => h2 (by simp [hh])
    have hl1 : '.' ∉ l := fun hh => h1 (by simp [hh])
    have hl2 : '/' ∉ l := fun hh => h2 (by simp [hh])
    simp [extScan, hc1, hc2, ih (c :: acc) hl1 hl2]

/-- The extension of a name that ends in a dot and a suffix free of dots and
slashes is that dot and suffix. -/
theorem ext_append (stem e : String) (h1 : '.' ∉ e.toList) (h2 : '/' ∉ e.toList) :
    Ext (stem ++ "." ++ e) = "." ++ e := by
  apply String.ext
  have hrev : (stem ++ "." ++ e).toList.reverse
      = e.toList.reverse ++ '.' :: stem.toList.reverse := by
    simp [String.toList]
  have h1' : '.' ∉ e.toList.reverse := by simpa using h1
  have h2' : '/' ∉ e.toList.reverse := by simpa using h2
  simp only [Ext, hrev, extScan_append _ _ _ h1' h2']
  simp [String.toList]

theorem urlHostScan_url (scheme host rest : List Char) (h1 : ':' ∉ scheme)
    (h2 : '/' ∉ host) :
    urlHostScan (scheme ++ ':' :: '/' :: '/' :: (host ++ '/' :: rest)) = host := by
  induction scheme with
  | nil =>
    simp only [List.nil_append, urlHostScan]
    induction host with
    | nil => simp
    | cons c host ih =>
      have hc : c ≠ '/' := fun hh => h2 (by simp [hh])
      have hr : '/' ∉ host := fun hh => h2 (by simp [hh])
      have hb : (c != '/') = true := by simp [hc]
      have ih' := ih hr
      simp only [List.cons_append, List.takeWhile, hb]
      exact congrArg (List.cons c) ih'
  | cons c scheme ih =>
    have hc : c ≠ ':' := fun hh => h1 (by simp [hh])
    have hr : ':' ∉ scheme := fun hh => h1 (by simp [hh])
    have hstep : urlHostScan (c :: (scheme ++ ':' :: '/' :: '/' :: (host ++ '/' :: rest)))
        = urlHostScan (scheme ++ ':' :: '/' :: '/' :: (host ++ '/' :: rest)) := by
      rw [urlHostScan]
      intro r hh _
      exact hc hh
    rw [List.cons_append, hstep]
    exact ih hr

/-- The host of a URL `scheme://host/...`. -/
theorem urlHost_url (scheme host rest : String) (h1 : ':' ∉ scheme.toList)
    (h2 : '/' ∉ host.toList) :
    urlHost (scheme ++ "://" ++ host ++ "/" ++ rest) = host := by
  have hl : (scheme ++ "://" ++ host ++ "/" ++ rest).toList
      = scheme.toList ++ ':' :: '/' :: '/' :: (host.toList ++ '/' :: rest.toList) := by
    simp [String.toList]
  apply String.ext
  simp only [urlHost, hl, urlHostScan_url _ _ _ h1 h2]
  rfl

theorem thumbnailURL_cut (stem ext : String) (h : '.' ∉ ext.toList) :
    thumbnailURL "video" (stem ++ "." ++ ext) = stem ++ ".jpg" := by
  have hl : (stem ++ "." ++ ext).toList = stem.toList ++ '.' :: ext.toList := by
    simp [String.toList]
  simp only [thumbnailURL, if_true, hl, lastIndex_append '.' _ _ h]
  apply String.ext
  simp

/-- C19: for a video the stored thumbnail URL is the secure URL up to its last dot
followed by `.jpg`, and the secure URL itself when that has no dot. For a secure URL
`scheme://host/path.ext` that ends in a file extension, this replaces the extension
by `.jpg` and keeps scheme, host and path stem. For any other resource type, images
among them, the thumbnail URL is the secure URL; so an upload classified as image
keeps its URL and one classified as video gets the URL cut at the last dot. -/
theorem thumbnailURL_derivation (resourceType url : String) :
    (resourceType ≠ "video" → thumbnailURL resourceType url = url) ∧
    thumbnailURL "image" url = url ∧
    ('.' ∉ url.toList → thumbnailURL "video" url = url) ∧
    (∀ stem ext : String, '.' ∉ ext.toList → url = stem ++ "." ++ ext →
      thumbnailURL "video" url = stem ++ ".jpg") ∧
    (∀ scheme host path ext : String, ':' ∉ scheme.toList → '/' ∉ host.toList →
      '.' ∉ ext.toList → '/' ∉ ext.toList →
      url = scheme ++ "://" ++ host ++ "/" ++ path ++ "." ++ ext →
      Ext url = "." ++ ext ∧
      thumbnailURL "video" url = scheme ++ "://" ++ host ++ "/" ++ path ++ ".jpg" ∧
      urlHost url = host ∧
      urlHost (thumbnailURL "video" url) = host) ∧
    (∀ (lower : Char → Char) (imageContentTypeID videoContentTypeID : Int) (filename : String),
      thumbnailURL
          (classifyUpload lower imageContentTypeID videoContentTypeID filename).resourceType url
        = if ToLower lower (Ext filename) ∈ imageExtensions then url
          else thumbnailURL "video" url) := by
  refine ⟨?_, ?_, ?_, ?_, ?_, ?_⟩
  · intro h
    simp [thumbnailURL, h]
  · have h : "image" ≠ "video" := by decide
    simp [thumbnailURL, h]
  · intro h
    simp only [thumbnailURL, if_true, lastIndex_none '.' _ h]
  · intro stem ext h hu
    rw [hu]
    exact thumbnailURL_cut stem ext h
  · intro scheme host path ext h1 h2 h3 h4 hu
    have hcut := thumbnailURL_cut (scheme ++ "://" ++ host ++ "/" ++ path) ext h3
    have hext := ext_append (scheme ++ "://" ++ host ++ "/" ++ path) ext h3 h4
    have hh1 : urlHost (scheme ++ "://" ++ host ++ "/" ++ (path ++ "." ++ ext)) = host :=
      urlHost_url scheme host (path ++ "." ++ ext) h1 h2
    have hh2 : urlHost (scheme ++ "://" ++ host ++ "/" ++ (path ++ ".jpg")) = host :=
      urlHost_url scheme host (path ++ ".jpg") h1 h2
    have ha1 : scheme ++ "://" ++ host ++ "/" ++ path ++ "." ++ ext
        = scheme ++ "://" ++ host ++ "/" ++ (path ++ "." ++ ext) := by
      simp only [String.append_assoc]
    have ha2 : scheme ++ "://" ++ host ++ "/" ++ path ++ ".jpg"
        = scheme ++ "://" ++ host ++ "/" ++ (path ++ ".jpg") := by
      simp only [String.append_assoc]
    rw [hu]
    refine ⟨hext, hcut, ?_, ?_⟩
    · rw [ha1]
      exact hh1
    · rw [hcut, ha2]
      exact hh2
  · intro lower i v filename
    have hmem : ToLower lower (Ext filename) ∈ imageExtensions ↔
        (ToLower lower (Ext filename) = ".jpg" ∨ ToLower lower (Ext filename) = ".jpeg" ∨
          ToLower lower (Ext filename) = ".png" ∨ ToLower lower (Ext filename) = ".gif" ∨
          ToLower lower (Ext filename) = ".webp") := by
      simp [imageExtensions]
    have h : "image" ≠ "video" := by decide
    by_cases hi : ToLower lower (Ext filename) ∈ imageExtensions
    · simp only [classifyUpload, if_pos (hmem.mp hi), if_pos hi, thumbnailURL, if_neg h]
    · simp only [classifyUpload, if_neg (fun hh => hi (hmem.mpr hh)), if_neg hi]

/-- C19, witness: a video stored by Cloudinary as `clip.mp4`. -/
theorem thumbnailURL_derivation_witness :
    Ext "https://res.cloudinary.com/demo/video/upload/v1/videos/clip.mp4" = "." ++ "mp4" ∧
    thumbnailURL "video" "https://res.cloudinary.com/demo/video/upload/v1/videos/clip.mp4"
      = "https" ++ "://" ++ "res.cloudinary.com" ++ "/" ++ "demo/video/upload/v1/videos/clip"
        ++ ".jpg" ∧
    urlHost "https://res.cloudinary.com/demo/video/upload/v1/videos/clip.mp4"
      = "res.cloudinary.com" ∧
    urlHost (thumbnailURL "video"
        "https://res.cloudinary.com/demo/video/upload/v1/videos/clip.mp4")
      = "res.cloudinary.com" :=
  (thumbnailURL_derivation "video"
      "https://res.cloudinary.com/demo/video/upload/v1/videos/clip.mp4").2.2.2.2.1
    "https" "res.cloudinary.com" "demo/video/upload/v1/videos/clip" "mp4"
    (by decide) (by decide) (by decide) (by decide) (by decide)

theorem foldCase_toNat (c : Char) (h : 65 ≤ c.toNat ∧ c.toNat ≤ 90) :
    (Char.ofNat (c.toNat + 32)).toNat = c.toNat + 32 := by
  obtain ⟨h1, h2⟩ := h
  generalize c.toNat = n at h1 h2
  interval_cases n <;> decide

/-- Lower-casing does not see the case of an ASCII letter. -/
theorem unicode_toLower_foldCase (lower : Char → Char) (c : Char) :
    unicode.ToLower lower (foldCase c) = unicode.ToLower lower c := by
  unfold foldCase
  by_cases h : 65 ≤ c.toNat ∧ c.toNat ≤ 90
  · have ht := foldCase_toNat c h
    have h127 : c.toNat ≤ 127 := by omega
    have h1 : c.toNat + 32 ≤ 127 := by omega
    have h2 : ¬ (65 ≤ c.toNat + 32 ∧ c.toNat + 32 ≤ 90) := by omega
    simp only [if_pos h, unicode.ToLower, ht, if_pos h127, if_pos h1, if_neg h2]
  · simp only [if_neg h]

/-- On an ASCII rune lower-casing is the change of case of the capitals. -/
theorem unicode_toLower_ascii (lower : Char → Char) (c : Char) (h : c.toNat ≤ 127) :
    unicode.ToLower lower c = foldCase c := by
  simp only [unicode.ToLower, foldCase, if_pos h]

/-- Strings that differ in the case of ASCII letters only have one lower-case form. -/
theorem toLower_eq_of_foldCase_eq (lower : Char → Char) (s t : String)
    (h : s.toList.map foldCase = t.toList.map foldCase) : ToLower lower s = ToLower lower t := by
  have hm : ∀ l : List Char,
      l.map (unicode.ToLower lower) = (l.map foldCase).map (unicode.ToLower lower) := by
    intro l
    rw [List.map_map]
    apply List.map_congr_left
    intro c _
    exact (unicode_toLower_foldCase lower c).symm
  simp only [ToLower]
  rw [hm s.toList, hm t.toList, h]

/-- C20: for every file name, the upload is classified as image (image content type
id, resource type `image`, folder `images`) exactly when its lower-cased final
extension is one of `.jpg`, `.jpeg`, `.png`, `.gif`, `.webp`, and as video (video
content type id, resource type `video`, folder `videos`) otherwise. Two names whose
extensions differ only in the case of letters `A` to `Z` are classified alike, and
the lower-cased form of an ASCII extension is that extension with its capitals
turned into small letters. The final extension of a name ending in a dot and a
suffix free of dots and slashes is that dot and suffix. -/
theorem classifyUpload_by_extension (lower : Char → Char)
    (imageContentTypeID videoContentTypeID : Int) (filename : String) :
    (ToLower lower (Ext filename) ∈ imageExtensions →
      classifyUpload lower imageContentTypeID videoContentTypeID filename
        = ⟨imageContentTypeID, "image", "images"⟩) ∧
    (ToLower lower (Ext filename) ∉ imageExtensions →
      classifyUpload lower imageContentTypeID videoContentTypeID filename
        = ⟨videoContentTypeID, "video", "videos"⟩) ∧
    ((classifyUpload lower imageContentTypeID videoContentTypeID filename).resourceType
        = "image" ↔ ToLower lower (Ext filename) ∈ imageExtensions) ∧
    (∀ other, (Ext other).toList.map foldCase = (Ext filename).toList.map foldCase →
      classifyUpload lower imageContentTypeID videoContentTypeID other
        = classifyUpload lower imageContentTypeID videoContentTypeID filename) ∧
    (∀ other, ToLower lower (Ext other) = ToLower lower (Ext filename) →
      classifyUpload lower imageContentTypeID videoContentTypeID other
        = classifyUpload lower imageContentTypeID videoContentTypeID filename) ∧
    ((∀ c ∈ (Ext filename).toList, c.toNat ≤ 127) →
      ToLower lower (Ext filename) = String.mk ((Ext filename).toList.map foldCase)) ∧
    (∀ stem e : String, '.' ∉ e.toList → '/' ∉ e.toList →
      Ext (stem ++ "." ++ e) = "." ++ e) := by
  have hmem : ∀ x : String, x ∈ imageExtensions ↔
      (x = ".jpg" ∨ x = ".jpeg" ∨ x = ".png" ∨ x = ".gif" ∨ x = ".webp") := by
    intro x
    simp [imageExtensions]
  have hv : "video" ≠ "image" := by decide
  refine ⟨?_, ?_, ?_, ?_, ?_, ?_, ?_⟩
  · intro h
    simp only [classifyUpload, if_pos ((hmem _).mp h)]
  · intro h
    simp only [classifyUpload, if_neg (fun hh => h ((hmem _).mpr hh))]
  · by_cases h : ToLower lower (Ext filename) ∈ imageExtensions
    · simp only [classifyUpload, if_pos ((hmem _).mp h), h]
    · simp only [classifyUpload, if_neg (fun hh => h ((hmem _).mpr hh)), h, hv]
  · intro other h
    simp only [classifyUpload, toLower_eq_of_foldCase_eq lower _ _ h]
  · intro other h
    simp only [classifyUpload, h]
  · intro h
    simp only [ToLower]
    congr 1
    apply List.map_congr_left
    intro c hc
    exact unicode_toLower_ascii lower c (h c hc)
  · intro stem e h1 h2
    exact ext_append stem e h1 h2

/-- C20, witness: `photo.JPG` is an image like `photo.jpg`, whatever the Unicode
tables; `clip.MP4`, `notes.tar.gz` and a name without extension are videos. -/
theorem classifyUpload_by_extension_witness :
    classifyUpload id 1 2 "photo.JPG" = ⟨1, "image", "images"⟩ ∧
    classifyUpload id 1 2 "photo.JPG" = classifyUpload id 1 2 "photo.jpg" ∧
    classifyUpload id 1 2 "Foto.WebP" = ⟨1, "image", "images"⟩ ∧
    classifyUpload id 1 2 "clip.MP4" = ⟨2, "video", "videos"⟩ ∧
    classifyUpload id 1 2 "notes.tar.gz" = ⟨2, "video", "videos"⟩ ∧
    classifyUpload id 1 2 "clip" = ⟨2, "video", "videos"⟩ :=
  ⟨(classifyUpload_by_extension id 1 2 "photo.JPG").1 (by decide),
    (classifyUpload_by_extension id 1 2 "photo.jpg").2.2.2.1 "photo.JPG" (by decide),
    (classifyUpload_by_extension id 1 2 "Foto.WebP").1 (by decide),
    (classifyUpload_by_extension id 1 2 "clip.MP4").2.1 (by decide),
    (classifyUpload_by_extension id 1 2 "notes.tar.gz").2.1 (by decide),
    (classifyUpload_by_extension id 1 2 "clip").2.1 (by decide)⟩

/-! ## The like toggle: lemmas -/

theorem isLikeOf_new (lt u c id : Int) : isLikeOf lt u c ⟨id, u, c, lt⟩ = true := by
  simp [isLikeOf]

theorem isLikeOn_of_isLikeOf (lt u c : Int) (r : Interaccion) (h : isLikeOf lt u c r = true) :
    isLikeOn lt c r = true := by
  simp only [isLikeOf, Bool.and_eq_true] at h
  simp only [isLikeOn, Bool.and_eq_true]
  exact ⟨h.1.2, h.2⟩

/-- The likes on a content are the user's like on it and the likes of the others. -/
theorem count_split (lt u c : Int) (l : List Interaccion) :
    (l.filter (isLikeOn lt c)).length =
      (l.filter (isLikeOf lt u c)).length +
        ((l.filter fun r => !isLikeOf lt u c r).filter (isLikeOn lt c)).length := by
  induction l with
  | nil => rfl
  | cons a l ih =>
    cases hp : isLikeOf lt u c a with
    | true =>
      have hq := isLikeOn_of_isLikeOf lt u c a hp
      simp only [List.filter_cons, hp, hq, if_true, Bool.not_true, List.length_cons]
      simp only [Bool.false_eq_true, if_false]
      omega
    | false =>
      cases hq : isLikeOn lt c a with
      | true =>
        simp only [List.filter_cons, hp, hq, if_true, Bool.not_false, List.length_cons]
        simp only [Bool.false_eq_true, if_false]
        omega
      | false =>
        simp only [List.filter_cons, hp, hq, if_true, Bool.not_false]
        simp only [Bool.false_eq_true, if_false]
        exact ih

/-- Two tables with the same rows of the others and as many likes of the user on
the content have as many likes on the content. -/
theorem countLikes_eq (lt u c : Int) (l₁ l₂ : List Interaccion)
    (hothers : (l₁.filter fun r => !isLikeOf lt u c r) = l₂.filter fun r => !isLikeOf lt u c r)
    (hown : (l₁.filter (isLikeOf lt u c)).length = (l₂.filter (isLikeOf lt u c)).length) :
    countLikes lt c l₁ = countLikes lt c l₂ := by
  simp only [countLikes, count_split lt u c l₁, count_split lt u c l₂, hothers, hown]

theorem toggleLike_absent (lt u c : Int) (s : String) (db : List Interaccion) (o : LikeOutcome)
    (h : o.AllSucceed) (hn : db.find? (isLikeOf lt u c) = none) :
    toggleLike lt u c s db o =
      (.ok s (countLikes lt c (db ++ [⟨o.id_interaccion, u, c, lt⟩])) true,
        db ++ [⟨o.id_interaccion, u, c, lt⟩]) := by
  obtain ⟨h1, h2, _, h4⟩ := h
  simp only [toggleLike, h1, hn, h2, likeResponse, h4]

theorem toggleLike_present (lt u c : Int) (s : String) (db : List Interaccion) (o : LikeOutcome)
    (row : Interaccion) (h : o.AllSucceed) (hf : db.find? (isLikeOf lt u c) = some row) :
    toggleLike lt u c s db o =
      (.ok s (countLikes lt c (db.filter fun r => r.id_interaccion != row.id_interaccion)) false,
        db.filter fun r => r.id_interaccion != row.id_interaccion) := by
  obtain ⟨h1, _, h3, h4⟩ := h
  simp only [toggleLike, h1, hf, h3, likeResponse, h4]

/-- With at most one like of the user on the content, every such row is the one the
lookup finds. -/
theorem like_unique (lt u c : Int) (db : List Interaccion) (row r : Interaccion)
    (hone : (db.filter (isLikeOf lt u c)).length ≤ 1)
    (hf : db.find? (isLikeOf lt u c) = some row)
    (hr : r ∈ db) (hp : isLikeOf lt u c r = true) : r = row := by
  have h1 : r ∈ db.filter (isLikeOf lt u c) := List.mem_filter.mpr ⟨hr, hp⟩
  have h2 : row ∈ db.filter (isLikeOf lt u c) :=
    List.mem_filter.mpr ⟨List.mem_of_find?_eq_some hf, List.find?_some hf⟩
  cases hl : db.filter (isLikeOf lt u c) with
  | nil => rw [hl] at h1; cases h1
  | cons a rest =>
    cases rest with
    | nil =>
      rw [hl] at h1 h2
      simp at h1 h2
      rw [h1, h2]
    | cons b rest' =>
      rw [hl] at hone
      simp at hone

/-- Deleting the found like by its key removes that row and no row of the others. -/
theorem delete_like (lt u c : Int) (db : List Interaccion) (row : Interaccion)
    (hpk : (db.map fun r => r.id_interaccion).Nodup)
    (hone : (db.filter (isLikeOf lt u c)).length ≤ 1)
    (hf : db.find? (isLikeOf lt u c) = some row) :
    ((db.filter fun r => r.id_interaccion != row.id_interaccion).filter
        fun r => !isLikeOf lt u c r) = (db.filter fun r => !isLikeOf lt u c r) ∧
    ((db.filter fun r => r.id_interaccion != row.id_interaccion).filter (isLikeOf lt u c)) = [] ∧
    (db.filter fun r => r.id_interaccion != row.id_interaccion).find? (isLikeOf lt u c) = none ∧
    (db.filter (isLikeOf lt u c)).length = 1 := by
  have hrow : row ∈ db := List.mem_of_find?_eq_some hf
  have hprow : isLikeOf lt u c row = true := List.find?_some hf
  have hkey : ∀ r ∈ db, r.id_interaccion = row.id_interaccion → r = row :=
    fun r hr h => List.inj_on_of_nodup_map hpk hr hrow h
  have hnil : ((db.filter fun r => r.id_interaccion != row.id_interaccion).filter
      (isLikeOf lt u c)) = [] := by
    rw [List.filter_eq_nil_iff]
    intro r hr hp
    obtain ⟨hr1, hr2⟩ := List.mem_filter.mp hr
    have := like_unique lt u c db row r hone hf hr1 hp
    subst this
    simp at hr2
  refine ⟨?_, hnil, ?_, ?_⟩
  · rw [List.filter_filter]
    apply List.filter_congr
    intro r hr
    cases hp : isLikeOf lt u c r with
    | true => simp
    | false =>
      have hne : r.id_interaccion ≠ row.id_interaccion := by
        intro h
        have := hkey r hr h
        subst this
        rw [hprow] at hp
        cases hp
      simp [hne]
  · rw [List.find?_eq_none]
    intro r hr hp
    have : r ∈ (db.filter fun r => r.id_interaccion != row.id_interaccion).filter
        (isLikeOf lt u c) := List.mem_filter.mpr ⟨hr, hp⟩
    rw [hnil] at this
    cases this
  · have hmem : row ∈ db.filter (isLikeOf lt u c) := List.mem_filter.mpr ⟨hrow, hprow⟩
    have hpos : 0 < (db.filter (isLikeOf lt u c)).length := List.length_pos_of_mem hmem
    omega

/-- Deleting a freshly inserted like by its key gives the table back. -/
theorem delete_inserted (db : List Interaccion) (new : Interaccion)
    (hfresh : ∀ r ∈ db, r.id_interaccion ≠ new.id_interaccion) :
    ((db ++ [new]).filter fun r => r.id_interaccion != new.id_interaccion) = db := by
  rw [List.filter_append]
  have h1 : (db.filter fun r => r.id_interaccion != new.id_interaccion) = db := by
    rw [List.filter_eq_self]
    intro r hr
    simpa using hfresh r hr
  rw [h1]
  simp

theorem handleToggleLike_eq (lt : Int) (v : ℚ) (s : String) (c : Int)
    (db : List Interaccion) (o : LikeOutcome) (hs : Atoi s = (c, none)) :
    handleToggleLike lt (some v) s db o = toggleLike lt (truncFloat v) c s db o := by
  simp only [handleToggleLike, hs]

/-- Two successive toggles by one user on one content, statement by statement. -/
theorem toggleLike_twice (lt u c : Int) (s : String) (db : List Interaccion)
    (o₁ o₂ : LikeOutcome) (h₁ : o₁.AllSucceed) (h₂ : o₂.AllSucceed)
    (hpk : (db.map fun r => r.id_interaccion).Nodup)
    (hfresh : ∀ r ∈ db, r.id_interaccion ≠ o₁.id_interaccion)
    (hone : (db.filter (isLikeOf lt u c)).length ≤ 1) :
    (db.find? (isLikeOf lt u c) = none →
      toggleLike lt u c s db o₁ =
        (.ok s (countLikes lt c (db ++ [⟨o₁.id_interaccion, u, c, lt⟩])) true,
          db ++ [⟨o₁.id_interaccion, u, c, lt⟩]) ∧
      toggleLike lt u c s (db ++ [⟨o₁.id_interaccion, u, c, lt⟩]) o₂ =
        (.ok s (countLikes lt c db) false, db)) ∧
    (∀ row, db.find? (isLikeOf lt u c) = some row →
      toggleLike lt u c s db o₁ =
        (.ok s (countLikes lt c
            (db.filter fun r => r.id_interaccion != row.id_interaccion)) false,
          db.filter fun r => r.id_interaccion != row.id_interaccion) ∧
      toggleLike lt u c s (db.filter fun r => r.id_interaccion != row.id_interaccion) o₂ =
        (.ok s (countLikes lt c db) true,
          (db.filter fun r => r.id_interaccion != row.id_interaccion) ++
            [⟨o₂.id_interaccion, u, c, lt⟩]) ∧
      ((db.filter fun r => r.id_interaccion != row.id_interaccion).filter
          fun r => !isLikeOf lt u c r) = (db.filter fun r => !isLikeOf lt u c r) ∧
      (db.filter (isLikeOf lt u c)).length = 1) := by
  constructor
  · intro hn
    refine ⟨toggleLike_absent lt u c s db o₁ h₁ hn, ?_⟩
    have hfind : (db ++ [(⟨o₁.id_interaccion, u, c, lt⟩ : Interaccion)]).find?
        (isLikeOf lt u c)
        = some (⟨o₁.id_interaccion, u, c, lt⟩ : Interaccion) := by
      rw [List.find?_append, hn]
      simp [List.find?, isLikeOf_new]
    rw [toggleLike_present lt u c s _ o₂ _ h₂ hfind]
    have hdel := delete_inserted db ⟨o₁.id_interaccion, u, c, lt⟩ hfresh
    simp only at hdel
    rw [hdel]
  · intro row hf
    obtain ⟨d1, d2, d3, d4⟩ := delete_like lt u c db row hpk hone hf
    refine ⟨toggleLike_present lt u c s db o₁ row h₁ hf, ?_, d1, d4⟩
    rw [toggleLike_absent lt u c s _ o₂ h₂ d3]
    have hcount : countLikes lt c
        ((db.filter fun r => r.id_interaccion != row.id_interaccion) ++
          [⟨o₂.id_interaccion, u, c, lt⟩]) = countLikes lt c db := by
      apply countLikes_eq lt u c
      · rw [List.filter_append, d1]
        simp [isLikeOf_new]
      · rw [List.filter_append, d2, d4]
        simp [isLikeOf_new]
    rw [hcount]

/-! ## The like toggle: the property -/

/-- C21, as the code has it: on a table whose keys are distinct, holding at most
one like of the user on the content, with every statement succeeding and a fresh
key generated: a first call inserts a like when none exists (`isLiked` true) and
deletes the existing one otherwise (`isLiked` false), reporting the number of like
rows of the content after the change; it leaves the rows of other users and
contents as they were. Two successive calls give the table back exactly when no
like existed, and otherwise give it back with the user's like under the newly
generated key: the rows of the others are as they were and the count is the
original one. -/
theorem handleToggleLike_twice (lt : Int) (v : ℚ) (s : String) (c : Int)
    (db : List Interaccion) (o₁ o₂ : LikeOutcome)
    (hs : Atoi s = (c, none)) (h₁ : o₁.AllSucceed) (h₂ : o₂.AllSucceed)
    (hpk : (db.map fun r => r.id_interaccion).Nodup)
    (hfresh : ∀ r ∈ db, r.id_interaccion ≠ o₁.id_interaccion)
    (hone : (db.filter (isLikeOf lt (truncFloat v) c)).length ≤ 1) :
    (db.find? (isLikeOf lt (truncFloat v) c) = none →
      handleToggleLike lt (some v) s db o₁ =
        (.ok s (countLikes lt c (db ++ [⟨o₁.id_interaccion, truncFloat v, c, lt⟩])) true,
          db ++ [⟨o₁.id_interaccion, truncFloat v, c, lt⟩]) ∧
      handleToggleLikeTwice lt (some v) s db o₁ o₂ = (.ok s (countLikes lt c db) false, db)) ∧
    (∀ row, db.find? (isLikeOf lt (truncFloat v) c) = some row →
      handleToggleLike lt (some v) s db o₁ =
        (.ok s (countLikes lt c
            (db.filter fun r => r.id_interaccion != row.id_interaccion)) false,
          db.filter fun r => r.id_interaccion != row.id_interaccion) ∧
      handleToggleLikeTwice lt (some v) s db o₁ o₂ =
        (.ok s (countLikes lt c db) true,
          (db.filter fun r => r.id_interaccion != row.id_interaccion) ++
            [⟨o₂.id_interaccion, truncFloat v, c, lt⟩])) ∧
    ((handleToggleLike lt (some v) s db o₁).2.filter fun r => !isLikeOf lt (truncFloat v) c r)
      = (db.filter fun r => !isLikeOf lt (truncFloat v) c r) ∧
    ((handleToggleLikeTwice lt (some v) s db o₁ o₂).2.filter
        fun r => !isLikeOf lt (truncFloat v) c r)
      = (db.filter fun r => !isLikeOf lt (truncFloat v) c r) ∧
    ((handleToggleLikeTwice lt (some v) s db o₁ o₂).2.filter
        (isLikeOf lt (truncFloat v) c)).length
      = (db.filter (isLikeOf lt (truncFloat v) c)).length ∧
    countLikes lt c (handleToggleLikeTwice lt (some v) s db o₁ o₂).2 = countLikes lt c db := by
  obtain ⟨ha, hp⟩ := toggleLike_twice lt (truncFloat v) c s db o₁ o₂ h₁ h₂ hpk hfresh hone
  have e1 : ∀ d o, handleToggleLike lt (some v) s d o = toggleLike lt (truncFloat v) c s d o :=
    fun d o => handleToggleLike_eq lt v s c d o hs
  simp only [handleToggleLikeTwice, e1]
  cases hf : db.find? (isLikeOf lt (truncFloat v) c) with
  | none =>
    obtain ⟨a1, a2⟩ := ha hf
    have hnil : db.filter (isLikeOf lt (truncFloat v) c) = [] := by
      rw [List.filter_eq_nil_iff]
      exact fun r hr => by simpa using (List.find?_eq_none.mp hf) r hr
    refine ⟨fun _ => ?_, (fun row h => by cases h), ?_, ?_, ?_, ?_⟩
    · rw [a1]
      exact ⟨rfl, a2⟩
    · rw [a1]
      simp [List.filter_append, isLikeOf_new]
    · rw [a1, a2]
    · rw [a1, a2]
    · rw [a1, a2]
  | some row =>
    obtain ⟨p1, p2, p3, p4⟩ := hp row hf
    refine ⟨(fun h => by cases h), fun row' h => ?_, ?_, ?_, ?_, ?_⟩
    · cases h
      rw [p1]
      exact ⟨rfl, p2⟩
    · rw [p1]
      exact p3
    · rw [p1, p2]
      simp only [List.filter_append, p3]
      simp [isLikeOf_new]
    · rw [p1, p2]
      have hnil := (delete_like lt (truncFloat v) c db row hpk hone hf).2.1
      simp only [List.filter_append, hnil, p4]
      simp [isLikeOf_new]
    · rw [p1, p2]
      apply countLikes_eq lt (truncFloat v) c
      · simp only [List.filter_append, p3]
        simp [isLikeOf_new]
      · have hnil := (delete_like lt (truncFloat v) c db row hpk hone hf).2.1
        simp only [List.filter_append, hnil, p4]
        simp [isLikeOf_new]

theorem atoi_nine : Atoi "9" = (9, none) := by decide

/-- C21, witness: user 5 toggles the like on content 9 twice, on the sample table. -/
theorem handleToggleLike_twice_witness :
    (sampleLikes.find? (isLikeOf 3 (truncFloat ((5 : Int) : ℚ)) 9) = none →
      handleToggleLike 3 (some ((5 : Int) : ℚ)) "9" sampleLikes (LikeOutcome.ok 7) =
        (.ok "9" (countLikes 3 9 (sampleLikes ++
            [⟨(LikeOutcome.ok 7).id_interaccion, truncFloat ((5 : Int) : ℚ), 9, 3⟩])) true,
          sampleLikes ++
            [⟨(LikeOutcome.ok 7).id_interaccion, truncFloat ((5 : Int) : ℚ), 9, 3⟩]) ∧
      handleToggleLikeTwice 3 (some ((5 : Int) : ℚ)) "9" sampleLikes (LikeOutcome.ok 7)
          (LikeOutcome.ok 8)
        = (.ok "9" (countLikes 3 9 sampleLikes) false, sampleLikes)) ∧
    (∀ row, sampleLikes.find? (isLikeOf 3 (truncFloat ((5 : Int) : ℚ)) 9) = some row →
      handleToggleLike 3 (some ((5 : Int) : ℚ)) "9" sampleLikes (LikeOutcome.ok 7) =
        (.ok "9" (countLikes 3 9
            (sampleLikes.filter fun r => r.id_interaccion != row.id_interaccion)) false,
          sampleLikes.filter fun r => r.id_interaccion != row.id_interaccion) ∧
      handleToggleLikeTwice 3 (some ((5 : Int) : ℚ)) "9" sampleLikes (LikeOutcome.ok 7)
          (LikeOutcome.ok 8) =
        (.ok "9" (countLikes 3 9 sampleLikes) true,
          (sampleLikes.filter fun r => r.id_interaccion != row.id_interaccion) ++
            [⟨(LikeOutcome.ok 8).id_interaccion, truncFloat ((5 : Int) : ℚ), 9, 3⟩])) ∧
    ((handleToggleLike 3 (some ((5 : Int) : ℚ)) "9" sampleLikes (LikeOutcome.ok 7)).2.filter
        fun r => !isLikeOf 3 (truncFloat ((5 : Int) : ℚ)) 9 r)
      = (sampleLikes.filter fun r => !isLikeOf 3 (truncFloat ((5 : Int) : ℚ)) 9 r) ∧
    ((handleToggleLikeTwice 3 (some ((5 : Int) : ℚ)) "9" sampleLikes (LikeOutcome.ok 7)
        (LikeOutcome.ok 8)).2.filter fun r => !isLikeOf 3 (truncFloat ((5 : Int) : ℚ)) 9 r)
      = (sampleLikes.filter fun r => !isLikeOf 3 (truncFloat ((5 : Int) : ℚ)) 9 r) ∧
    ((handleToggleLikeTwice 3 (some ((5 : Int) : ℚ)) "9" sampleLikes (LikeOutcome.ok 7)
        (LikeOutcome.ok 8)).2.filter (isLikeOf 3 (truncFloat ((5 : Int) : ℚ)) 9)).length
      = (sampleLikes.filter (isLikeOf 3 (truncFloat ((5 : Int) : ℚ)) 9)).length ∧
    countLikes 3 9 (handleToggleLikeTwice 3 (some ((5 : Int) : ℚ)) "9" sampleLikes
        (LikeOutcome.ok 7) (LikeOutcome.ok 8)).2 = countLikes 3 9 sampleLikes :=
  handleToggleLike_twice 3 ((5 : Int) : ℚ) "9" 9 sampleLikes (LikeOutcome.ok 7)
    (LikeOutcome.ok 8) atoi_nine ⟨rfl, rfl, rfl, rfl⟩ ⟨rfl, rfl, rfl, rfl⟩ (by decide)
    (by decide) (by rw [truncFloat_intCast 5 (by decide)]; decide)

/-- C21, counterexample: user 5 has one like on content 9, stored under key 1; after
two calls with every statement succeeding the like is back under the newly
generated key 2, so the table holds another row than before. -/
theorem handleToggleLike_twice_new_key :
    handleToggleLikeTwice 3 (some ((5 : Int) : ℚ)) "9" [⟨1, 5, 9, 3⟩] (LikeOutcome.ok 2)
        (LikeOutcome.ok 2)
      = (.ok "9" 1 true, [⟨2, 5, 9, 3⟩]) ∧
    ([⟨2, 5, 9, 3⟩] : List Interaccion) ≠ [⟨1, 5, 9, 3⟩] := by
  refine ⟨?_, by decide⟩
  simp only [handleToggleLikeTwice, handleToggleLike_eq _ _ _ _ _ _ atoi_nine,
    truncFloat_intCast 5 (by decide)]
  decide

/-- Why the table is taken to hold at most one like of the user on the content: with
two of them, two calls delete both. -/
theorem handleToggleLike_twice_duplicates :
    handleToggleLikeTwice 3 (some ((5 : Int) : ℚ)) "9" [⟨1, 5, 9, 3⟩, ⟨2, 5, 9, 3⟩]
        (LikeOutcome.ok 7) (LikeOutcome.ok 8)
      = (.ok "9" 0 false, []) := by
  simp only [handleToggleLikeTwice, handleToggleLike_eq _ _ _ _ _ _ atoi_nine,
    truncFloat_intCast 5 (by decide)]
  decide

end UTBGO
